import Mathlib

/-!
# pppoat: Base64 codec (`src/base64.c`) and entry point (`src/pppoat.c`)

A shallow embedding of the Base64 routines of pppoat, of the context
functions and of `main`, and the properties established about them.

Modelling conventions.

* A C buffer (`const void *buf`, `const char *base64`, `void *result`) is a
  `List Nat` of byte values; the accompanying `size_t` length is passed
  separately, exactly as in the C signatures. A read `b[i]` is `b.getD i 0`,
  a write `b[i] = v` is `b.set i v`.
* A value stored into an `unsigned char` is reduced modulo 256; `size_t`
  arithmetic that can wrap is reduced modulo `2 ^ 64`.
* A function containing `PPPOAT_ASSERT` returns an `Outcome`: either it
  returns a value, or an assertion fails and the process is aborted.
* A `size_t` loop counter is a natural number. The `int` counter of the
  encoding loop is an integer of 32 bits, compared with `len / 3` after
  conversion to `size_t`. The encoding and decoding loops carry an iteration
  budget that is shown never to run out.
* A function of `pppoat.c` is modelled by the list of the calls it makes to
  functions defined elsewhere, in program order, with its outcome; the values
  these functions return are parameters of the model.
-/

namespace Pppoat

/-! ## Outcomes, error codes -/

/-- Result of running a C function that may fail an assertion. -/
inductive Outcome (α : Type) where
  /-- The function returned the value. -/
  | ret (a : α) : Outcome α
  /-- A `PPPOAT_ASSERT` failed: the process is aborted. -/
  | abort : Outcome α
  /-- The iteration budget of the model ran out (never happens for the
  budgets used below, see `enc_returns` and `dec_loop_fuel`). -/
  | fuel : Outcome α
deriving DecidableEq

/-- Sequencing of C calls: an aborted callee aborts the caller. -/
def Outcome.bind {α β : Type} : Outcome α → (α → Outcome β) → Outcome β
  | .ret a, f => f a
  | .abort, _ => .abort
  | .fuel, _ => .fuel

/-- Modelled from the spec: the macro `PPPOAT_ASSERT` of `trace.h` is not part
of the sources at hand; a failed assertion is a "fatal assertion, not a
recoverable error", so the rest of the function runs only when the condition
holds. -/
def PPPOAT_ASSERT {α : Type} (c : Prop) [Decidable c] (k : Outcome α) : Outcome α :=
  if c then k else .abort

/-- Value of `EINVAL` in `errno.h`. -/
def EINVAL : Int := 22

/-- Value of `ENOMEM` in `errno.h`. -/
def ENOMEM : Int := 12

/-- Modelled from the spec: the macro `P_ERR` of `trace.h` is not part of the
sources at hand; an error is "propagated to the caller", so `P_ERR(e)` has the
value `e`. -/
def P_ERR (e : Int) : Int := e

/-- Number of values of `size_t` (64-bit). -/
def SIZE_MOD : Nat := 2 ^ 64

/-- The padding character `'='`. -/
def PAD : Nat := '='.toNat

/-! ## The alphabet and `strchr` -/

/-- The array `cb64`: the Base 64 alphabet, as character codes. The C array
ends with a NUL terminator, which `strchr` takes into account. -/
def cb64 : List Nat :=
  (("ABCDEFGHIJKLMNOPQRSTUVWXYZ" ++
    "abcdefghijklmnopqrstuvwxyz" ++
    "0123456789+/").toList).map Char.toNat

/-- The C library function `strchr (s, c)` on a NUL-terminated string whose
characters before the terminator are `s`: the offset of the first occurrence
of `c`, or `none` for a `NULL` result. The terminator is part of the string,
so `c = 0` is found at offset `s.length`. -/
def strchr : List Nat → Nat → Option Nat
  | [], c => if c = 0 then some 0 else none
  | x :: s, c => if x = c then some 0 else (strchr s c).map (· + 1)

/-! ## Encoding -/

/-- `pppoat_base64_enc_len`: `(len + 2) / 3 * 4` in `size_t` arithmetic. -/
def pppoat_base64_enc_len (_buf : List Nat) (len : Nat) : Nat :=
  ((len + 2) % SIZE_MOD / 3 * 4) % SIZE_MOD

/-- Largest value of `int`, taken 32 bits wide. -/
def INT_MAX : Int := 2 ^ 31 - 1

/-- Smallest value of `int`, taken 32 bits wide. -/
def INT_MIN : Int := -2 ^ 31

/-- The increment `++i` of the `int` counter. At `i = INT_MAX` ISO C leaves the
result undefined; the model takes the two's-complement wrap-around to
`INT_MIN`, which is what an unoptimised build computes. What is proved of
every input is proved of runs that never make this increment. -/
def int_incr (i : Int) : Int := if i = INT_MAX then INT_MIN else i + 1

/-- Conversion of an `int` to `size_t`: in `i < len / 3` the counter `i` is
an `int` and `len / 3` a `size_t`, so `i` is converted to `size_t` (reduced
modulo `2 ^ 64`) before the comparison. -/
def int_to_size_t (i : Int) : Nat := (i % (SIZE_MOD : Int)).toNat

/-- The four characters written by one iteration of the loop of
`pppoat_base64_enc`, from the unread input `buf2`. -/
def enc_group (buf2 : List Nat) : List Nat :=
  let p0 := cb64.getD (buf2.getD 0 0 >>> 2) 0
  let t := ((buf2.getD 0 0 <<< 4) &&& 0x3f) % 256
  let p1 := cb64.getD ((buf2.getD 1 0 >>> 4) ||| t) 0
  let t := ((buf2.getD 1 0 <<< 2) &&& 0x3f) % 256
  let p2 := cb64.getD ((buf2.getD 2 0 >>> 6) ||| t) 0
  let p3 := cb64.getD (buf2.getD 2 0 &&& 0x3f) 0
  [p0, p1, p2, p3]

/-- The `for (i = 0; i < len / 3; ++i)` loop of `pppoat_base64_enc`, entered
at the test of its condition with the `int` counter `i`; `n` is the value of
`len / 3`. `buf2` is the unread input (`buf2 += 3`), `p` collects the
characters written so far (`p += 4`). The first numeric argument after `n`
bounds the number of times the condition is tested. -/
def enc_loop (n : Nat) : Nat → Int → List Nat → List Nat → Outcome (List Nat × List Nat)
  | 0, _, _, _ => .fuel
  | fuel + 1, i, buf2, p =>
    if int_to_size_t i < n then
      enc_loop n fuel (int_incr i) (buf2.drop 3) (p ++ enc_group buf2)
    else
      .ret (buf2, p)

/-- The body of the loop of `pppoat_base64_enc` run `k` times in a row, from
the unread input `buf2` and the characters `p` written so far. It serves to
state what `enc_loop` computes: `enc_loop_lt`, `enc_loop_overflow`. -/
def enc_iter : Nat → List Nat → List Nat → List Nat × List Nat
  | 0, buf2, p => (buf2, p)
  | k + 1, buf2, p => enc_iter k (buf2.drop 3) (p ++ enc_group buf2)

/-- The part of `pppoat_base64_enc` after the loop: the block `if (len % 3)`,
entered with the unread input `buf2` and the characters `p` written so far. -/
def enc_tail (len : Nat) (buf2 p : List Nat) : List Nat :=
  if len % 3 ≠ 0 then
    let p := p ++ [cb64.getD (buf2.getD 0 0 >>> 2) 0]
    let t := ((buf2.getD 0 0 <<< 4) &&& 0x3f) % 256
    let buf2 := buf2.drop 1
    let p :=
      if len % 3 = 2 then
        p ++ [cb64.getD ((buf2.getD 0 0 >>> 4) ||| t) 0,
              cb64.getD ((buf2.getD 0 0 <<< 2) &&& 0x3f) 0]
      else
        p ++ [cb64.getD t 0]
    p ++ List.replicate (3 - len % 3) PAD
  else
    p

/-- `pppoat_base64_enc`: the characters written to `result`, in order. The
loop tests its condition at most `len / 3 + 1` times (`enc_returns`). -/
def pppoat_base64_enc (buf : List Nat) (len : Nat) (result_len : Nat) :
    Outcome (List Nat) :=
  PPPOAT_ASSERT (result_len = pppoat_base64_enc_len buf len) <|
    (enc_loop (len / 3) (len / 3 + 1) 0 buf []).bind fun r =>
      .ret (enc_tail len r.1 r.2)

/-- The buffer `result` after `pppoat_base64_enc` has written the characters
`s`: the writes go through `p`, which starts at `result` and advances by one
per character, so `s` replaces the first `|s|` characters of the buffer and
the characters after them keep the value they had before the call. -/
def enc_result (result s : List Nat) : List Nat := s ++ result.drop s.length

/-! ## Decoding -/

/-- `pppoat_base64_dec_len`. -/
def pppoat_base64_dec_len (base64 : List Nat) (len : Nat) : Outcome Nat :=
  PPPOAT_ASSERT (len % 4 = 0) <|
    let data_len := len / 4 * 3
    let data_len :=
      if 0 < len ∧ base64.getD (len - 1) 0 = PAD then data_len - 1 else data_len
    let data_len :=
      if 1 < len ∧ base64.getD (len - 2) 0 = PAD then data_len - 1 else data_len
    .ret data_len

/-- The loop `for (i = 0, j = 0; j < rlen; i++)` of `pppoat_base64_dec`,
started in the state `(i, j, p)`; the first argument bounds the number of
iterations. Returns the return code and the contents of `result`. -/
def dec_loop (base64 : List Nat) (len rlen : Nat) :
    Nat → Nat → Nat → List Nat → Outcome (Int × List Nat)
  | 0, _, _, _ => .fuel
  | fuel + 1, i, j, p =>
    if j < rlen then
      PPPOAT_ASSERT (i < len) <|
        match strchr cb64 (base64.getD i 0) with
        | none => .ret (P_ERR (-EINVAL), p)
        | some c =>
          let t := c % 256
          PPPOAT_ASSERT (t &&& 0xc0 = 0) <|
            match i % 4 with
            | 0 =>
              dec_loop base64 len rlen fuel (i + 1) j (p.set j ((t <<< 2) % 256))
            | 1 =>
              let p := p.set j ((p.getD j 0 ||| (t >>> 4)) % 256)
              let j := j + 1
              let p := if j < rlen then p.set j ((t <<< 4) % 256) else p
              dec_loop base64 len rlen fuel (i + 1) j p
            | 2 =>
              let p := p.set j ((p.getD j 0 ||| (t >>> 2)) % 256)
              let j := j + 1
              let p := if j < rlen then p.set j ((t <<< 6) % 256) else p
              dec_loop base64 len rlen fuel (i + 1) j p
            | 3 =>
              let p := p.set j ((p.getD j 0 ||| t) % 256)
              dec_loop base64 len rlen fuel (i + 1) (j + 1) p
            | _ => dec_loop base64 len rlen fuel (i + 1) j p
    else
      .ret (0, p)

/-- `pppoat_base64_dec`: return code and final contents of `result`. -/
def pppoat_base64_dec (base64 : List Nat) (len : Nat) (result : List Nat)
    (result_len : Nat) : Outcome (Int × List Nat) :=
  PPPOAT_ASSERT (len % 4 = 0) <|
    (pppoat_base64_dec_len base64 len).bind fun n =>
      PPPOAT_ASSERT (result_len = n) <|
        (pppoat_base64_dec_len base64 len).bind fun rlen =>
          dec_loop base64 len rlen (len + 1) 0 0 result

/-! ## Validation -/

/-- `pppoat_base64_is_valid`. The loop
`for (i = 0; valid && i < len; ++i) valid = strchr(...) != NULL` visits
`i = 0, 1, ...` and stops changing `valid` once it is false. -/
def pppoat_base64_is_valid (base64 : List Nat) (len : Nat) : Bool :=
  let valid := decide (len % 4 = 0)
  if valid then
    let len :=
      if len ≠ 0 then
        let len := if base64.getD (len - 1) 0 = PAD then len - 1 else len
        let len := if base64.getD (len - 1) 0 = PAD then len - 1 else len
        len
      else
        len
    (List.range len).foldl
      (fun valid i =>
        if valid then (strchr cb64 (base64.getD i 0)).isSome else valid)
      valid
  else
    valid

/-- The length up to which `pppoat_base64_is_valid` checks characters: `len`
less one for `=` in the last position and, then, one more for `=` in the new
last position. -/
def checked_len (base64 : List Nat) (len : Nat) : Nat :=
  if len ≠ 0 then
    let len := if base64.getD (len - 1) 0 = PAD then len - 1 else len
    let len := if base64.getD (len - 1) 0 = PAD then len - 1 else len
    len
  else
    len

/-! ## Checked decoding -/

/-- The caller's out-parameters of `pppoat_base64_dec_new`: `*result`
(`none` is `NULL`) and `*result_len`. -/
structure DecNewOut where
  result : Option (List Nat)
  result_len : Nat
deriving DecidableEq

/-- `pppoat_base64_dec_new`. The allocator `pppoat_alloc` (`memory.h`) is a
parameter: it yields a fresh buffer or `none` for `NULL`. -/
def pppoat_base64_dec_new (pppoat_alloc : Nat → Option (List Nat))
    (base64 : List Nat) (len : Nat) (out : DecNewOut) :
    Outcome (Int × DecNewOut) :=
  (pppoat_base64_dec_len base64 len).bind fun rlen =>
    let rc : Int := if pppoat_base64_is_valid base64 len then 0 else P_ERR (-EINVAL)
    let (rc, out) :=
      if rc = 0 then
        let out := { out with result := pppoat_alloc rlen }
        ((if out.result = none then P_ERR (-ENOMEM) else 0), out)
      else
        (rc, out)
    if rc = 0 then
      (pppoat_base64_dec base64 len (out.result.getD []) rlen).bind fun r =>
        PPPOAT_ASSERT (r.1 = 0) <|
          .ret (r.1, { result := some r.2, result_len := rlen })
    else
      .ret (rc, out)

/-! ## Reference definitions, following the specification -/

/-- The alphabet as the specification words it: upper-case letters, then
lower-case letters, then digits, then `+` and `/`. -/
def alphabet : List Nat :=
  (List.range 26).map (· + 'A'.toNat) ++
  (List.range 26).map (· + 'a'.toNat) ++
  (List.range 10).map (· + '0'.toNat) ++
  ['+'.toNat, '/'.toNat]

/-- Character of the alphabet at a 6-bit position. -/
def alphabetAt (v : Nat) : Nat := alphabet.getD v 0

/-- RFC 4648 reference encoding: 3-byte groups give 4 characters by the
standard 6-bit packing, a final group of 1 or 2 bytes is zero-filled and
padded with `=`. -/
def rfc4648_encode : List Nat → List Nat
  | b0 :: b1 :: b2 :: rest =>
    alphabetAt (b0 >>> 2) ::
    alphabetAt (((b0 &&& 3) <<< 4) ||| (b1 >>> 4)) ::
    alphabetAt (((b1 &&& 15) <<< 2) ||| (b2 >>> 6)) ::
    alphabetAt (b2 &&& 63) :: rfc4648_encode rest
  | [b0, b1] =>
    [alphabetAt (b0 >>> 2), alphabetAt (((b0 &&& 3) <<< 4) ||| (b1 >>> 4)),
     alphabetAt ((b1 &&& 15) <<< 2), PAD]
  | [b0] =>
    [alphabetAt (b0 >>> 2), alphabetAt ((b0 &&& 3) <<< 4), PAD, PAD]
  | [] => []

/-- The value `ceil(n/3) * 4` of the specification, over the rationals. -/
def spec_encoded_length (n : Nat) : Nat := ⌈(n : ℚ) / 3⌉₊ * 4

/-- Strip one trailing `=`, if there is one. -/
def strip_pad (text : List Nat) : List Nat :=
  if text.getLast? = some PAD then text.dropLast else text

/-- Strip at most two trailing `=`. -/
def strip_pads (text : List Nat) : List Nat := strip_pad (strip_pad text)

/-- Validity as the specification words it: the length is a multiple of 4 and,
after stripping at most two trailing `=`, every remaining character is in the
alphabet. -/
def spec_is_valid (text : List Nat) : Prop :=
  text.length % 4 = 0 ∧ ∀ c ∈ strip_pads text, c ∈ alphabet

instance (text : List Nat) : Decidable (spec_is_valid text) := by
  unfold spec_is_valid; infer_instance

/-- The character at index `i` is a valid trailing pad: it is `=` and it is
the last character, or the last but one followed by `=`. -/
def valid_pad (text : List Nat) (i : Nat) : Prop :=
  text.getD i 0 = PAD ∧
    (i + 1 = text.length ∨ (i + 2 = text.length ∧ text.getD (i + 1) 0 = PAD))

instance (text : List Nat) (i : Nat) : Decidable (valid_pad text i) := by
  unfold valid_pad; infer_instance

/-- The character at index `i` is neither in the alphabet nor a valid trailing
pad. -/
def bad_char (text : List Nat) (i : Nat) : Prop :=
  i < text.length ∧ text.getD i 0 ∉ alphabet ∧ ¬ valid_pad text i

instance (text : List Nat) (i : Nat) : Decidable (bad_char text i) := by
  unfold bad_char; infer_instance

/-- Length (0, 1 or 2) of the run of `=` at the very end of the text, counted
up to two. -/
def trailing_pads (text : List Nat) : Nat :=
  ((text.reverse.take 2).takeWhile (· = PAD)).length

/-- Number of `=` among the last two characters of the text, each counted on
its own. -/
def pads_in_last_two (text : List Nat) : Nat :=
  ((text.reverse.take 2).filter (· = PAD)).length

/-- Position of a character in the alphabet (64 when it is not in it). -/
def alphabet_pos (c : Nat) : Nat := alphabet.indexOf c

/-- Reference bit reassembly: byte `k` of the decoded data, from the 6-bit
alphabet positions `v0 .. v3` of the four characters of group `k / 3`. -/
def ref_byte (text : List Nat) (k : Nat) : Nat :=
  let v := fun m => alphabet_pos (text.getD (4 * (k / 3) + m) 0)
  match k % 3 with
  | 0 => (v 0 <<< 2) ||| (v 1 >>> 4)
  | 1 => ((v 1 &&& 15) <<< 4) ||| (v 2 >>> 2)
  | _ => ((v 2 &&& 3) <<< 6) ||| v 3


/-! ### An input on which the `int` counter of the encoder overflows -/

/-- An input of `3 * 2 ^ 31 + 4 = 6442450948` bytes: `3 * 2 ^ 31` zero bytes,
then `4D 61 6E FF`. For this length `len / 3 = 2 ^ 31 + 1` exceeds
`INT_MAX`. -/
def overflow_input : List Nat := List.replicate 6442450944 0 ++ [0x4D, 0x61, 0x6E, 0xFF]

/-- The `4 * 2 ^ 31 + 4 = 8589934596` characters `pppoat_base64_enc` writes
for `overflow_input` (`enc_overflow_input`): the encoding of the `3 * 2 ^ 31`
zero bytes, then `TQ==`. -/
def overflow_text : List Nat :=
  rfc4648_encode (List.replicate 6442450944 0) ++ [84, 81, 61, 61]

/-- A result buffer of `8589934600` characters, each of them `!` before the
call. -/
def overflow_buffer : List Nat := List.replicate 8589934600 33
/-! ## The context and the entry point (`src/pppoat.c`)

The functions of `pppoat.c` call into the rest of the program (configuration,
logging, modules, pipeline, semaphore) and into the C library. A run is
modelled by the sequence of these calls, in program order, together with the
outcome; what the called functions return is given by an environment. The
signal handler is a run of its own: a trace of `main` holds the calls of
`main` and of the functions it calls, not those of a handler that interrupts
it. -/

/-- Sub-components of the context `struct pppoat`: `p_conf`, `p_pkts`,
`p_pipeline`. -/
inductive Comp where
  | conf : Comp
  | pkts : Comp
  | pipeline : Comp
deriving DecidableEq

/-- The two modules of `main`: `mod` (interface) and `mod2` (transport). -/
inductive Mod where
  | mod : Mod
  | mod2 : Mod
deriving DecidableEq

/-- Objects obtained from `pppoat_alloc` and given to `pppoat_free`. -/
inductive Mem where
  | ctx : Mem
  | comp (c : Comp) : Mem
  | module (m : Mod) : Mem
  | file : Mem
deriving DecidableEq

/-- Signals named in `pppoat.c`. -/
inductive Sig where
  | SIGTERM : Sig
  | SIGINT : Sig
  | SIGPIPE : Sig
deriving DecidableEq

/-- Signal dispositions: default, ignore, or `pppoat_sighandler`. -/
inductive Disp where
  | SIG_DFL : Disp
  | SIG_IGN : Disp
  | handler : Disp
deriving DecidableEq

/-- Log levels of `pppoat_debug`, `pppoat_info`, `pppoat_error`. -/
inductive Level where
  | debug : Level
  | info : Level
  | error : Level
deriving DecidableEq

/-- A call made by `pppoat.c` to a function defined elsewhere. -/
inductive Event where
  /-- Call of `pppoat_log_init`; the flag tells whether `conf` is non-NULL. -/
  | pppoat_log_init (conf : Bool) : Event
  | pppoat_log_fini : Event
  /-- Call of `pppoat_debug`, `pppoat_info` or `pppoat_error`. -/
  | pppoat_log (l : Level) : Event
  | fprintf_stderr : Event
  | pppoat_alloc (o : Mem) : Event
  | pppoat_free (o : Mem) : Event
  /-- Call of `pppoat_conf_init`, `pppoat_packets_init`, `pppoat_pipeline_init`. -/
  | comp_init (c : Comp) : Event
  /-- Call of `pppoat_conf_fini`, `pppoat_packets_fini`, `pppoat_pipeline_fini`. -/
  | comp_fini (c : Comp) : Event
  | pppoat_semaphore_init : Event
  | pppoat_semaphore_post : Event
  | pppoat_semaphore_wait : Event
  | pppoat_semaphore_fini : Event
  | sigaction (s : Sig) (d : Disp) : Event
  | signal (s : Sig) (d : Disp) : Event
  | pppoat_conf_read_argv : Event
  | pppoat_conf_find_string_alloc : Event
  | pppoat_conf_read_file : Event
  | pppoat_conf_dump : Event
  | pppoat_conf_find_bool_help : Event
  | pppoat_conf_find_bool_server : Event
  | pppoat_conf_print_usage : Event
  | pppoat_conf_store : Event
  | pppoat_module_init (m : Mod) : Event
  | pppoat_pipeline_add_module (m : Mod) : Event
  | pppoat_module_run (m : Mod) : Event
  | pppoat_pipeline_ready (ready : Bool) : Event
  | pppoat_module_stop (m : Mod) : Event
  | pppoat_module_fini (m : Mod) : Event
deriving DecidableEq

/-- Position of the called function in the list of `Event`. -/
def Event.ctor : Event → Nat
  | .pppoat_log_init _ => 0
  | .pppoat_log_fini => 1
  | .pppoat_log _ => 2
  | .fprintf_stderr => 3
  | .pppoat_alloc _ => 4
  | .pppoat_free _ => 5
  | .comp_init _ => 6
  | .comp_fini _ => 7
  | .pppoat_semaphore_init => 8
  | .pppoat_semaphore_post => 9
  | .pppoat_semaphore_wait => 10
  | .pppoat_semaphore_fini => 11
  | .sigaction _ _ => 12
  | .signal _ _ => 13
  | .pppoat_conf_read_argv => 14
  | .pppoat_conf_find_string_alloc => 15
  | .pppoat_conf_read_file => 16
  | .pppoat_conf_dump => 17
  | .pppoat_conf_find_bool_help => 18
  | .pppoat_conf_find_bool_server => 19
  | .pppoat_conf_print_usage => 20
  | .pppoat_conf_store => 21
  | .pppoat_module_init _ => 22
  | .pppoat_pipeline_add_module _ => 23
  | .pppoat_module_run _ => 24
  | .pppoat_pipeline_ready _ => 25
  | .pppoat_module_stop _ => 26
  | .pppoat_module_fini _ => 27

/-- Equality of calls, decided on the called function first and on the
arguments only when the function is the same. -/
instance Event.decEq : DecidableEq Event := fun a b =>
  if h : a.ctor = b.ctor then instDecidableEqEvent a b
  else isFalse (fun e => h (congrArg Event.ctor e))

/-- A run of a C function: the calls it made, in order, and its outcome. -/
structure Prog (α : Type) where
  trace : List Event
  out : Outcome α
deriving DecidableEq

/-- Sequencing: the second part runs when the first one returned. -/
def Prog.bind {α β : Type} (m : Prog α) (f : α → Prog β) : Prog β :=
  match m.out with
  | .ret a => ⟨m.trace ++ (f a).trace, (f a).out⟩
  | .abort => ⟨m.trace, .abort⟩
  | .fuel => ⟨m.trace, .fuel⟩

instance : Monad Prog where
  pure a := ⟨[], .ret a⟩
  bind := Prog.bind

/-- The run `p` preceded by the call `e`. -/
def Prog.cons {α : Type} (e : Event) (p : Prog α) : Prog α := ⟨e :: p.trace, p.out⟩

/-- One call of an outside function. -/
def Prog.call (e : Event) : Prog Unit := ⟨[e], .ret ()⟩

/-- The assertion `PPPOAT_ASSERT (c)` between calls. -/
def Prog.assert (c : Prop) [Decidable c] : Prog Unit := ⟨[], PPPOAT_ASSERT c (.ret ())⟩

/-- Value of `ENOENT` in `errno.h`. -/
def ENOENT : Int := 2

/-- Function `log_init`: `rc` is what `pppoat_log_init` returns. -/
def log_init (conf : Bool) (rc : Int) : Prog Int := do
  Prog.call (.pppoat_log_init conf)
  if rc ≠ 0 then
    Prog.call .fprintf_stderr
  pure rc

/-- What the callees of `pppoat_init` return: whether each `pppoat_alloc`
gives a non-NULL pointer, and the return codes of the three initialisers. -/
structure InitEnv where
  conf_alloc : Bool
  pkts_alloc : Bool
  pipeline_alloc : Bool
  conf_init_rc : Int
  packets_init_rc : Int
  pipeline_init_rc : Int

/-- Label `err_free` of `pppoat_init`. -/
def err_free (rc : Int) : Prog Int := do
  Prog.call (.pppoat_free (.comp .pipeline))
  Prog.call (.pppoat_free (.comp .pkts))
  Prog.call (.pppoat_free (.comp .conf))
  Prog.assert (rc ≠ 0)
  pure rc

/-- Label `err_conf_fini` of `pppoat_init`. -/
def err_conf_fini (rc : Int) : Prog Int := do
  Prog.call (.comp_fini .conf)
  err_free rc

/-- Label `err_pkts_fini` of `pppoat_init`. -/
def err_pkts_fini (rc : Int) : Prog Int := do
  Prog.call (.comp_fini .pkts)
  err_conf_fini rc

/-- Function `pppoat_init`. -/
def pppoat_init (env : InitEnv) : Prog Int := do
  Prog.call (.pppoat_alloc (.comp .conf))
  Prog.call (.pppoat_alloc (.comp .pkts))
  Prog.call (.pppoat_alloc (.comp .pipeline))
  if ¬ env.conf_alloc ∨ ¬ env.pkts_alloc ∨ ¬ env.pipeline_alloc then
    err_free (P_ERR (-ENOMEM))
  else do
    Prog.call (.comp_init .conf)
    if env.conf_init_rc ≠ 0 then
      err_free env.conf_init_rc
    else do
      Prog.call (.comp_init .pkts)
      if env.packets_init_rc ≠ 0 then
        err_conf_fini env.packets_init_rc
      else do
        Prog.call (.comp_init .pipeline)
        if env.pipeline_init_rc ≠ 0 then
          err_pkts_fini env.pipeline_init_rc
        else
          pure 0

/-- Function `pppoat_fini`. -/
def pppoat_fini : Prog Unit := do
  Prog.call (.comp_fini .pipeline)
  Prog.call (.comp_fini .pkts)
  Prog.call (.comp_fini .conf)
  Prog.call (.pppoat_free (.comp .pipeline))
  Prog.call (.pppoat_free (.comp .pkts))
  Prog.call (.pppoat_free (.comp .conf))

/-- Function `pppoat_sighandler`: the call of `pppoat_debug`, then the post of
`exit_sem`. -/
def pppoat_sighandler (_signo : Int) : Prog Unit := do
  Prog.call (.pppoat_log .debug)
  Prog.call .pppoat_semaphore_post

/-- Function `pppoat_cleanup`; the flag tells whether `ctx` is non-NULL. -/
def pppoat_cleanup (ctx : Bool) : Prog Unit := do
  if ctx then
    pppoat_fini
    Prog.call (.pppoat_free .ctx)
  Prog.call (.sigaction .SIGTERM .SIG_DFL)
  Prog.call (.sigaction .SIGINT .SIG_DFL)
  Prog.call .pppoat_semaphore_fini

/-- What the functions called by `main` return. -/
structure MainEnv where
  /-- Return code of `pppoat_log_init (NULL, ...)`. -/
  log_init_rc : Int
  /-- Return value of `sigaction (SIGTERM, ...)`. -/
  sigaction_term_rc : Int
  /-- Return value of `sigaction (SIGINT, ...)`. -/
  sigaction_int_rc : Int
  /-- Value of `errno` after a failed `sigaction` (a positive error number). -/
  errno_sigaction : ℕ+
  /-- Whether `signal (SIGPIPE, SIG_IGN)` returns `SIG_ERR`. -/
  signal_err : Bool
  /-- Value of `errno` after a failed `signal` (a positive error number). -/
  errno_signal : ℕ+
  /-- Whether `pppoat_alloc (sizeof (*ctx))` is non-NULL. -/
  ctx_alloc : Bool
  /-- The callees of `pppoat_init`. -/
  init : InitEnv
  conf_read_argv_rc : Int
  /-- Return code of `pppoat_conf_find_string_alloc (..., "config", &file)`. -/
  conf_find_rc : Int
  conf_read_file_rc : Int
  /-- Return code of `pppoat_log_init (ctx->p_conf, ...)`. -/
  log_init_conf_rc : Int
  /-- Value stored in `help` by `pppoat_conf_find_bool`. -/
  help : Bool
  /-- Value stored in `server` by `pppoat_conf_find_bool`. -/
  server : Bool
  conf_store_rc : Int
  mod_alloc : Bool
  mod2_alloc : Bool
  mod_init_rc : Int
  mod2_init_rc : Int
  mod_run_rc : Int
  mod2_run_rc : Int

/-- Label `exit` of `main`. -/
def main_exit : Prog Int := do
  pppoat_cleanup true
  Prog.call .pppoat_log_fini
  pure 0

/-- Function `main` from the lookup of the `server` flag on: the modules are
set up and run, `main` waits on `exit_sem` and, once the wait has returned,
shuts down. -/
def main_pipeline (env : MainEnv) : Prog Int := do
  Prog.call .pppoat_conf_find_bool_server
  if env.server then
    Prog.call .pppoat_conf_store
    Prog.assert (env.conf_store_rc = 0)
  Prog.call (.pppoat_alloc (.module .mod))
  Prog.assert (env.mod_alloc = true)
  Prog.call (.pppoat_alloc (.module .mod2))
  Prog.assert (env.mod2_alloc = true)
  Prog.call (.pppoat_module_init .mod)
  Prog.assert (env.mod_init_rc = 0)
  Prog.call (.pppoat_module_init .mod2)
  Prog.assert (env.mod2_init_rc = 0)
  Prog.call (.pppoat_pipeline_add_module .mod)
  Prog.call (.pppoat_pipeline_add_module .mod2)
  Prog.call (.pppoat_module_run .mod)
  Prog.assert (env.mod_run_rc = 0)
  Prog.call (.pppoat_module_run .mod2)
  Prog.assert (env.mod2_run_rc = 0)
  Prog.call (.pppoat_pipeline_ready true)
  Prog.call .pppoat_semaphore_wait
  Prog.call (.pppoat_pipeline_ready false)
  Prog.call (.pppoat_module_stop .mod)
  Prog.call (.pppoat_module_stop .mod2)
  Prog.call (.pppoat_module_fini .mod)
  Prog.call (.pppoat_module_fini .mod2)
  Prog.call (.pppoat_free (.module .mod))
  Prog.call (.pppoat_free (.module .mod2))
  main_exit

/-- Function `main` from `pppoat_conf_dump` on: logging is re-initialised
and help is printed if the user asks. -/
def main_configured (env : MainEnv) : Prog Int := do
  Prog.call .pppoat_conf_dump
  Prog.call .pppoat_log_fini
  let rc ← log_init true env.log_init_conf_rc
  if rc ≠ 0 then
    pppoat_cleanup true
    pure 1
  else do
    Prog.call .pppoat_conf_find_bool_help
    if env.help then
      Prog.call .pppoat_conf_print_usage
      main_exit
    else
      main_pipeline env

/-- Function `main`. A `goto exit` is a call of `main_exit`. -/
def main (env : MainEnv) : Prog Int := do
  let rc ← log_init false env.log_init_rc
  if rc ≠ 0 then
    pure 1
  else do
    Prog.call (.pppoat_log .info)
    Prog.call (.pppoat_log .info)
    Prog.call (.pppoat_log .info)
    Prog.call (.pppoat_log .info)
    Prog.call (.pppoat_log .info)
    Prog.call (.pppoat_log .info)
    Prog.call (.pppoat_log .info)
    Prog.call (.pppoat_log .info)
    Prog.call (.pppoat_log .info)
    Prog.call .pppoat_semaphore_init
    Prog.call (.sigaction .SIGTERM .handler)
    let rc ←
      if env.sigaction_term_rc ≠ 0 then
        pure env.sigaction_term_rc
      else do
        Prog.call (.sigaction .SIGINT .handler)
        pure env.sigaction_int_rc
    let rc := if rc = 0 then 0 else P_ERR (-(env.errno_sigaction : Int))
    Prog.call (.signal .SIGPIPE .SIG_IGN)
    let rc :=
      if env.signal_err then (if rc ≠ 0 then rc else P_ERR (-(env.errno_signal : Int))) else rc
    Prog.assert (rc = 0)
    Prog.call (.pppoat_alloc .ctx)
    Prog.assert (env.ctx_alloc = true)
    let rc ← pppoat_init env.init
    Prog.assert (rc = 0)
    Prog.call .pppoat_conf_read_argv
    Prog.assert (env.conf_read_argv_rc = 0)
    Prog.call .pppoat_conf_find_string_alloc
    if env.conf_find_rc < 0 ∧ env.conf_find_rc ≠ -ENOENT then
      main_exit
    else if env.conf_find_rc = 0 then do
      Prog.call .pppoat_conf_read_file
      Prog.call (.pppoat_free .file)
      if env.conf_read_file_rc ≠ 0 then
        Prog.call (.pppoat_log .error)
        main_exit
      else
        main_configured env
    else
      main_configured env

/-- An environment in which every call succeeds, no configuration file is
named (`-ENOENT`) and neither `help` nor `server` is set. -/
def env_ok : MainEnv where
  log_init_rc := 0
  sigaction_term_rc := 0
  sigaction_int_rc := 0
  errno_sigaction := 1
  signal_err := false
  errno_signal := 1
  ctx_alloc := true
  init := ⟨true, true, true, 0, 0, 0⟩
  conf_read_argv_rc := 0
  conf_find_rc := -ENOENT
  conf_read_file_rc := 0
  log_init_conf_rc := 0
  help := false
  server := false
  conf_store_rc := 0
  mod_alloc := true
  mod2_alloc := true
  mod_init_rc := 0
  mod2_init_rc := 0
  mod_run_rc := 0
  mod2_run_rc := 0

/-! ### Properties of traces -/

/-- In the trace, every occurrence of `b` comes after an occurrence of `a`. -/
def before (a b : Event) (tr : List Event) : Prop :=
  ∀ j < tr.length, tr[j]? = some b → ∃ i < j, tr[i]? = some a

instance (a b : Event) (tr : List Event) : Decidable (before a b tr) := by
  unfold before; infer_instance

/-- Effect of one call on the disposition `d` of the signal `s`: a `sigaction`
or `signal` call for `s` sets it, every other call leaves it. -/
def disp_step (s : Sig) (d : Disp) (e : Event) : Disp :=
  match e with
  | .sigaction s1 d1 => if s1 = s then d1 else d
  | .signal s1 d1 => if s1 = s then d1 else d
  | _ => d

/-- The disposition most recently requested for the signal `s` by the calls of
a trace, `SIG_DFL` when there is none: the disposition in force after these
calls, each of them taken to succeed. -/
def disposition (s : Sig) (tr : List Event) : Disp :=
  tr.foldl (disp_step s) .SIG_DFL

/-- Every occurrence of the call `e` in the trace is made while the signal `s`
has the disposition `d`. -/
def runs_under (e : Event) (s : Sig) (d : Disp) (tr : List Event) : Prop :=
  ∀ j < tr.length, tr[j]? = some e → disposition s (tr.take j) = d

instance (e : Event) (s : Sig) (d : Disp) (tr : List Event) :
    Decidable (runs_under e s d tr) := by
  unfold runs_under; infer_instance

/-- Pairs `(a, b)` of calls of `main` such that every call `b` is preceded by
a call `a`: the readiness gate (both modules added and run before
`pppoat_pipeline_ready (true)`, readiness cleared before a module is
stopped), the order in which the modules are registered, started, stopped and
finalised, and the order inside `pppoat_cleanup`. -/
def main_order : List (Event × Event) :=
  [(.pppoat_pipeline_add_module .mod, .pppoat_pipeline_ready true),
   (.pppoat_pipeline_add_module .mod2, .pppoat_pipeline_ready true),
   (.pppoat_module_run .mod, .pppoat_pipeline_ready true),
   (.pppoat_module_run .mod2, .pppoat_pipeline_ready true),
   (.pppoat_pipeline_ready false, .pppoat_module_stop .mod),
   (.pppoat_pipeline_ready false, .pppoat_module_stop .mod2),
   (.pppoat_pipeline_add_module .mod, .pppoat_pipeline_add_module .mod2),
   (.pppoat_module_run .mod, .pppoat_module_run .mod2),
   (.pppoat_semaphore_wait, .pppoat_module_stop .mod),
   (.pppoat_module_stop .mod, .pppoat_module_stop .mod2),
   (.pppoat_module_stop .mod2, .pppoat_module_fini .mod),
   (.pppoat_module_fini .mod, .pppoat_module_fini .mod2),
   (.sigaction .SIGTERM .SIG_DFL, .pppoat_semaphore_fini),
   (.sigaction .SIGINT .SIG_DFL, .pppoat_semaphore_fini)]

/-- Calls of the teardown of `main`: the modules are stopped and finalised
and the sub-components of the context are finalised. -/
def teardown_calls : List Event :=
  [.pppoat_module_stop .mod, .pppoat_module_stop .mod2,
   .pppoat_module_fini .mod, .pppoat_module_fini .mod2,
   .comp_fini .pipeline, .comp_fini .pkts, .comp_fini .conf]

/-- Order and signal facts that hold of the trace of every run of `main`:
the orders of `main_order`, and every call of `teardown_calls` is made while
`pppoat_sighandler` is still the disposition of `SIGTERM` and of `SIGINT`. -/
def main_facts (tr : List Event) : Prop :=
  (∀ p ∈ main_order, before p.1 p.2 tr) ∧
    (∀ e ∈ teardown_calls,
      runs_under e .SIGTERM .handler tr ∧ runs_under e .SIGINT .handler tr)

instance (tr : List Event) : Decidable (main_facts tr) := by
  unfold main_facts; infer_instance

/-- What is shown of every run `r` of `main` in the environment `env`: the
facts `main_facts` of its trace, and that `pppoat_pipeline_ready (true)` is
reached only when both `pppoat_module_run` calls have returned 0. -/
def main_ok (env : MainEnv) (r : Prog Int) : Prop :=
  main_facts r.trace ∧
    (Event.pppoat_pipeline_ready true ∈ r.trace →
      env.mod_run_rc = 0 ∧ env.mod2_run_rc = 0)

/-- One pass over the trace that checks `before a b`: it fails at a call `b`
met before any call `a`. -/
def before_chk (a b : Event) : List Event → Bool
  | [] => true
  | e :: tr => if e = b then false else if e = a then true else before_chk a b tr

/-- One pass over the trace that checks `runs_under e s d`, from the
disposition `d0`. -/
def runs_under_chk (e : Event) (s : Sig) (d : Disp) : Disp → List Event → Bool
  | _, [] => true
  | d0, x :: tr =>
    (if x = e then decide (d0 = d) else true) && runs_under_chk e s d (disp_step s d0 x) tr

/-- One-pass check of `main_facts`. -/
def main_facts_chk (tr : List Event) : Bool :=
  main_order.all (fun p => before_chk p.1 p.2 tr) &&
    teardown_calls.all (fun e =>
      runs_under_chk e .SIGTERM .handler .SIG_DFL tr &&
        runs_under_chk e .SIGINT .handler .SIG_DFL tr)

/-! ### Projections of a trace of `pppoat_init` -/

/-- The objects allocated, in order. -/
def allocs (tr : List Event) : List Mem :=
  tr.filterMap (fun e => match e with | .pppoat_alloc o => some o | _ => none)

/-- The objects freed, in order. -/
def frees (tr : List Event) : List Mem :=
  tr.filterMap (fun e => match e with | .pppoat_free o => some o | _ => none)

/-- The sub-components whose initialiser was called, in order. -/
def inits (tr : List Event) : List Comp :=
  tr.filterMap (fun e => match e with | .comp_init c => some c | _ => none)

/-- The sub-components whose finaliser was called, in order. -/
def finis (tr : List Event) : List Comp :=
  tr.filterMap (fun e => match e with | .comp_fini c => some c | _ => none)

/-- All three allocations and all three sub-initialisations succeed. -/
def init_ok (env : InitEnv) : Prop :=
  env.conf_alloc = true ∧ env.pkts_alloc = true ∧ env.pipeline_alloc = true ∧
    env.conf_init_rc = 0 ∧ env.packets_init_rc = 0 ∧ env.pipeline_init_rc = 0

instance (env : InitEnv) : Decidable (init_ok env) := by
  unfold init_ok; infer_instance

/-- Reference result of `pppoat_init`, from the specification: the error of
the first failing step, `-ENOMEM` for an allocation, 0 when no step fails. -/
def spec_init_result (env : InitEnv) : Int :=
  if ¬ (env.conf_alloc = true ∧ env.pkts_alloc = true ∧ env.pipeline_alloc = true) then -ENOMEM
  else if env.conf_init_rc ≠ 0 then env.conf_init_rc
  else if env.packets_init_rc ≠ 0 then env.packets_init_rc
  else env.pipeline_init_rc

/-- Reference list, from the specification, of the sub-components whose
initialiser has succeeded when `pppoat_init` stops, in order of
initialisation. -/
def spec_initialised (env : InitEnv) : List Comp :=
  if ¬ (env.conf_alloc = true ∧ env.pkts_alloc = true ∧ env.pipeline_alloc = true) then []
  else if env.conf_init_rc ≠ 0 then []
  else if env.packets_init_rc ≠ 0 then [.conf]
  else if env.pipeline_init_rc ≠ 0 then [.conf, .pkts]
  else [.conf, .pkts, .pipeline]

/-- Reference list, from the specification, of the initialisers called: none
after a failed allocation, otherwise those of conf, packets and pipeline, in
that order, up to and including the first that fails. -/
def spec_attempted (env : InitEnv) : List Comp :=
  if ¬ (env.conf_alloc = true ∧ env.pkts_alloc = true ∧ env.pipeline_alloc = true) then []
  else if env.conf_init_rc ≠ 0 then [.conf]
  else if env.packets_init_rc ≠ 0 then [.conf, .pkts]
  else [.conf, .pkts, .pipeline]

/-- Return code of the initialiser of the sub-component `c`. -/
def InitEnv.init_rc (env : InitEnv) : Comp → Int
  | .conf => env.conf_init_rc
  | .pkts => env.packets_init_rc
  | .pipeline => env.pipeline_init_rc

/-- The sub-components initialised in a run with the trace `tr`: those whose
initialiser was called and returned 0, in the order of the calls. -/
def initialised (env : InitEnv) (tr : List Event) : List Comp :=
  (inits tr).filter (fun c => env.init_rc c = 0)
/-! ## Basic facts -/

set_option maxRecDepth 1000000

theorem cb64_eq_alphabet : cb64 = alphabet := by decide

theorem and_shift4 (b : Nat) : ((b <<< 4) &&& 0x3f) % 256 = (b &&& 3) <<< 4 := by
  have h1 : (0x3f : Nat) = 2 ^ 6 - 1 := by norm_num
  have h2 : (3 : Nat) = 2 ^ 2 - 1 := by norm_num
  rw [h1, h2, Nat.and_pow_two_sub_one_eq_mod, Nat.and_pow_two_sub_one_eq_mod,
    Nat.shiftLeft_eq, Nat.shiftLeft_eq]
  omega

theorem and_shift2 (b : Nat) : (b <<< 2) &&& 0x3f = (b &&& 15) <<< 2 := by
  have h1 : (0x3f : Nat) = 2 ^ 6 - 1 := by norm_num
  have h2 : (15 : Nat) = 2 ^ 4 - 1 := by norm_num
  rw [h1, h2, Nat.and_pow_two_sub_one_eq_mod, Nat.and_pow_two_sub_one_eq_mod,
    Nat.shiftLeft_eq, Nat.shiftLeft_eq]
  omega

theorem and_shift2_mod (b : Nat) : ((b <<< 2) &&& 0x3f) % 256 = (b &&& 15) <<< 2 := by
  have h1 : (0x3f : Nat) = 2 ^ 6 - 1 := by norm_num
  have h2 : (15 : Nat) = 2 ^ 4 - 1 := by norm_num
  rw [h1, h2, Nat.and_pow_two_sub_one_eq_mod, Nat.and_pow_two_sub_one_eq_mod,
    Nat.shiftLeft_eq, Nat.shiftLeft_eq]
  omega

/-- The body iterations and the tail of the encoder compute the reference
encoding, appended to what was written before. -/
theorem enc_body_eq (bs : List Nat) :
    ∀ p : List Nat,
      enc_tail bs.length (enc_iter (bs.length / 3) bs p).1
        (enc_iter (bs.length / 3) bs p).2 = p ++ rfc4648_encode bs := by
  induction bs using rfc4648_encode.induct with
  | case1 b0 b1 b2 rest ih =>
    intro p
    have h1 : (b0 :: b1 :: b2 :: rest).length / 3 = rest.length / 3 + 1 := by
      simp only [List.length_cons]; omega
    have h2 : (b0 :: b1 :: b2 :: rest).length % 3 = rest.length % 3 := by
      simp only [List.length_cons]; omega
    have h3 : enc_tail (b0 :: b1 :: b2 :: rest).length = enc_tail rest.length := by
      funext x y; simp only [enc_tail, h2]
    rw [h1, h3]
    simp only [enc_iter, enc_group, List.getD_cons_zero, List.getD_cons_succ,
      List.drop_succ_cons, List.drop_zero]
    rw [ih]
    simp [rfc4648_encode, alphabetAt, cb64_eq_alphabet, and_shift4, and_shift2_mod,
      Nat.lor_comm]
  | case2 b0 b1 =>
    intro p
    simp [enc_tail, enc_iter, rfc4648_encode, alphabetAt, cb64_eq_alphabet, and_shift4,
      and_shift2, Nat.lor_comm]
  | case3 b0 =>
    intro p
    simp [enc_tail, enc_iter, rfc4648_encode, alphabetAt, cb64_eq_alphabet, and_shift4]
  | case4 =>
    intro p
    simp [enc_tail, enc_iter, rfc4648_encode]

/-! ### The `int` counter of the encoding loop -/

theorem int_to_size_t_natCast (j : Nat) (h : j < SIZE_MOD) :
    int_to_size_t (j : Int) = j := by
  unfold int_to_size_t
  have h1 : ((j : Int) % (SIZE_MOD : Int)) = ((j % SIZE_MOD : Nat) : Int) := by
    rw [Int.natCast_mod]
  rw [h1, Nat.mod_eq_of_lt h, Int.toNat_natCast]

theorem int_incr_natCast (j : Nat) (h : j < 2 ^ 31 - 1) :
    int_incr (j : Int) = ((j + 1 : Nat) : Int) := by
  unfold int_incr INT_MAX
  have h1 : ¬ ((j : Int) = 2 ^ 31 - 1) := by omega
  rw [if_neg h1]
  push_cast
  rfl

theorem int_incr_max : int_incr ((2 ^ 31 - 1 : Nat) : Int) = INT_MIN := by
  decide

theorem int_to_size_t_min : int_to_size_t INT_MIN = 2 ^ 64 - 2 ^ 31 := by
  decide

/-- While the counter stays below `INT_MAX` and below `n`, `k` tests of the
condition of the loop run the body `k` times. -/
theorem enc_loop_advance (n : Nat) :
    ∀ (k j fuel : Nat) (buf2 p : List Nat), j + k ≤ n → j + k ≤ 2 ^ 31 - 1 →
      enc_loop n (fuel + k) (j : Int) buf2 p =
        enc_loop n fuel ((j + k : Nat) : Int) (enc_iter k buf2 p).1 (enc_iter k buf2 p).2 := by
  intro k
  induction k with
  | zero => intro j fuel buf2 p _ _; rfl
  | succ k ih =>
    intro j fuel buf2 p h1 h2
    have hj : int_to_size_t (j : Int) = j :=
      int_to_size_t_natCast j (by unfold SIZE_MOD; omega)
    have hlt : int_to_size_t (j : Int) < n := by rw [hj]; omega
    rw [show fuel + (k + 1) = (fuel + k) + 1 from by omega, enc_loop, if_pos hlt,
      int_incr_natCast j (by omega), ih (j + 1) fuel _ _ (by omega) (by omega), enc_iter,
      show j + 1 + k = j + (k + 1) from by omega]

/-- The loop ends when the counter, as a `size_t`, is not below `n`. -/
theorem enc_loop_exit (n fuel : Nat) (i : Int) (buf2 p : List Nat)
    (h : ¬ int_to_size_t i < n) : enc_loop n (fuel + 1) i buf2 p = .ret (buf2, p) := by
  rw [enc_loop, if_neg h]

/-- Up to `INT_MAX` iterations the counter does not overflow: the loop runs
its body exactly `n` times. -/
theorem enc_loop_lt (n : Nat) (h : n < 2 ^ 31) (buf2 p : List Nat) :
    enc_loop n (n + 1) 0 buf2 p = .ret (enc_iter n buf2 p) := by
  have h1 := enc_loop_advance n n 0 1 buf2 p (by omega) (by omega)
  rw [show 1 + n = n + 1 from by omega] at h1
  simp only [Nat.cast_zero, Nat.zero_add] at h1
  rw [h1, enc_loop_exit n 0 _ _ _
    (by rw [int_to_size_t_natCast n (by unfold SIZE_MOD; omega)]; omega)]

/-- One more iteration of the body, taken at the end. -/
theorem enc_iter_succ (k : Nat) :
    ∀ buf2 p : List Nat,
      enc_iter (k + 1) buf2 p =
        ((enc_iter k buf2 p).1.drop 3, (enc_iter k buf2 p).2 ++ enc_group (enc_iter k buf2 p).1) := by
  induction k with
  | zero => intro buf2 p; rfl
  | succ k ih =>
    intro buf2 p
    rw [enc_iter, ih, enc_iter]

/-- From `2 ^ 31` iterations on the counter overflows: after the iteration
with `i = INT_MAX` the increment gives `INT_MIN`, which converts to
`2 ^ 64 - 2 ^ 31`, not below `n`, and the loop ends after `2 ^ 31` iterations
whatever `n` is. -/
theorem enc_loop_overflow (n : Nat) (h1 : 2 ^ 31 ≤ n) (h2 : n ≤ 2 ^ 64 - 2 ^ 31)
    (buf2 p : List Nat) :
    enc_loop n (n + 1) 0 buf2 p = .ret (enc_iter (2 ^ 31) buf2 p) := by
  have h := enc_loop_advance n (2 ^ 31 - 1) 0 (n + 1 - (2 ^ 31 - 1)) buf2 p
    (by omega) (by omega)
  rw [show n + 1 - (2 ^ 31 - 1) + (2 ^ 31 - 1) = n + 1 from by omega] at h
  simp only [Nat.cast_zero, Nat.zero_add] at h
  rw [h]
  obtain ⟨f, hf⟩ : ∃ f, n + 1 - (2 ^ 31 - 1) = f + 2 := ⟨n + 1 - (2 ^ 31 - 1) - 2, by omega⟩
  have hlt : int_to_size_t ((2 ^ 31 - 1 : Nat) : Int) < n := by
    rw [int_to_size_t_natCast _ (by unfold SIZE_MOD; omega)]; omega
  rw [hf, enc_loop, if_pos hlt, int_incr_max, enc_loop_exit n f _ _ _
    (by rw [int_to_size_t_min]; omega)]
  have e : (2 : Nat) ^ 31 = (2 ^ 31 - 1) + 1 := by norm_num
  conv_rhs => rw [e, enc_iter_succ]

theorem enc_iter_fst (k : Nat) :
    ∀ buf2 p : List Nat, (enc_iter k buf2 p).1 = buf2.drop (3 * k) := by
  induction k with
  | zero => intro buf2 p; rfl
  | succ k ih =>
    intro buf2 p
    rw [enc_iter, ih, List.drop_drop]
    congr 1
    omega

theorem enc_group_length (buf2 : List Nat) : (enc_group buf2).length = 4 := rfl

theorem enc_iter_length (k : Nat) :
    ∀ buf2 p : List Nat, (enc_iter k buf2 p).2.length = p.length + 4 * k := by
  induction k with
  | zero => intro buf2 p; rfl
  | succ k ih =>
    intro buf2 p
    rw [enc_iter, ih, List.length_append, enc_group_length]
    omega

/-- The encoder returns for every buffer and every `size_t` length: the
budget of the loop never runs out. -/
theorem enc_returns (buf : List Nat) (len : Nat) (h : len < SIZE_MOD) :
    ∃ s, pppoat_base64_enc buf len (pppoat_base64_enc_len buf len) = .ret s := by
  unfold SIZE_MOD at h
  unfold pppoat_base64_enc PPPOAT_ASSERT
  rw [if_pos rfl]
  rcases Nat.lt_or_ge (len / 3) (2 ^ 31) with h1 | h1
  · rw [enc_loop_lt _ h1]
    exact ⟨_, rfl⟩
  · rw [enc_loop_overflow _ h1 (by omega)]
    exact ⟨_, rfl⟩

/-- Below `3 * 2 ^ 31` input bytes the encoder writes the reference
encoding. -/
theorem enc_eq_rfc (b : List Nat) (h : b.length < 3 * 2 ^ 31) :
    pppoat_base64_enc b b.length (pppoat_base64_enc_len b b.length) =
      .ret (rfc4648_encode b) := by
  have h1 := enc_body_eq b []
  unfold pppoat_base64_enc PPPOAT_ASSERT
  rw [if_pos rfl, enc_loop_lt _ (by omega)]
  simp only [Outcome.bind, List.nil_append] at h1 ⊢
  rw [h1]

theorem ceil_div3 (n : Nat) : ⌈(n : ℚ) / 3⌉₊ = (n + 2) / 3 := by
  apply le_antisymm
  · rw [Nat.ceil_le, div_le_iff₀ (by norm_num)]
    have h : n ≤ (n + 2) / 3 * 3 := by omega
    exact_mod_cast h
  · rcases Nat.eq_zero_or_pos ((n + 2) / 3) with h | h
    · omega
    · have h1 : (n + 2) / 3 - 1 < ⌈(n : ℚ) / 3⌉₊ := by
        rw [Nat.lt_ceil, lt_div_iff₀ (by norm_num)]
        have h2 : ((n + 2) / 3 - 1) * 3 < n := by omega
        exact_mod_cast h2
      omega

theorem spec_encoded_length_eq (n : Nat) : spec_encoded_length n = (n + 2) / 3 * 4 := by
  rw [spec_encoded_length, ceil_div3]

theorem rfc4648_encode_length (bs : List Nat) :
    (rfc4648_encode bs).length = (bs.length + 2) / 3 * 4 := by
  induction bs using rfc4648_encode.induct with
  | case1 b0 b1 b2 rest ih =>
    simp only [rfc4648_encode, List.length_cons, ih]; omega
  | case2 b0 b1 => simp [rfc4648_encode]
  | case3 b0 => simp [rfc4648_encode]
  | case4 => simp [rfc4648_encode]

theorem enc_len_eq (buf : List Nat) (n : Nat) (h : (n + 2) / 3 * 4 < SIZE_MOD) :
    pppoat_base64_enc_len buf n = (n + 2) / 3 * 4 := by
  unfold pppoat_base64_enc_len
  unfold SIZE_MOD at h ⊢
  have h1 : (n + 2) % 2 ^ 64 = n + 2 := Nat.mod_eq_of_lt (by omega)
  rw [h1, Nat.mod_eq_of_lt h]


/-! ### Facts about the alphabet -/

theorem strchr_alphabetAt : ∀ v < 64, strchr cb64 (alphabetAt v) = some v := by decide

theorem alphabetAt_ne_pad : ∀ v < 64, alphabetAt v ≠ PAD := by decide

theorem and_c0_of_lt : ∀ v < 64, v &&& 0xc0 = 0 := by decide

/-! ### Lists as buffers -/

theorem getD_append_add (l r : List Nat) (k d : Nat) :
    (l ++ r).getD (l.length + k) d = r.getD k d := by
  induction l with
  | nil => simp
  | cons a l ih =>
    have h : (a :: l).length + k = (l.length + k) + 1 := by simp only [List.length_cons]; omega
    rw [List.cons_append, h, List.getD_cons_succ, ih]

theorem getD_append_length (l r : List Nat) (d : Nat) :
    (l ++ r).getD l.length d = r.getD 0 d := by
  simpa using getD_append_add l r 0 d

theorem set_append_add (l r : List Nat) (k y : Nat) :
    (l ++ r).set (l.length + k) y = l ++ r.set k y := by
  induction l with
  | nil => simp
  | cons a l ih =>
    have h : (a :: l).length + k = (l.length + k) + 1 := by simp only [List.length_cons]; omega
    rw [List.cons_append, h, List.set_cons_succ, ih, List.cons_append]

theorem set_append_length (l r : List Nat) (y : Nat) :
    (l ++ r).set l.length y = l ++ r.set 0 y := by
  have h := set_append_add l r 0 y
  rwa [Nat.add_zero] at h

/-! ### Single iterations of the decoding loop -/

theorem dec_loop_done (base64 : List Nat) (len rlen fuel i j : Nat) (p : List Nat)
    (hj : ¬ j < rlen) :
    dec_loop base64 len rlen (fuel + 1) i j p = .ret (0, p) := by
  rw [dec_loop]; simp [hj]

theorem dec_loop_step0 (base64 : List Nat) (len rlen fuel i j : Nat) (p : List Nat)
    (v : Nat) (hj : j < rlen) (hi : i < len)
    (hc : strchr cb64 (base64.getD i 0) = some v) (hv : v < 64) (hm : i % 4 = 0) :
    dec_loop base64 len rlen (fuel + 1) i j p =
      dec_loop base64 len rlen fuel (i + 1) j (p.set j ((v <<< 2) % 256)) := by
  have h1 : v % 256 = v := Nat.mod_eq_of_lt (by omega)
  have h2 : v &&& 0xc0 = 0 := and_c0_of_lt v hv
  rw [dec_loop, if_pos hj, PPPOAT_ASSERT, if_pos hi, hc]; simp [PPPOAT_ASSERT, hm, h1, h2]

theorem dec_loop_step1 (base64 : List Nat) (len rlen fuel i j : Nat) (p : List Nat)
    (v : Nat) (hj : j < rlen) (hi : i < len)
    (hc : strchr cb64 (base64.getD i 0) = some v) (hv : v < 64) (hm : i % 4 = 1) :
    dec_loop base64 len rlen (fuel + 1) i j p =
      dec_loop base64 len rlen fuel (i + 1) (j + 1)
        (if j + 1 < rlen then
          (p.set j ((p.getD j 0 ||| (v >>> 4)) % 256)).set (j + 1) ((v <<< 4) % 256)
         else p.set j ((p.getD j 0 ||| (v >>> 4)) % 256)) := by
  have h1 : v % 256 = v := Nat.mod_eq_of_lt (by omega)
  have h2 : v &&& 0xc0 = 0 := and_c0_of_lt v hv
  rw [dec_loop, if_pos hj, PPPOAT_ASSERT, if_pos hi, hc]; simp [PPPOAT_ASSERT, hm, h1, h2]

theorem dec_loop_step2 (base64 : List Nat) (len rlen fuel i j : Nat) (p : List Nat)
    (v : Nat) (hj : j < rlen) (hi : i < len)
    (hc : strchr cb64 (base64.getD i 0) = some v) (hv : v < 64) (hm : i % 4 = 2) :
    dec_loop base64 len rlen (fuel + 1) i j p =
      dec_loop base64 len rlen fuel (i + 1) (j + 1)
        (if j + 1 < rlen then
          (p.set j ((p.getD j 0 ||| (v >>> 2)) % 256)).set (j + 1) ((v <<< 6) % 256)
         else p.set j ((p.getD j 0 ||| (v >>> 2)) % 256)) := by
  have h1 : v % 256 = v := Nat.mod_eq_of_lt (by omega)
  have h2 : v &&& 0xc0 = 0 := and_c0_of_lt v hv
  rw [dec_loop, if_pos hj, PPPOAT_ASSERT, if_pos hi, hc]; simp [PPPOAT_ASSERT, hm, h1, h2]

theorem dec_loop_step3 (base64 : List Nat) (len rlen fuel i j : Nat) (p : List Nat)
    (v : Nat) (hj : j < rlen) (hi : i < len)
    (hc : strchr cb64 (base64.getD i 0) = some v) (hv : v < 64) (hm : i % 4 = 3) :
    dec_loop base64 len rlen (fuel + 1) i j p =
      dec_loop base64 len rlen fuel (i + 1) (j + 1)
        (p.set j ((p.getD j 0 ||| v) % 256)) := by
  have h1 : v % 256 = v := Nat.mod_eq_of_lt (by omega)
  have h2 : v &&& 0xc0 = 0 := and_c0_of_lt v hv
  rw [dec_loop, if_pos hj, PPPOAT_ASSERT, if_pos hi, hc]; simp [PPPOAT_ASSERT, hm, h1, h2]

/-! ### Bit packing of one group -/

theorem shr2_lt : ∀ b < 256, b >>> 2 < 64 := by decide
theorem shr4_lt : ∀ b < 256, b >>> 4 < 16 := by decide
theorem shr6_lt : ∀ b < 256, b >>> 6 < 4 := by decide
theorem and3_lt : ∀ b < 256, b &&& 3 < 4 := by decide
theorem and15_lt : ∀ b < 256, b &&& 15 < 16 := by decide
theorem and63_lt : ∀ b < 256, b &&& 63 < 64 := by decide
theorem shl4_lt : ∀ q < 4, q <<< 4 < 64 := by decide
theorem shl2_lt : ∀ n < 16, n <<< 2 < 64 := by decide
theorem shl4_or_lt : ∀ q < 4, ∀ h < 16, (q <<< 4) ||| h < 64 := by decide
theorem shl2_or_lt : ∀ n < 16, ∀ r < 4, (n <<< 2) ||| r < 64 := by decide

theorem byte0_full : ∀ b0 < 256, ∀ h < 16,
    (((b0 >>> 2) <<< 2) % 256 ||| ((((b0 &&& 3) <<< 4) ||| h) >>> 4)) % 256 = b0 := by
  decide

theorem byte0_tail : ∀ b0 < 256,
    (((b0 >>> 2) <<< 2) % 256 ||| (((b0 &&& 3) <<< 4) >>> 4)) % 256 = b0 := by
  decide

theorem byte1_full : ∀ q < 4, ∀ b1 < 256, ∀ r < 4,
    ((((q <<< 4) ||| (b1 >>> 4)) <<< 4) % 256 |||
      ((((b1 &&& 15) <<< 2) ||| r) >>> 2)) % 256 = b1 := by
  decide

theorem byte1_tail : ∀ q < 4, ∀ b1 < 256,
    ((((q <<< 4) ||| (b1 >>> 4)) <<< 4) % 256 |||
      (((b1 &&& 15) <<< 2) >>> 2)) % 256 = b1 := by
  decide

theorem byte2_full : ∀ n < 16, ∀ b2 < 256,
    ((((n <<< 2) ||| (b2 >>> 6)) <<< 6) % 256 ||| (b2 &&& 63)) % 256 = b2 := by
  decide

/-! ### Decoding an encoded sequence -/

/-- Started at a group boundary of a text that continues with the reference
encoding of `bs`, the decoding loop writes `bs` behind what was decoded
before and returns 0. -/
theorem dec_loop_rfc (bs : List Nat) :
    (∀ x ∈ bs, x < 256) → ∀ (pre done junk : List Nat) (fuel : Nat),
      pre.length % 4 = 0 → junk.length = bs.length →
      (rfc4648_encode bs).length < fuel →
      dec_loop (pre ++ rfc4648_encode bs) (pre.length + (rfc4648_encode bs).length)
        (done.length + bs.length) fuel pre.length done.length (done ++ junk) =
        .ret (0, done ++ bs) := by
  induction bs using rfc4648_encode.induct with
  | case4 =>
    intro _ pre done junk fuel _ hjunk hfuel
    obtain ⟨f, rfl⟩ : ∃ f, fuel = f + 1 := ⟨fuel - 1, by omega⟩
    have hj : junk = [] := List.length_eq_zero.mp hjunk
    subst hj
    rw [dec_loop_done _ _ _ _ _ _ _ (by simp)]
  | case3 b0 =>
    intro hb pre done junk fuel hpre hjunk hfuel
    have hb0 : b0 < 256 := hb b0 (by simp)
    obtain ⟨x, rfl⟩ : ∃ x, junk = [x] := List.length_eq_one.mp hjunk
    simp only [rfc4648_encode, List.length_cons, List.length_nil] at hfuel ⊢
    obtain ⟨f, rfl⟩ : ∃ f, fuel = f + 1 + 1 + 1 := ⟨fuel - 3, by omega⟩
    have hv0 := shr2_lt b0 hb0
    have hv1 := shl4_lt _ (and3_lt b0 hb0)
    rw [dec_loop_step0 _ _ _ _ _ _ _ (b0 >>> 2) (by omega) (by omega)
      (by rw [getD_append_length]; exact strchr_alphabetAt _ hv0) hv0 hpre]
    rw [dec_loop_step1 _ _ _ _ _ _ _ ((b0 &&& 3) <<< 4) (by omega) (by omega)
      (by rw [getD_append_add]; exact strchr_alphabetAt _ hv1) hv1 (by omega)]
    rw [if_neg (by omega), dec_loop_done _ _ _ _ _ _ _ (by omega)]
    simp only [set_append_length, getD_append_length, List.set_cons_zero,
      List.getD_cons_zero, byte0_tail b0 hb0]
  | case2 b0 b1 =>
    intro hb pre done junk fuel hpre hjunk hfuel
    have hb0 : b0 < 256 := hb b0 (by simp)
    have hb1 : b1 < 256 := hb b1 (by simp)
    obtain ⟨x0, x1, rfl⟩ : ∃ x0 x1, junk = [x0, x1] := List.length_eq_two.mp hjunk
    simp only [rfc4648_encode, List.length_cons, List.length_nil] at hfuel ⊢
    obtain ⟨f, rfl⟩ : ∃ f, fuel = f + 1 + 1 + 1 + 1 := ⟨fuel - 4, by omega⟩
    have hv0 := shr2_lt b0 hb0
    have hv1 := shl4_or_lt _ (and3_lt b0 hb0) _ (shr4_lt b1 hb1)
    have hv2 := shl2_lt _ (and15_lt b1 hb1)
    rw [dec_loop_step0 _ _ _ _ _ _ _ (b0 >>> 2) (by omega) (by omega)
      (by rw [getD_append_length]; exact strchr_alphabetAt _ hv0) hv0 hpre]
    rw [dec_loop_step1 _ _ _ _ _ _ _ (((b0 &&& 3) <<< 4) ||| (b1 >>> 4)) (by omega)
      (by omega) (by rw [getD_append_add]; exact strchr_alphabetAt _ hv1) hv1 (by omega)]
    rw [if_pos (by omega)]
    rw [dec_loop_step2 _ _ _ _ _ _ _ ((b1 &&& 15) <<< 2) (by omega)
      (by omega) (by rw [Nat.add_assoc, getD_append_add]; exact strchr_alphabetAt _ hv2)
      hv2 (by omega)]
    rw [if_neg (by omega), dec_loop_done _ _ _ _ _ _ _ (by omega)]
    simp only [set_append_length, set_append_add, getD_append_length, getD_append_add,
      List.set_cons_zero, List.set_cons_succ, List.getD_cons_zero, List.getD_cons_succ,
      byte0_full b0 hb0 _ (shr4_lt b1 hb1), byte1_tail _ (and3_lt b0 hb0) b1 hb1]
  | case1 b0 b1 b2 rest ih =>
    intro hb pre done junk fuel hpre hjunk hfuel
    have hb0 : b0 < 256 := hb b0 (by simp)
    have hb1 : b1 < 256 := hb b1 (by simp)
    have hb2 : b2 < 256 := hb b2 (by simp)
    have hrest : ∀ x ∈ rest, x < 256 := fun x hx => hb x (by simp [hx])
    obtain ⟨x0, x1, x2, junk1, rfl⟩ :
        ∃ x0 x1 x2 junk1, junk = x0 :: x1 :: x2 :: junk1 := by
      match junk, hjunk with
      | x0 :: x1 :: x2 :: junk1, _ => exact ⟨x0, x1, x2, junk1, rfl⟩
    simp only [rfc4648_encode, List.length_cons] at hfuel hjunk ⊢
    obtain ⟨f, rfl⟩ : ∃ f, fuel = f + 1 + 1 + 1 + 1 := ⟨fuel - 4, by omega⟩
    have hv0 := shr2_lt b0 hb0
    have hv1 := shl4_or_lt _ (and3_lt b0 hb0) _ (shr4_lt b1 hb1)
    have hv2 := shl2_or_lt _ (and15_lt b1 hb1) _ (shr6_lt b2 hb2)
    have hv3 := and63_lt b2 hb2
    rw [dec_loop_step0 _ _ _ _ _ _ _ (b0 >>> 2) (by omega) (by omega)
      (by rw [getD_append_length]; exact strchr_alphabetAt _ hv0) hv0 hpre]
    rw [dec_loop_step1 _ _ _ _ _ _ _ (((b0 &&& 3) <<< 4) ||| (b1 >>> 4)) (by omega)
      (by omega) (by rw [getD_append_add]; exact strchr_alphabetAt _ hv1) hv1 (by omega)]
    rw [if_pos (by omega)]
    rw [dec_loop_step2 _ _ _ _ _ _ _ (((b1 &&& 15) <<< 2) ||| (b2 >>> 6)) (by omega)
      (by omega) (by rw [Nat.add_assoc, getD_append_add]; exact strchr_alphabetAt _ hv2)
      hv2 (by omega)]
    rw [if_pos (by omega)]
    rw [dec_loop_step3 _ _ _ _ _ _ _ (b2 &&& 63) (by omega)
      (by omega)
      (by rw [Nat.add_assoc, Nat.add_assoc, getD_append_add]; exact strchr_alphabetAt _ hv3)
      hv3 (by omega)]
    simp only [Nat.add_assoc, Nat.reduceAdd, set_append_length, set_append_add,
      getD_append_length, getD_append_add,
      List.set_cons_zero, List.set_cons_succ, List.getD_cons_zero, List.getD_cons_succ,
      byte0_full b0 hb0 _ (shr4_lt b1 hb1),
      byte1_full _ (and3_lt b0 hb0) b1 hb1 _ (shr6_lt b2 hb2),
      byte2_full _ (and15_lt b1 hb1) b2 hb2]
    have h := ih hrest
      (pre ++ [alphabetAt (b0 >>> 2), alphabetAt (((b0 &&& 3) <<< 4) ||| (b1 >>> 4)),
        alphabetAt (((b1 &&& 15) <<< 2) ||| (b2 >>> 6)), alphabetAt (b2 &&& 63)])
      (done ++ [b0, b1, b2]) junk1 f (by simp; omega) (by omega) (by omega)
    simp only [List.length_append, List.length_cons, List.length_nil, List.append_assoc,
      List.cons_append, List.nil_append, Nat.add_assoc, Nat.reduceAdd] at h
    rw [← h]
    congr 1 <;> omega

/-! ### Padding of an encoded sequence -/

/-- In the reference encoding of `n` bytes the first `ceil(4n/3)` characters
are alphabet characters and all later ones are `=`. -/
theorem rfc_getD_pad (bs : List Nat) :
    (∀ x ∈ bs, x < 256) → ∀ k, k < (rfc4648_encode bs).length →
      ((rfc4648_encode bs).getD k 0 = PAD ↔ (4 * bs.length + 2) / 3 ≤ k) := by
  induction bs using rfc4648_encode.induct with
  | case4 => intro _ k hk; simp [rfc4648_encode] at hk
  | case3 b0 =>
    intro hb k hk
    have hb0 : b0 < 256 := hb b0 (by simp)
    have h0 := alphabetAt_ne_pad _ (shr2_lt b0 hb0)
    have h1 := alphabetAt_ne_pad _ (shl4_lt _ (and3_lt b0 hb0))
    simp only [rfc4648_encode, List.length_cons, List.length_nil] at hk ⊢
    interval_cases k <;> simp [h0, h1]
  | case2 b0 b1 =>
    intro hb k hk
    have hb0 : b0 < 256 := hb b0 (by simp)
    have hb1 : b1 < 256 := hb b1 (by simp)
    have h0 := alphabetAt_ne_pad _ (shr2_lt b0 hb0)
    have h1 := alphabetAt_ne_pad _ (shl4_or_lt _ (and3_lt b0 hb0) _ (shr4_lt b1 hb1))
    have h2 := alphabetAt_ne_pad _ (shl2_lt _ (and15_lt b1 hb1))
    simp only [rfc4648_encode, List.length_cons, List.length_nil] at hk ⊢
    interval_cases k <;> simp [h0, h1, h2]
  | case1 b0 b1 b2 rest ih =>
    intro hb k hk
    have hb0 : b0 < 256 := hb b0 (by simp)
    have hb1 : b1 < 256 := hb b1 (by simp)
    have hb2 : b2 < 256 := hb b2 (by simp)
    have hrest : ∀ x ∈ rest, x < 256 := fun x hx => hb x (by simp [hx])
    have h0 := alphabetAt_ne_pad _ (shr2_lt b0 hb0)
    have h1 := alphabetAt_ne_pad _ (shl4_or_lt _ (and3_lt b0 hb0) _ (shr4_lt b1 hb1))
    have h2 := alphabetAt_ne_pad _ (shl2_or_lt _ (and15_lt b1 hb1) _ (shr6_lt b2 hb2))
    have h3 := alphabetAt_ne_pad _ (and63_lt b2 hb2)
    simp only [rfc4648_encode, List.length_cons] at hk ⊢
    rcases Nat.lt_or_ge k 4 with h | h
    · have hr : ¬ (4 * (rest.length + 1 + 1 + 1) + 2) / 3 ≤ k := by omega
      interval_cases k <;> simp [h0, h1, h2, h3, hr]
    · obtain ⟨m, rfl⟩ : ∃ m, k = m + 1 + 1 + 1 + 1 := ⟨k - 4, by omega⟩
      simp only [List.getD_cons_succ]
      rw [ih hrest m (by omega)]
      omega

theorem dec_len_rfc (bs : List Nat) (hb : ∀ x ∈ bs, x < 256) :
    pppoat_base64_dec_len (rfc4648_encode bs) (rfc4648_encode bs).length =
      .ret bs.length := by
  have hlen := rfc4648_encode_length bs
  have hpad := rfc_getD_pad bs hb
  unfold pppoat_base64_dec_len PPPOAT_ASSERT
  rw [if_pos (by omega)]
  rcases Nat.eq_zero_or_pos bs.length with h0 | h0
  · have hl : (rfc4648_encode bs).length = 0 := by omega
    simp [hl, h0]
  · have e1 := hpad ((rfc4648_encode bs).length - 1) (by omega)
    have e2 := hpad ((rfc4648_encode bs).length - 2) (by omega)
    simp only [e1, e2]
    congr 1
    split_ifs <;> omega

/-- Decoding the reference encoding of a byte sequence gives the sequence back,
whatever the result buffer held before. -/
theorem dec_rfc (bs : List Nat) (hb : ∀ x ∈ bs, x < 256) (result : List Nat)
    (hr : result.length = bs.length) :
    pppoat_base64_dec (rfc4648_encode bs) (rfc4648_encode bs).length result bs.length =
      .ret (0, bs) := by
  have hlen := rfc4648_encode_length bs
  have h := dec_loop_rfc bs hb [] [] result ((rfc4648_encode bs).length + 1)
    (by simp) hr (by omega)
  simp only [List.nil_append, List.length_nil, Nat.zero_add] at h
  unfold pppoat_base64_dec PPPOAT_ASSERT
  rw [if_pos (by omega), dec_len_rfc bs hb]
  simp only [Outcome.bind, if_true]
  exact h

/-! ### The decoding loop on malformed input -/

theorem strchr_le (s : List Nat) (x : Nat) :
    ∀ c, strchr s x = some c → c ≤ s.length := by
  induction s with
  | nil =>
    intro c h
    simp only [strchr] at h
    split at h
    · cases h; simp
    · cases h
  | cons a s ih =>
    intro c h
    simp only [strchr] at h
    split at h
    · cases h; simp
    · cases hs : strchr s x with
      | none => simp [hs] at h
      | some d =>
        simp [hs] at h
        have := ih d hs
        simp only [List.length_cons]
        omega

theorem lt_of_and_c0 : ∀ c ≤ 64, (c % 256) &&& 0xc0 = 0 → c < 64 := by decide

theorem einval_ne_zero : P_ERR (-EINVAL) ≠ 0 := by decide

theorem getD_set_of_ne (p : List Nat) (j k v d : Nat) (h : j ≠ k) :
    (p.set j v).getD k d = p.getD k d := by
  simp [List.getD_eq_getElem?_getD, List.getElem?_set_ne h]

/-- When the loop returns `-EINVAL`, it does so at the first character from
`i` on that `strchr` rejects; the buffer keeps its length and no byte at or
beyond index `ceil(3 i' / 4)` has been written. -/
theorem dec_loop_einval (base64 : List Nat) (len rlen : Nat) :
    ∀ (fuel i j : Nat) (p r : List Nat),
      dec_loop base64 len rlen fuel i j p = .ret (P_ERR (-EINVAL), r) →
      j = 3 * (i / 4) + (i % 4 - 1) →
      ∃ e, i ≤ e ∧ e < len ∧ strchr cb64 (base64.getD e 0) = none ∧
        (∀ k, i ≤ k → k < e → strchr cb64 (base64.getD k 0) ≠ none) ∧
        r.length = p.length ∧
        ∀ k, (3 * e + 3) / 4 ≤ k → r.getD k 0 = p.getD k 0 := by
  intro fuel
  induction fuel with
  | zero => intro i j p r h; simp [dec_loop] at h
  | succ fuel ih =>
    intro i j p r h hj
    rw [dec_loop] at h
    unfold PPPOAT_ASSERT at h
    by_cases h1 : j < rlen
    · rw [if_pos h1] at h
      by_cases h2 : i < len
      · rw [if_pos h2] at h
        cases hs : strchr cb64 (base64.getD i 0) with
        | none =>
          rw [hs] at h
          simp only [Outcome.ret.injEq, Prod.mk.injEq, true_and] at h
          subst h
          exact ⟨i, le_refl _, h2, hs, fun k hk1 hk2 => by omega, rfl, fun _ _ => rfl⟩
        | some c =>
          rw [hs] at h
          simp only at h
          by_cases h3 : (c % 256) &&& 0xc0 = 0
          · rw [if_pos h3] at h
            have hc : c < 64 := lt_of_and_c0 c (strchr_le cb64 _ c hs) h3
            have hstep : ∀ (j1 : Nat) (p1 : List Nat),
                dec_loop base64 len rlen fuel (i + 1) j1 p1 = .ret (P_ERR (-EINVAL), r) →
                j1 = 3 * ((i + 1) / 4) + ((i + 1) % 4 - 1) →
                p1.length = p.length →
                (∀ k, (3 * (i + 1) + 3) / 4 ≤ k → p1.getD k 0 = p.getD k 0) →
                ∃ e, i ≤ e ∧ e < len ∧ strchr cb64 (base64.getD e 0) = none ∧
                  (∀ k, i ≤ k → k < e → strchr cb64 (base64.getD k 0) ≠ none) ∧
                  r.length = p.length ∧
                  ∀ k, (3 * e + 3) / 4 ≤ k → r.getD k 0 = p.getD k 0 := by
              intro j1 p1 hd hj1 hl hp
              obtain ⟨e, he1, he2, he3, he4, he5, he6⟩ := ih (i + 1) j1 p1 r hd hj1
              refine ⟨e, by omega, he2, he3, ?_, by omega, ?_⟩
              · intro k hk1 hk2
                rcases Nat.eq_or_lt_of_le hk1 with hk | hk
                · subst hk; rw [hs]; simp
                · exact he4 k (by omega) hk2
              · intro k hk
                rw [he6 k hk, hp k (by omega)]
            have hmod : i % 4 = 0 ∨ i % 4 = 1 ∨ i % 4 = 2 ∨ i % 4 = 3 := by omega
            rcases hmod with hm | hm | hm | hm
            · simp only [hm] at h
              refine hstep _ _ h (by omega) (by simp) ?_
              intro k hk
              exact getD_set_of_ne _ _ _ _ _ (by omega)
            · simp only [hm] at h
              refine hstep _ _ h (by omega) (by split_ifs <;> simp) ?_
              intro k hk
              split_ifs
              · rw [getD_set_of_ne _ _ _ _ _ (by omega), getD_set_of_ne _ _ _ _ _ (by omega)]
              · rw [getD_set_of_ne _ _ _ _ _ (by omega)]
            · simp only [hm] at h
              refine hstep _ _ h (by omega) (by split_ifs <;> simp) ?_
              intro k hk
              split_ifs
              · rw [getD_set_of_ne _ _ _ _ _ (by omega), getD_set_of_ne _ _ _ _ _ (by omega)]
              · rw [getD_set_of_ne _ _ _ _ _ (by omega)]
            · simp only [hm] at h
              refine hstep _ _ h (by omega) (by simp) ?_
              intro k hk
              exact getD_set_of_ne _ _ _ _ _ (by omega)
          · rw [if_neg h3] at h
            cases h
      · rw [if_neg h2] at h
        cases h
    · rw [if_neg h1] at h
      simp only [Outcome.ret.injEq, Prod.mk.injEq] at h
      exact absurd h.1.symm einval_ne_zero

/-- The iteration budget `len + 1` given to the decoding loop is never used
up: every iteration but the last advances `i`, and `i < len` is asserted. -/
theorem dec_loop_fuel (base64 : List Nat) (len rlen : Nat) :
    ∀ (fuel i j : Nat) (p : List Nat), i ≤ len → len < fuel + i →
      dec_loop base64 len rlen fuel i j p ≠ .fuel := by
  intro fuel
  induction fuel with
  | zero => intro i j p h1 h2; omega
  | succ fuel ih =>
    intro i j p h1 h2
    rw [dec_loop]
    unfold PPPOAT_ASSERT
    by_cases hj : j < rlen
    · rw [if_pos hj]
      by_cases hi : i < len
      · rw [if_pos hi]
        cases hs : strchr cb64 (base64.getD i 0) with
        | none => simp
        | some c =>
          simp only
          by_cases h3 : (c % 256) &&& 0xc0 = 0
          · rw [if_pos h3]
            have hmod : i % 4 = 0 ∨ i % 4 = 1 ∨ i % 4 = 2 ∨ i % 4 = 3 := by omega
            rcases hmod with hm | hm | hm | hm <;> simp only [hm] <;>
              exact ih _ _ _ (by omega) (by omega)
          · rw [if_neg h3]; simp
      · rw [if_neg hi]; simp
    · rw [if_neg hj]; simp

/-- The decoder always terminates: it returns or fails an assertion. -/
theorem dec_ne_fuel (base64 : List Nat) (len : Nat) (result : List Nat)
    (result_len : Nat) :
    pppoat_base64_dec base64 len result result_len ≠ .fuel := by
  unfold pppoat_base64_dec pppoat_base64_dec_len PPPOAT_ASSERT
  by_cases h : len % 4 = 0
  · simp only [h, if_true, Outcome.bind]
    split_ifs <;>
      first
        | exact dec_loop_fuel _ _ _ _ _ _ _ (by omega) (by omega)
        | exact fun e => Outcome.noConfusion e
  · simp [h]

/-! ### The decoded length -/

theorem dec_len_last_two (init : List Nat) (b a : Nat)
    (h : (init ++ [b, a]).length % 4 = 0) :
    pppoat_base64_dec_len (init ++ [b, a]) (init ++ [b, a]).length =
      .ret ((init ++ [b, a]).length / 4 * 3 - pads_in_last_two (init ++ [b, a])) ∧
    ((b = PAD → a = PAD) →
      pads_in_last_two (init ++ [b, a]) = trailing_pads (init ++ [b, a])) := by
  have hl : (init ++ [b, a]).length = init.length + 2 := by simp
  have ha : (init ++ [b, a]).getD (init.length + 2 - 1) 0 = a := by
    have e : init.length + 2 - 1 = init.length + 1 := by omega
    rw [e, getD_append_add]; rfl
  have hb : (init ++ [b, a]).getD (init.length + 2 - 2) 0 = b := by
    have e : init.length + 2 - 2 = init.length + 0 := by omega
    rw [e, getD_append_add]; rfl
  have hrev : ((init ++ [b, a]).reverse).take 2 = [a, b] := by simp
  unfold pppoat_base64_dec_len pads_in_last_two trailing_pads PPPOAT_ASSERT
  rw [hrev]
  rw [hl] at h ⊢
  rw [if_pos h, ha, hb]
  by_cases h1 : a = PAD <;> by_cases h2 : b = PAD <;>
    simp [h1, h2, List.filter, List.takeWhile]
  omega

theorem exists_last_two (text : List Nat) (h : 2 ≤ text.length) :
    ∃ init b a, text = init ++ [b, a] := by
  obtain ⟨b, a, hba⟩ := List.length_eq_two.mp
    (show (text.drop (text.length - 2)).length = 2 by simp; omega)
  exact ⟨text.take (text.length - 2), b, a, by rw [← hba, List.take_append_drop]⟩

theorem getD_last_two (init : List Nat) (b a : Nat) :
    (init ++ [b, a]).getD ((init ++ [b, a]).length - 1) 0 = a ∧
    (init ++ [b, a]).getD ((init ++ [b, a]).length - 2) 0 = b := by
  have hl : (init ++ [b, a]).length = init.length + 2 := by simp
  have e1 : init.length + 2 - 1 = init.length + 1 := by omega
  have e2 : init.length + 2 - 2 = init.length + 0 := by omega
  rw [hl, e1, e2, getD_append_add, getD_append_add]
  exact ⟨rfl, rfl⟩

/-- The decoded length is `len / 4 * 3` minus the number of `=` among the last
two characters; that number is the length of the trailing run of `=` (up to
two) unless the last character but one is `=` and the last one is not. -/
theorem dec_len_spec (text : List Nat) (h : text.length % 4 = 0) :
    pppoat_base64_dec_len text text.length =
      .ret (text.length / 4 * 3 - pads_in_last_two text) ∧
    ((text.getD (text.length - 2) 0 = PAD → text.getD (text.length - 1) 0 = PAD) →
      pads_in_last_two text = trailing_pads text) := by
  rcases Nat.eq_zero_or_pos text.length with h0 | h0
  · have ht : text = [] := List.length_eq_zero.mp h0
    subst ht
    exact ⟨by decide, fun _ => by decide⟩
  · obtain ⟨init, b, a, rfl⟩ := exists_last_two text (by omega)
    have hg := getD_last_two init b a
    have hd := dec_len_last_two init b a h
    rw [hg.1, hg.2]
    exact hd

/-! ### Validation -/

theorem foldl_valid (f : Nat → Bool) (n : Nat) :
    (List.range n).foldl (fun valid i => if valid then f i else valid) true = true ↔
      ∀ i < n, f i = true := by
  induction n with
  | zero => simp
  | succ n ih =>
    rw [List.range_succ, List.foldl_append]
    simp only [List.foldl_cons, List.foldl_nil]
    constructor
    · intro h i hi
      by_cases hv :
          (List.range n).foldl (fun valid i => if valid then f i else valid) true = true
      · rw [hv] at h
        rcases Nat.eq_or_lt_of_le (Nat.le_of_lt_succ hi) with h1 | h1
        · subst h1; simpa using h
        · exact ih.mp hv i h1
      · simp [hv] at h
    · intro h
      have hv := ih.mpr fun i hi => h i (Nat.lt_succ_of_lt hi)
      rw [hv]
      simpa using h n (Nat.lt_succ_self n)

/-- `pppoat_base64_is_valid` is true exactly when `len` is a multiple of 4 and
`strchr` finds each of the first `checked_len` characters in `cb64`. -/
theorem is_valid_iff (base64 : List Nat) (len : Nat) :
    pppoat_base64_is_valid base64 len = true ↔
      len % 4 = 0 ∧
        ∀ i < checked_len base64 len, (strchr cb64 (base64.getD i 0)).isSome = true := by
  unfold pppoat_base64_is_valid
  by_cases h : len % 4 = 0
  · simp only [h, decide_True, if_true, true_and]
    exact foldl_valid (fun i => (strchr cb64 (base64.getD i 0)).isSome) _
  · simp [h]

theorem strchr_isSome (s : List Nat) (c : Nat) :
    (strchr s c).isSome = true ↔ c ∈ s ∨ c = 0 := by
  induction s with
  | nil => simp [strchr]
  | cons a s ih =>
    simp only [strchr, List.mem_cons]
    by_cases h : a = c
    · simp [h]
    · have h1 : ¬ c = a := fun e => h e.symm
      simp only [h, h1, if_false, false_or]
      rw [← ih]
      cases strchr s c <;> simp

theorem getLast?_take (t : List Nat) (n : Nat) (h0 : 0 < n) (hn : n ≤ t.length) :
    (t.take n).getLast? = some (t.getD (n - 1) 0) := by
  rw [List.getLast?_eq_getElem?, List.length_take, Nat.min_eq_left hn,
    List.getElem?_take_of_lt (by omega), List.getD_eq_getElem?_getD,
    List.getElem?_eq_getElem (by omega)]
  rfl

theorem dropLast_take (t : List Nat) (n : Nat) (hn : n ≤ t.length) :
    (t.take n).dropLast = t.take (n - 1) := by
  rw [List.dropLast_eq_take, List.length_take, Nat.min_eq_left hn, List.take_take,
    Nat.min_eq_left (by omega)]

theorem strip_pad_take (t : List Nat) (n : Nat) (h0 : 0 < n) (hn : n ≤ t.length) :
    strip_pad (t.take n) = t.take (if t.getD (n - 1) 0 = PAD then n - 1 else n) := by
  unfold strip_pad
  rw [getLast?_take t n h0 hn, dropLast_take t n hn]
  by_cases h : t.getD (n - 1) 0 = PAD
  · rw [if_pos h, if_pos (by rw [h])]
  · rw [if_neg h, if_neg (fun e => h (Option.some.inj e))]

/-- Stripping at most two trailing `=` keeps the first `checked_len`
characters. -/
theorem strip_pads_eq_take (text : List Nat) (h4 : text.length % 4 = 0) :
    strip_pads text = text.take (checked_len text text.length) := by
  unfold strip_pads checked_len
  rcases Nat.eq_zero_or_pos text.length with h0 | h0
  · have ht : text = [] := List.length_eq_zero.mp h0
    subst ht
    decide
  · have e : strip_pad text = strip_pad (text.take text.length) := by rw [List.take_length]
    rw [if_pos (by omega), e, strip_pad_take text text.length h0 (le_refl _)]
    by_cases h : text.getD (text.length - 1) 0 = PAD
    · simp only [if_pos h]
      rw [strip_pad_take text _ (by omega) (by omega)]
    · simp only [if_neg h]
      rw [strip_pad_take text _ (by omega) (by omega), if_neg h]

theorem checked_len_le (text : List Nat) (len : Nat) : checked_len text len ≤ len := by
  unfold checked_len
  by_cases h0 : len ≠ 0
  · rw [if_pos h0]
    by_cases h : text.getD (len - 1) 0 = PAD
    · simp only [if_pos h]
      split_ifs <;> omega
    · simp only [if_neg h]
      exact le_refl _
  · rw [if_neg h0]

/-- On a text without NUL characters `pppoat_base64_is_valid` is validity as
the specification words it. -/
theorem is_valid_iff_spec (text : List Nat) (hnul : ∀ c ∈ text, c ≠ 0) :
    pppoat_base64_is_valid text text.length = true ↔ spec_is_valid text := by
  rw [is_valid_iff]
  unfold spec_is_valid
  constructor
  · rintro ⟨h4, h⟩
    refine ⟨h4, ?_⟩
    rw [strip_pads_eq_take text h4]
    intro c hc
    obtain ⟨i, hi, rfl⟩ := List.mem_iff_getElem.mp hc
    rw [List.length_take] at hi
    have hle := checked_len_le text text.length
    have hi1 : i < checked_len text text.length := by omega
    have hi2 : i < text.length := by omega
    have hs := h i hi1
    rw [strchr_isSome, List.getD_eq_getElem _ _ hi2, cb64_eq_alphabet] at hs
    rw [List.getElem_take]
    rcases hs with hs | hs
    · exact hs
    · exact absurd hs (hnul _ (List.getElem_mem hi2))
  · rintro ⟨h4, h⟩
    refine ⟨h4, ?_⟩
    rw [strip_pads_eq_take text h4] at h
    intro i hi
    have hle := checked_len_le text text.length
    have hi2 : i < text.length := by omega
    rw [strchr_isSome, List.getD_eq_getElem _ _ hi2, cb64_eq_alphabet]
    left
    apply h
    rw [List.mem_iff_getElem]
    exact ⟨i, by rw [List.length_take]; omega, by rw [List.getElem_take]⟩

/-! ### The decoding loop on texts without NUL -/

theorem strchr_eq_length (s : List Nat) (x : Nat) :
    strchr s x = some s.length → x = 0 := by
  induction s with
  | nil =>
    intro h
    simp only [strchr] at h
    split at h
    · assumption
    · cases h
  | cons a s ih =>
    intro h
    simp only [strchr] at h
    split at h
    · simp at h
    · cases hs : strchr s x with
      | none => simp [hs] at h
      | some d =>
        simp [hs] at h
        exact ih (by rw [hs, h])

theorem strchr_cb64_lt (x c : Nat) (hx : x ≠ 0) (h : strchr cb64 x = some c) : c < 64 := by
  have h1 : c ≤ 64 := strchr_le cb64 x c h
  rcases Nat.eq_or_lt_of_le h1 with h2 | h2
  · subst h2
    exact absurd (strchr_eq_length cb64 x h) hx
  · exact h2

/-- On a text without NUL characters, with at least `ceil(4 rlen / 3)`
characters, the decoding loop fails no assertion: it returns 0 when `strchr`
accepts every character below index `ceil(4 rlen / 3)`, and `-EINVAL` at the
first one it rejects. -/
theorem dec_loop_outcome (base64 : List Nat) (len rlen : Nat)
    (hN : (4 * rlen + 2) / 3 ≤ len) (hnul : ∀ i < len, base64.getD i 0 ≠ 0) :
    ∀ (fuel i j : Nat) (p : List Nat),
      j = 3 * (i / 4) + (i % 4 - 1) → i ≤ len → len < fuel + i →
      (∃ r, dec_loop base64 len rlen fuel i j p = .ret (0, r) ∧
        ∀ k, i ≤ k → k < (4 * rlen + 2) / 3 →
          (strchr cb64 (base64.getD k 0)).isSome = true) ∨
      (∃ r e, dec_loop base64 len rlen fuel i j p = .ret (P_ERR (-EINVAL), r) ∧
        i ≤ e ∧ e < (4 * rlen + 2) / 3 ∧ strchr cb64 (base64.getD e 0) = none) := by
  intro fuel
  induction fuel with
  | zero => intro i j p _ h1 h2; omega
  | succ fuel ih =>
    intro i j p hj h1 h2
    rw [dec_loop]
    unfold PPPOAT_ASSERT
    by_cases hjr : j < rlen
    · have hiN : i < (4 * rlen + 2) / 3 := by omega
      have hi : i < len := by omega
      rw [if_pos hjr, if_pos hi]
      cases hs : strchr cb64 (base64.getD i 0) with
      | none => exact Or.inr ⟨p, i, rfl, le_refl _, hiN, hs⟩
      | some c =>
        have hc : c < 64 := strchr_cb64_lt _ c (hnul i hi) hs
        have hc1 : c % 256 = c := Nat.mod_eq_of_lt (by omega)
        simp only [hc1]
        rw [if_pos (and_c0_of_lt c hc)]
        have hstep : ∀ (j1 : Nat) (p1 : List Nat),
            j1 = 3 * ((i + 1) / 4) + ((i + 1) % 4 - 1) →
            (∃ r, dec_loop base64 len rlen fuel (i + 1) j1 p1 = .ret (0, r) ∧
              ∀ k, i ≤ k → k < (4 * rlen + 2) / 3 →
                (strchr cb64 (base64.getD k 0)).isSome = true) ∨
            (∃ r e, dec_loop base64 len rlen fuel (i + 1) j1 p1 =
                .ret (P_ERR (-EINVAL), r) ∧
              i ≤ e ∧ e < (4 * rlen + 2) / 3 ∧ strchr cb64 (base64.getD e 0) = none) := by
          intro j1 p1 hj1
          rcases ih (i + 1) j1 p1 hj1 (by omega) (by omega) with
            ⟨r, hr, hk⟩ | ⟨r, e, hr, he⟩
          · refine Or.inl ⟨r, hr, fun k hk1 hk2 => ?_⟩
            rcases Nat.eq_or_lt_of_le hk1 with h | h
            · subst h; rw [hs]; rfl
            · exact hk k (by omega) hk2
          · exact Or.inr ⟨r, e, hr, by omega, he.2.1, he.2.2⟩
        have hmod : i % 4 = 0 ∨ i % 4 = 1 ∨ i % 4 = 2 ∨ i % 4 = 3 := by omega
        rcases hmod with hm | hm | hm | hm <;> simp only [hm] <;>
          exact hstep _ _ (by omega)
    · rw [if_neg hjr]
      exact Or.inl ⟨p, rfl, fun k hk1 hk2 => by omega⟩

theorem strchr_pad : strchr cb64 PAD = none := by decide

theorem dec_len_cases (text : List Nat) (len : Nat) (h4 : len % 4 = 0) (h0 : 0 < len) :
    pppoat_base64_dec_len text len =
      .ret (len / 4 * 3 - (if text.getD (len - 1) 0 = PAD then 1 else 0) -
        (if text.getD (len - 2) 0 = PAD then 1 else 0)) := by
  unfold pppoat_base64_dec_len PPPOAT_ASSERT
  rw [if_pos h4]
  have h1 : 1 < len := by omega
  simp only [h0, h1, true_and]
  congr 1
  split_ifs <;> omega

theorem checked_len_cases (text : List Nat) (len : Nat) (h0 : 0 < len) :
    checked_len text len =
      if text.getD (len - 1) 0 = PAD then
        (if text.getD (len - 2) 0 = PAD then len - 2 else len - 1)
      else len := by
  unfold checked_len
  rw [if_pos (by omega)]
  by_cases h : text.getD (len - 1) 0 = PAD
  · simp only [if_pos h]
    have e : len - 1 - 1 = len - 2 := by omega
    rw [e]
  · simp only [if_neg h]

theorem getD_ne_zero_of_mem (text : List Nat) (hnul : ∀ c ∈ text, c ≠ 0) :
    ∀ i < text.length, text.getD i 0 ≠ 0 := by
  intro i hi
  rw [List.getD_eq_getElem _ _ hi]
  exact hnul _ (List.getElem_mem hi)

/-- The decoder on a text without NUL characters whose length is a multiple
of 4: it returns 0 or `-EINVAL`, and 0 exactly when `strchr` accepts every
character below index `ceil(4 rlen / 3)`. -/
theorem dec_outcome (text : List Nat) (result : List Nat) (rlen : Nat)
    (hnul : ∀ c ∈ text, c ≠ 0)
    (hd : pppoat_base64_dec_len text text.length = .ret rlen)
    (hN : (4 * rlen + 2) / 3 ≤ text.length) :
    (∃ r, pppoat_base64_dec text text.length result rlen = .ret (0, r) ∧
      ∀ k, k < (4 * rlen + 2) / 3 → (strchr cb64 (text.getD k 0)).isSome = true) ∨
    (∃ r e, pppoat_base64_dec text text.length result rlen = .ret (P_ERR (-EINVAL), r) ∧
      e < (4 * rlen + 2) / 3 ∧ strchr cb64 (text.getD e 0) = none) := by
  have h4 : text.length % 4 = 0 := by
    unfold pppoat_base64_dec_len PPPOAT_ASSERT at hd
    by_contra h
    rw [if_neg h] at hd
    cases hd
  unfold pppoat_base64_dec PPPOAT_ASSERT
  rw [if_pos h4, hd]
  simp only [Outcome.bind, if_true]
  rcases dec_loop_outcome text text.length rlen hN (getD_ne_zero_of_mem text hnul)
      (text.length + 1) 0 0 result (by simp) (Nat.zero_le _) (by omega) with
    ⟨r, hr, hk⟩ | ⟨r, e, hr, he⟩
  · exact Or.inl ⟨r, hr, fun k hk1 => hk k (Nat.zero_le _) hk1⟩
  · exact Or.inr ⟨r, e, hr, he.2.1, he.2.2⟩

/-- On a text without NUL characters whose length is a multiple of 4,
`pppoat_base64_is_valid` is true exactly when `pppoat_base64_dec`, called with
`result_len = pppoat_base64_dec_len`, returns 0. -/
theorem is_valid_iff_dec (text : List Nat) (result : List Nat)
    (hnul : ∀ c ∈ text, c ≠ 0) (h4 : text.length % 4 = 0) :
    pppoat_base64_is_valid text text.length = true ↔
      ∃ rlen r, pppoat_base64_dec_len text text.length = .ret rlen ∧
        pppoat_base64_dec text text.length result rlen = .ret (0, r) := by
  rcases Nat.eq_zero_or_pos text.length with h0 | h0
  · have ht : text = [] := List.length_eq_zero.mp h0
    subst ht
    exact ⟨fun _ => ⟨0, result, by decide, rfl⟩, fun _ => by decide⟩
  · have hd := dec_len_cases text text.length h4 h0
    have hc := checked_len_cases text text.length h0
    rw [is_valid_iff]
    generalize hrl : text.length / 4 * 3 -
        (if text.getD (text.length - 1) 0 = PAD then 1 else 0) -
        (if text.getD (text.length - 2) 0 = PAD then 1 else 0) = rlen at hd
    have hN : (4 * rlen + 2) / 3 ≤ text.length := by
      rw [← hrl]; split_ifs <;> omega
    have ho := dec_outcome text result rlen hnul hd hN
    constructor
    · rintro ⟨-, hv⟩
      rcases ho with ⟨r, hr, -⟩ | ⟨r, e, -, he1, he2⟩
      · exact ⟨rlen, r, hd, hr⟩
      · exfalso
        have he3 : e < checked_len text text.length := by
          rw [hc]; rw [← hrl] at he1; split_ifs at he1 ⊢ <;> omega
        have := hv e he3
        rw [he2] at this
        cases this
    · rintro ⟨rlen1, r, hd1, hr⟩
      rw [hd] at hd1
      cases hd1
      refine ⟨h4, ?_⟩
      rcases ho with ⟨r1, -, hk⟩ | ⟨r1, e, hr1, -, -⟩
      · intro i hi
        by_cases hb : text.getD (text.length - 2) 0 = PAD
        · by_cases ha : text.getD (text.length - 1) 0 = PAD
          · apply hk
            rw [hc, if_pos ha, if_pos hb] at hi
            rw [← hrl, if_pos ha, if_pos hb]
            omega
          · exfalso
            have h2 := hk (text.length - 2) (by
              rw [← hrl, if_neg ha, if_pos hb]; omega)
            rw [hb, strchr_pad] at h2
            cases h2
        · apply hk
          rw [hc, if_neg hb] at hi
          rw [← hrl, if_neg hb]
          split_ifs at hi ⊢ <;> omega
      · rw [hr] at hr1
        simp only [Outcome.ret.injEq, Prod.mk.injEq] at hr1
        exact absurd hr1.1.symm einval_ne_zero

/-- On a text without NUL characters whose length is a multiple of 4 and which
holds a character that is neither in the alphabet nor a valid trailing pad,
`pppoat_base64_dec`, called with `result_len = pppoat_base64_dec_len`, returns
`-EINVAL`. -/
theorem dec_einval_of_bad_char (text : List Nat) (result : List Nat)
    (hnul : ∀ c ∈ text, c ≠ 0) (h4 : text.length % 4 = 0)
    (i0 : Nat) (hbad : bad_char text i0) :
    ∃ rlen r, pppoat_base64_dec_len text text.length = .ret rlen ∧
      pppoat_base64_dec text text.length result rlen = .ret (P_ERR (-EINVAL), r) := by
  obtain ⟨hi0, hna, hnp⟩ := hbad
  have h0 : 0 < text.length := by omega
  have hd := dec_len_cases text text.length h4 h0
  generalize hrl : text.length / 4 * 3 -
      (if text.getD (text.length - 1) 0 = PAD then 1 else 0) -
      (if text.getD (text.length - 2) 0 = PAD then 1 else 0) = rlen at hd
  have hN : (4 * rlen + 2) / 3 ≤ text.length := by
    rw [← hrl]; split_ifs <;> omega
  rcases dec_outcome text result rlen hnul hd hN with ⟨r, -, hk⟩ | ⟨r, e, hr, -, -⟩
  · exfalso
    have hnone : (strchr cb64 (text.getD i0 0)).isSome ≠ true := by
      intro hs
      rw [strchr_isSome, cb64_eq_alphabet] at hs
      rcases hs with h | h
      · exact hna h
      · exact getD_ne_zero_of_mem text hnul i0 hi0 h
    by_cases hlt : i0 < (4 * rlen + 2) / 3
    · exact hnone (hk i0 hlt)
    · by_cases ha : text.getD (text.length - 1) 0 = PAD
      · by_cases hb : text.getD (text.length - 2) 0 = PAD
        · rw [← hrl, if_pos ha, if_pos hb] at hlt
          have hcase : i0 = text.length - 1 ∨ i0 = text.length - 2 := by omega
          rcases hcase with h | h
          · subst h
            exact hnp ⟨ha, Or.inl (by omega)⟩
          · subst h
            have e1 : text.length - 2 + 1 = text.length - 1 := by omega
            exact hnp ⟨hb, Or.inr ⟨by omega, by rw [e1]; exact ha⟩⟩
        · rw [← hrl, if_pos ha, if_neg hb] at hlt
          have h : i0 = text.length - 1 := by omega
          subst h
          exact hnp ⟨ha, Or.inl (by omega)⟩
      · by_cases hb : text.getD (text.length - 2) 0 = PAD
        · have h2 := hk (text.length - 2) (by
            rw [← hrl, if_neg ha, if_pos hb]; omega)
          rw [hb, strchr_pad] at h2
          cases h2
        · rw [← hrl, if_neg ha, if_neg hb] at hlt
          omega
  · exact ⟨rlen, r, hd, hr⟩

/-- The checked decoder on a text without NUL characters whose length is a
multiple of 4: a text that fails validation is rejected with `-EINVAL` and the
out-parameters are left alone; a text that passes validation is decoded, when
the allocation succeeds, with return code 0 and
`*result_len = pppoat_base64_dec_len`. -/
theorem dec_new_of_no_nul (pppoat_alloc : Nat → Option (List Nat)) (text : List Nat)
    (out : DecNewOut) (hnul : ∀ c ∈ text, c ≠ 0) (h4 : text.length % 4 = 0) :
    (pppoat_base64_is_valid text text.length = false →
      pppoat_base64_dec_new pppoat_alloc text text.length out =
        .ret (P_ERR (-EINVAL), out)) ∧
    (pppoat_base64_is_valid text text.length = true →
      ∀ rlen buf, pppoat_base64_dec_len text text.length = .ret rlen →
        pppoat_alloc rlen = some buf →
        ∃ r, pppoat_base64_dec_new pppoat_alloc text text.length out =
          .ret (0, { result := some r, result_len := rlen })) := by
  constructor
  · intro hv
    have hd : ∃ rlen, pppoat_base64_dec_len text text.length = .ret rlen := by
      unfold pppoat_base64_dec_len PPPOAT_ASSERT
      rw [if_pos h4]
      exact ⟨_, rfl⟩
    obtain ⟨rlen, hd⟩ := hd
    unfold pppoat_base64_dec_new
    rw [hd, hv]
    simp [Outcome.bind, einval_ne_zero]
  · intro hv rlen buf hd ha
    obtain ⟨rlen1, r, hd1, hr⟩ := (is_valid_iff_dec text buf hnul h4).mp hv
    rw [hd] at hd1
    cases hd1
    refine ⟨r, ?_⟩
    unfold pppoat_base64_dec_new
    rw [hd, hv]
    simp [Outcome.bind, ha, hr, PPPOAT_ASSERT]

/-! ### The decoding loop computes the reference bit reassembly -/

theorem indexOf_of_strchr (s : List Nat) (x : Nat) :
    ∀ c, strchr s x = some c → c < s.length → s.indexOf x = c := by
  induction s with
  | nil => intro c _ h; simp at h
  | cons a s ih =>
    intro c h hc
    simp only [strchr] at h
    by_cases ha : a = x
    · rw [if_pos ha] at h
      cases h
      subst ha
      simp
    · rw [if_neg ha] at h
      cases hs : strchr s x with
      | none => simp [hs] at h
      | some d =>
        simp [hs] at h
        subst h
        have hd := ih d hs (by simpa using hc)
        rw [List.indexOf_cons_ne _ ha, hd]

theorem alphabet_pos_of_strchr (x c : Nat) (h : strchr cb64 x = some c) (hc : c < 64) :
    alphabet_pos x = c := by
  unfold alphabet_pos
  rw [← cb64_eq_alphabet]
  exact indexOf_of_strchr cb64 x c h hc

theorem ref0 : ∀ v0 < 64, ∀ v1 < 64,
    ((v0 <<< 2) % 256 ||| (v1 >>> 4)) % 256 = (v0 <<< 2) ||| (v1 >>> 4) := by
  decide

theorem ref1 : ∀ v1 < 64, ∀ v2 < 64,
    ((v1 <<< 4) % 256 ||| (v2 >>> 2)) % 256 = ((v1 &&& 15) <<< 4) ||| (v2 >>> 2) := by
  decide

theorem ref2 : ∀ v2 < 64, ∀ v3 < 64,
    ((v2 <<< 6) % 256 ||| v3) % 256 = ((v2 &&& 3) <<< 6) ||| v3 := by
  decide

theorem getD_set_self (p : List Nat) (j v d : Nat) (h : j < p.length) :
    (p.set j v).getD j d = v := by
  simp [List.getD_eq_getElem?_getD, List.getElem?_set_self, h]

theorem ref_byte_0 (text : List Nat) (k : Nat) (h : k % 3 = 0) :
    ref_byte text k =
      (alphabet_pos (text.getD (4 * (k / 3)) 0) <<< 2) |||
        (alphabet_pos (text.getD (4 * (k / 3) + 1) 0) >>> 4) := by
  simp only [ref_byte, h, Nat.add_zero]

theorem ref_byte_1 (text : List Nat) (k : Nat) (h : k % 3 = 1) :
    ref_byte text k =
      ((alphabet_pos (text.getD (4 * (k / 3) + 1) 0) &&& 15) <<< 4) |||
        (alphabet_pos (text.getD (4 * (k / 3) + 2) 0) >>> 2) := by
  simp only [ref_byte, h]

theorem ref_byte_2 (text : List Nat) (k : Nat) (h : k % 3 = 2) :
    ref_byte text k =
      ((alphabet_pos (text.getD (4 * (k / 3) + 2) 0) &&& 3) <<< 6) |||
        alphabet_pos (text.getD (4 * (k / 3) + 3) 0) := by
  simp only [ref_byte, h]

/-- Invariant of the decoding loop: the bytes below `j` are final and equal to
the reference bytes, and between two characters of a group byte `j` holds the
bits contributed so far. When the loop returns 0, all `rlen` bytes are the
reference bytes. -/
theorem dec_loop_ref (text : List Nat) (len rlen : Nat) :
    ∀ (fuel i j : Nat) (p r : List Nat),
      dec_loop text len rlen fuel i j p = .ret (0, r) →
      j = 3 * (i / 4) + (i % 4 - 1) →
      p.length = rlen →
      (∀ k < j, k < rlen → p.getD k 0 = ref_byte text k) →
      (i % 4 ≠ 0 → alphabet_pos (text.getD (i - 1) 0) < 64 ∧
        (j < rlen → p.getD j 0 =
          (alphabet_pos (text.getD (i - 1) 0) <<< (2 * (i % 4))) % 256)) →
      ∀ k < rlen, r.getD k 0 = ref_byte text k := by
  intro fuel
  induction fuel with
  | zero => intro i j p r h; simp [dec_loop] at h
  | succ fuel ih =>
    intro i j p r h hj hl hdone hpart
    rw [dec_loop] at h
    unfold PPPOAT_ASSERT at h
    by_cases h1 : j < rlen
    · rw [if_pos h1] at h
      by_cases h2 : i < len
      · rw [if_pos h2] at h
        cases hs : strchr cb64 (text.getD i 0) with
        | none =>
          rw [hs] at h
          simp only [Outcome.ret.injEq, Prod.mk.injEq] at h
          exact absurd h.1 einval_ne_zero
        | some c =>
          rw [hs] at h
          simp only at h
          by_cases h3 : (c % 256) &&& 0xc0 = 0
          · rw [if_pos h3] at h
            have hc : c < 64 := lt_of_and_c0 c (strchr_le cb64 _ c hs) h3
            have hc1 : c % 256 = c := Nat.mod_eq_of_lt (by omega)
            have hpos : alphabet_pos (text.getD i 0) = c := alphabet_pos_of_strchr _ c hs hc
            have hjl : j < p.length := by omega
            rw [hc1] at h
            have hmod : i % 4 = 0 ∨ i % 4 = 1 ∨ i % 4 = 2 ∨ i % 4 = 3 := by omega
            rcases hmod with hm | hm | hm | hm
            · simp only [hm] at h
              refine ih (i + 1) j _ r h (by omega) (by simp [hl]) ?_ ?_
              · intro k hk1 hk2
                rw [getD_set_of_ne _ _ _ _ _ (by omega)]
                exact hdone k hk1 hk2
              · intro _
                have e1 : i + 1 - 1 = i := by omega
                have e2 : 2 * ((i + 1) % 4) = 2 := by omega
                rw [e1, e2, hpos]
                exact ⟨hc, fun _ => getD_set_self _ _ _ _ hjl⟩
            · simp only [hm] at h
              obtain ⟨hv0, hp0⟩ := hpart (by omega)
              have e0 : 2 * (i % 4) = 2 := by omega
              rw [e0] at hp0
              have hbyte : ((p.getD j 0 ||| (c >>> 4)) % 256) = ref_byte text j := by
                rw [ref_byte_0 text j (by omega)]
                have a0 : 4 * (j / 3) = i - 1 := by omega
                have a1 : 4 * (j / 3) + 1 = i := by omega
                rw [a1, a0, hpos, hp0 h1]
                exact ref0 _ hv0 c hc
              refine ih (i + 1) (j + 1) _ r h (by omega) (by split_ifs <;> simp [hl]) ?_ ?_
              · intro k hk1 hk2
                rcases Nat.eq_or_lt_of_le (Nat.le_of_lt_succ hk1) with hk | hk
                · subst hk
                  split_ifs
                  · rw [getD_set_of_ne _ _ _ _ _ (by omega), getD_set_self _ _ _ _ hjl]
                    exact hbyte
                  · rw [getD_set_self _ _ _ _ hjl]
                    exact hbyte
                · split_ifs
                  · rw [getD_set_of_ne _ _ _ _ _ (by omega),
                      getD_set_of_ne _ _ _ _ _ (by omega)]
                    exact hdone k hk hk2
                  · rw [getD_set_of_ne _ _ _ _ _ (by omega)]
                    exact hdone k hk hk2
              · intro _
                have e1 : i + 1 - 1 = i := by omega
                have e2 : 2 * ((i + 1) % 4) = 4 := by omega
                rw [e1, e2, hpos]
                refine ⟨hc, fun hj1 => ?_⟩
                rw [if_pos hj1]
                exact getD_set_self _ _ _ _ (by simp; omega)
            · simp only [hm] at h
              obtain ⟨hv0, hp0⟩ := hpart (by omega)
              have e0 : 2 * (i % 4) = 4 := by omega
              rw [e0] at hp0
              have hbyte : ((p.getD j 0 ||| (c >>> 2)) % 256) = ref_byte text j := by
                rw [ref_byte_1 text j (by omega)]
                have a0 : 4 * (j / 3) + 1 = i - 1 := by omega
                have a1 : 4 * (j / 3) + 2 = i := by omega
                rw [a0, a1, hpos, hp0 h1]
                exact ref1 _ hv0 c hc
              refine ih (i + 1) (j + 1) _ r h (by omega) (by split_ifs <;> simp [hl]) ?_ ?_
              · intro k hk1 hk2
                rcases Nat.eq_or_lt_of_le (Nat.le_of_lt_succ hk1) with hk | hk
                · subst hk
                  split_ifs
                  · rw [getD_set_of_ne _ _ _ _ _ (by omega), getD_set_self _ _ _ _ hjl]
                    exact hbyte
                  · rw [getD_set_self _ _ _ _ hjl]
                    exact hbyte
                · split_ifs
                  · rw [getD_set_of_ne _ _ _ _ _ (by omega),
                      getD_set_of_ne _ _ _ _ _ (by omega)]
                    exact hdone k hk hk2
                  · rw [getD_set_of_ne _ _ _ _ _ (by omega)]
                    exact hdone k hk hk2
              · intro _
                have e1 : i + 1 - 1 = i := by omega
                have e2 : 2 * ((i + 1) % 4) = 6 := by omega
                rw [e1, e2, hpos]
                refine ⟨hc, fun hj1 => ?_⟩
                rw [if_pos hj1]
                exact getD_set_self _ _ _ _ (by simp; omega)
            · simp only [hm] at h
              obtain ⟨hv0, hp0⟩ := hpart (by omega)
              have e0 : 2 * (i % 4) = 6 := by omega
              rw [e0] at hp0
              have hbyte : ((p.getD j 0 ||| c) % 256) = ref_byte text j := by
                rw [ref_byte_2 text j (by omega)]
                have a0 : 4 * (j / 3) + 2 = i - 1 := by omega
                have a1 : 4 * (j / 3) + 3 = i := by omega
                rw [a0, a1, hpos, hp0 h1]
                exact ref2 _ hv0 c hc
              refine ih (i + 1) (j + 1) _ r h (by omega) (by simp [hl]) ?_ ?_
              · intro k hk1 hk2
                rcases Nat.eq_or_lt_of_le (Nat.le_of_lt_succ hk1) with hk | hk
                · subst hk
                  rw [getD_set_self _ _ _ _ hjl]
                  exact hbyte
                · rw [getD_set_of_ne _ _ _ _ _ (by omega)]
                  exact hdone k hk hk2
              · intro hne
                omega
          · rw [if_neg h3] at h
            cases h
      · rw [if_neg h2] at h
        cases h
    · rw [if_neg h1] at h
      simp only [Outcome.ret.injEq, Prod.mk.injEq, true_and] at h
      subst h
      intro k hk
      exact hdone k (by omega) hk

/-- When the decoder returns 0, `result_len` is the decoded length and every
byte of the result is the reference byte. -/
theorem dec_ref (text : List Nat) (len : Nat) (result : List Nat) (result_len : Nat)
    (r : List Nat) (hbuf : result.length = result_len)
    (h : pppoat_base64_dec text len result result_len = .ret (0, r)) :
    pppoat_base64_dec_len text len = .ret result_len ∧
      ∀ k < result_len, r.getD k 0 = ref_byte text k := by
  unfold pppoat_base64_dec PPPOAT_ASSERT at h
  by_cases h4 : len % 4 = 0
  · rw [if_pos h4] at h
    cases hd : pppoat_base64_dec_len text len with
    | ret n =>
      rw [hd] at h
      simp only [Outcome.bind] at h
      by_cases hn : result_len = n
      · rw [if_pos hn] at h
        subst hn
        refine ⟨rfl, ?_⟩
        exact dec_loop_ref text len result_len (len + 1) 0 0 result r h (by simp) hbuf
          (fun k hk => absurd hk (Nat.not_lt_zero k)) (fun h0 => absurd rfl h0)
      · rw [if_neg hn] at h; cases h
    | abort => rw [hd] at h; cases h
    | fuel => rw [hd] at h; cases h
  · rw [if_neg h4] at h; cases h

/-! ### Encoder output and the validator -/

theorem alphabetAt_ne_zero : ∀ v < 64, alphabetAt v ≠ 0 := by decide

theorem rfc_ne_zero (bs : List Nat) :
    (∀ x ∈ bs, x < 256) → ∀ c ∈ rfc4648_encode bs, c ≠ 0 := by
  induction bs using rfc4648_encode.induct with
  | case4 => intro _ c hc; simp [rfc4648_encode] at hc
  | case3 b0 =>
    intro hb c hc
    have hb0 : b0 < 256 := hb b0 (by simp)
    have h0 := alphabetAt_ne_zero _ (shr2_lt b0 hb0)
    have h1 := alphabetAt_ne_zero _ (shl4_lt _ (and3_lt b0 hb0))
    have hp : PAD ≠ 0 := by decide
    simp only [rfc4648_encode, List.mem_cons, List.mem_nil_iff, or_false] at hc
    rcases hc with rfl | rfl | rfl | rfl <;> assumption
  | case2 b0 b1 =>
    intro hb c hc
    have hb0 : b0 < 256 := hb b0 (by simp)
    have hb1 : b1 < 256 := hb b1 (by simp)
    have h0 := alphabetAt_ne_zero _ (shr2_lt b0 hb0)
    have h1 := alphabetAt_ne_zero _ (shl4_or_lt _ (and3_lt b0 hb0) _ (shr4_lt b1 hb1))
    have h2 := alphabetAt_ne_zero _ (shl2_lt _ (and15_lt b1 hb1))
    have hp : PAD ≠ 0 := by decide
    simp only [rfc4648_encode, List.mem_cons, List.mem_nil_iff, or_false] at hc
    rcases hc with rfl | rfl | rfl | rfl <;> assumption
  | case1 b0 b1 b2 rest ih =>
    intro hb c hc
    have hb0 : b0 < 256 := hb b0 (by simp)
    have hb1 : b1 < 256 := hb b1 (by simp)
    have hb2 : b2 < 256 := hb b2 (by simp)
    have hrest : ∀ x ∈ rest, x < 256 := fun x hx => hb x (by simp [hx])
    have h0 := alphabetAt_ne_zero _ (shr2_lt b0 hb0)
    have h1 := alphabetAt_ne_zero _ (shl4_or_lt _ (and3_lt b0 hb0) _ (shr4_lt b1 hb1))
    have h2 := alphabetAt_ne_zero _ (shl2_or_lt _ (and15_lt b1 hb1) _ (shr6_lt b2 hb2))
    have h3 := alphabetAt_ne_zero _ (and63_lt b2 hb2)
    simp only [rfc4648_encode, List.mem_cons] at hc
    rcases hc with rfl | rfl | rfl | rfl | hc
    · exact h0
    · exact h1
    · exact h2
    · exact h3
    · exact ih hrest c hc

/-- The reference encoding of a byte sequence passes validation. -/
theorem is_valid_rfc (bs : List Nat) (hb : ∀ x ∈ bs, x < 256) :
    pppoat_base64_is_valid (rfc4648_encode bs) (rfc4648_encode bs).length = true := by
  have h4 : (rfc4648_encode bs).length % 4 = 0 := by
    rw [rfc4648_encode_length]; omega
  rw [is_valid_iff_dec (rfc4648_encode bs) (List.replicate bs.length 0)
    (rfc_ne_zero bs hb) h4]
  exact ⟨bs.length, bs, dec_len_rfc bs hb, dec_rfc bs hb _ (by simp)⟩

/-! ## Lemmas on runs and traces -/

/-- A call followed by a continuation. -/
theorem call_bind {β : Type} (e : Event) (f : Unit → Prog β) :
    (Prog.call e >>= f) = Prog.cons e (f ()) := rfl

/-- An assertion followed by a continuation: a failed assertion ends the run. -/
theorem assert_bind {β : Type} (c : Prop) [Decidable c] (f : Unit → Prog β) :
    (Prog.assert c >>= f) = if c then f () else ⟨[], .abort⟩ := by
  by_cases h : c
  · simp [Prog.assert, PPPOAT_ASSERT, h, bind, Prog.bind]
  · simp [Prog.assert, PPPOAT_ASSERT, h, bind, Prog.bind]

theorem pure_bind_prog {α β : Type} (a : α) (f : α → Prog β) :
    ((pure a : Prog α) >>= f) = f a := by
  simp [bind, Prog.bind, pure]

theorem ite_bind_prog {α β : Type} (c : Prop) [Decidable c] (a b : Prog α)
    (f : α → Prog β) :
    ((if c then a else b) >>= f) = if c then a >>= f else b >>= f := by
  split_ifs <;> rfl

theorem cons_bind {α β : Type} (e : Event) (p : Prog α) (f : α → Prog β) :
    (Prog.cons e p >>= f) = Prog.cons e (p >>= f) := by
  cases p with
  | mk t o => cases o <;> rfl

theorem abort_bind {α β : Type} (f : α → Prog β) :
    ((⟨[], .abort⟩ : Prog α) >>= f) = ⟨[], .abort⟩ := rfl

theorem call_eq (e : Event) : Prog.call e = Prog.cons e (pure ()) := rfl

theorem cons_trace {α : Type} (e : Event) (p : Prog α) :
    (Prog.cons e p).trace = e :: p.trace := rfl

theorem cons_out {α : Type} (e : Event) (p : Prog α) : (Prog.cons e p).out = p.out := rfl

theorem pure_trace {α : Type} (a : α) : (pure a : Prog α).trace = [] := rfl

theorem pure_out {α : Type} (a : α) : (pure a : Prog α).out = .ret a := rfl

/-- The code `P_ERR (-errno)` is not 0: `errno` is positive after a failure. -/
theorem perr_errno_eq (e : ℕ+) : (P_ERR (-(e : Int)) = 0) = False := by
  unfold P_ERR
  have h := e.pos
  simp only [eq_iff_iff, iff_false]
  omega

theorem perr_enomem_eq : (P_ERR (-ENOMEM) = 0) = False := by
  simp only [eq_iff_iff, iff_false]
  decide

/-- The one-pass check of `before` is sound. -/
theorem before_of_chk (a b : Event) (tr : List Event) (h : before_chk a b tr = true) :
    before a b tr := by
  induction tr with
  | nil => intro j hj; simp at hj
  | cons e tr ih =>
    intro j hj hb
    rw [before_chk] at h
    by_cases heb : e = b
    · simp [heb] at h
    · rw [if_neg heb] at h
      cases j with
      | zero =>
        simp at hb
        exact absurd hb heb
      | succ j =>
        by_cases hea : e = a
        · exact ⟨0, Nat.succ_pos j, by simp [hea]⟩
        · rw [if_neg hea] at h
          have hj2 : j < tr.length := by simpa using hj
          have hb2 : tr[j]? = some b := by simpa using hb
          obtain ⟨i, hi, hia⟩ := ih h j hj2 hb2
          exact ⟨i + 1, Nat.succ_lt_succ hi, by simpa using hia⟩

/-- The one-pass check of `runs_under` is sound, from any starting disposition. -/
theorem runs_under_of_chk_from (e : Event) (s : Sig) (d : Disp) (tr : List Event) :
    ∀ d0 : Disp, runs_under_chk e s d d0 tr = true →
      ∀ j < tr.length, tr[j]? = some e → (tr.take j).foldl (disp_step s) d0 = d := by
  induction tr with
  | nil => intro d0 _ j hj; simp at hj
  | cons x tr ih =>
    intro d0 h j hj he
    rw [runs_under_chk, Bool.and_eq_true] at h
    cases j with
    | zero =>
      simp at he
      have h1 := h.1
      rw [if_pos he] at h1
      simpa using h1
    | succ j =>
      have hj2 : j < tr.length := by simpa using hj
      have he2 : tr[j]? = some e := by simpa using he
      have := ih (disp_step s d0 x) h.2 j hj2 he2
      simpa using this

/-- The one-pass check of `runs_under` is sound. -/
theorem runs_under_of_chk (e : Event) (s : Sig) (d : Disp) (tr : List Event)
    (h : runs_under_chk e s d .SIG_DFL tr = true) : runs_under e s d tr := by
  intro j hj he
  exact runs_under_of_chk_from e s d tr .SIG_DFL h j hj he

/-- The one-pass check of `main_facts` is sound. -/
theorem main_facts_of_chk (tr : List Event) (h : main_facts_chk tr = true) :
    main_facts tr := by
  unfold main_facts_chk at h
  rw [Bool.and_eq_true, List.all_eq_true, List.all_eq_true] at h
  refine ⟨fun p hp => before_of_chk _ _ _ (h.1 p hp), fun e he => ?_⟩
  have h2 := h.2 e he
  rw [Bool.and_eq_true] at h2
  exact ⟨runs_under_of_chk _ _ _ _ h2.1, runs_under_of_chk _ _ _ _ h2.2⟩

/-- Introduction of `main_ok` from the one-pass check of the trace. -/
theorem main_ok_intro (env : MainEnv) (r : Prog Int) (h1 : main_facts_chk r.trace = true)
    (h2 : Event.pppoat_pipeline_ready true ∈ r.trace →
      env.mod_run_rc = 0 ∧ env.mod2_run_rc = 0) : main_ok env r :=
  ⟨main_facts_of_chk _ h1, h2⟩

set_option maxHeartbeats 4000000 in
/-- Every run of `main` satisfies `main_ok`, whatever the called functions
return. The proof follows the branches of `main` in program order; on each
branch the run is a fixed list of calls, on which the facts are checked. -/
theorem main_run_ok (env : MainEnv) : main_ok env (main env) := by
  by_cases h1 : env.log_init_rc = 0
  swap
  · simp only [main, main_configured, main_pipeline, main_exit, pppoat_cleanup,
      pppoat_fini, pppoat_init, err_pkts_fini, err_conf_fini, err_free, log_init,
      call_bind, assert_bind, pure_bind_prog, ite_bind_prog, cons_bind, abort_bind,
      ↓reduceIte, ne_eq, not_true_eq_false, not_false_eq_true, call_eq,
      perr_errno_eq, perr_enomem_eq, ite_self, Bool.false_eq_true, and_self,
      h1]
    exact main_ok_intro env _ rfl (fun h => absurd h (by decide))
  by_cases h2 : env.sigaction_term_rc = 0
  swap
  · simp only [main, main_configured, main_pipeline, main_exit, pppoat_cleanup,
      pppoat_fini, pppoat_init, err_pkts_fini, err_conf_fini, err_free, log_init,
      call_bind, assert_bind, pure_bind_prog, ite_bind_prog, cons_bind, abort_bind,
      ↓reduceIte, ne_eq, not_true_eq_false, not_false_eq_true, call_eq,
      perr_errno_eq, perr_enomem_eq, ite_self, Bool.false_eq_true, and_self,
      h1, h2]
    exact main_ok_intro env _ rfl (fun h => absurd h (by decide))
  by_cases hi : env.sigaction_int_rc = 0
  swap
  · simp only [main, main_configured, main_pipeline, main_exit, pppoat_cleanup,
      pppoat_fini, pppoat_init, err_pkts_fini, err_conf_fini, err_free, log_init,
      call_bind, assert_bind, pure_bind_prog, ite_bind_prog, cons_bind, abort_bind,
      ↓reduceIte, ne_eq, not_true_eq_false, not_false_eq_true, call_eq,
      perr_errno_eq, perr_enomem_eq, ite_self, Bool.false_eq_true, and_self,
      h1, h2, hi]
    exact main_ok_intro env _ rfl (fun h => absurd h (by decide))
  by_cases hs : env.signal_err = true
  · simp only [main, main_configured, main_pipeline, main_exit, pppoat_cleanup,
      pppoat_fini, pppoat_init, err_pkts_fini, err_conf_fini, err_free, log_init,
      call_bind, assert_bind, pure_bind_prog, ite_bind_prog, cons_bind, abort_bind,
      ↓reduceIte, ne_eq, not_true_eq_false, not_false_eq_true, call_eq,
      perr_errno_eq, perr_enomem_eq, ite_self, Bool.false_eq_true, and_self,
      h1, h2, hi, hs]
    exact main_ok_intro env _ rfl (fun h => absurd h (by decide))
  by_cases hc : env.ctx_alloc = true
  swap
  · simp only [main, main_configured, main_pipeline, main_exit, pppoat_cleanup,
      pppoat_fini, pppoat_init, err_pkts_fini, err_conf_fini, err_free, log_init,
      call_bind, assert_bind, pure_bind_prog, ite_bind_prog, cons_bind, abort_bind,
      ↓reduceIte, ne_eq, not_true_eq_false, not_false_eq_true, call_eq,
      perr_errno_eq, perr_enomem_eq, ite_self, Bool.false_eq_true, and_self,
      h1, h2, hi, hs, hc]
    exact main_ok_intro env _ rfl (fun h => absurd h (by decide))
  by_cases h3 : ¬env.init.conf_alloc = true ∨ ¬env.init.pkts_alloc = true ∨
      ¬env.init.pipeline_alloc = true
  · simp only [main, main_configured, main_pipeline, main_exit, pppoat_cleanup,
      pppoat_fini, pppoat_init, err_pkts_fini, err_conf_fini, err_free, log_init,
      call_bind, assert_bind, pure_bind_prog, ite_bind_prog, cons_bind, abort_bind,
      ↓reduceIte, ne_eq, not_true_eq_false, not_false_eq_true, call_eq,
      perr_errno_eq, perr_enomem_eq, ite_self, Bool.false_eq_true, and_self,
      h1, h2, hi, hs, hc, h3]
    exact main_ok_intro env _ rfl (fun h => absurd h (by decide))
  by_cases h4 : env.init.conf_init_rc = 0
  swap
  · simp only [main, main_configured, main_pipeline, main_exit, pppoat_cleanup,
      pppoat_fini, pppoat_init, err_pkts_fini, err_conf_fini, err_free, log_init,
      call_bind, assert_bind, pure_bind_prog, ite_bind_prog, cons_bind, abort_bind,
      ↓reduceIte, ne_eq, not_true_eq_false, not_false_eq_true, call_eq,
      perr_errno_eq, perr_enomem_eq, ite_self, Bool.false_eq_true, and_self,
      h1, h2, hi, hs, hc, h3, h4]
    exact main_ok_intro env _ rfl (fun h => absurd h (by decide))
  by_cases h5 : env.init.packets_init_rc = 0
  swap
  · simp only [main, main_configured, main_pipeline, main_exit, pppoat_cleanup,
      pppoat_fini, pppoat_init, err_pkts_fini, err_conf_fini, err_free, log_init,
      call_bind, assert_bind, pure_bind_prog, ite_bind_prog, cons_bind, abort_bind,
      ↓reduceIte, ne_eq, not_true_eq_false, not_false_eq_true, call_eq,
      perr_errno_eq, perr_enomem_eq, ite_self, Bool.false_eq_true, and_self,
      h1, h2, hi, hs, hc, h3, h4, h5]
    exact main_ok_intro env _ rfl (fun h => absurd h (by decide))
  by_cases h6 : env.init.pipeline_init_rc = 0
  swap
  · simp only [main, main_configured, main_pipeline, main_exit, pppoat_cleanup,
      pppoat_fini, pppoat_init, err_pkts_fini, err_conf_fini, err_free, log_init,
      call_bind, assert_bind, pure_bind_prog, ite_bind_prog, cons_bind, abort_bind,
      ↓reduceIte, ne_eq, not_true_eq_false, not_false_eq_true, call_eq,
      perr_errno_eq, perr_enomem_eq, ite_self, Bool.false_eq_true, and_self,
      h1, h2, hi, hs, hc, h3, h4, h5, h6]
    exact main_ok_intro env _ rfl (fun h => absurd h (by decide))
  by_cases ha : env.conf_read_argv_rc = 0
  swap
  · simp only [main, main_configured, main_pipeline, main_exit, pppoat_cleanup,
      pppoat_fini, pppoat_init, err_pkts_fini, err_conf_fini, err_free, log_init,
      call_bind, assert_bind, pure_bind_prog, ite_bind_prog, cons_bind, abort_bind,
      ↓reduceIte, ne_eq, not_true_eq_false, not_false_eq_true, call_eq,
      perr_errno_eq, perr_enomem_eq, ite_self, Bool.false_eq_true, and_self,
      h1, h2, hi, hs, hc, h3, h4, h5, h6, ha]
    exact main_ok_intro env _ rfl (fun h => absurd h (by decide))
  by_cases hf : env.conf_find_rc < 0 ∧ ¬env.conf_find_rc = -ENOENT
  · simp only [main, main_configured, main_pipeline, main_exit, pppoat_cleanup,
      pppoat_fini, pppoat_init, err_pkts_fini, err_conf_fini, err_free, log_init,
      call_bind, assert_bind, pure_bind_prog, ite_bind_prog, cons_bind, abort_bind,
      ↓reduceIte, ne_eq, not_true_eq_false, not_false_eq_true, call_eq,
      perr_errno_eq, perr_enomem_eq, ite_self, Bool.false_eq_true, and_self,
      h1, h2, hi, hs, hc, h3, h4, h5, h6, ha, hf]
    exact main_ok_intro env _ rfl (fun h => absurd h (by decide))
  by_cases hz : env.conf_find_rc = 0
  · by_cases hr : env.conf_read_file_rc = 0
    swap
    · simp only [main, main_configured, main_pipeline, main_exit, pppoat_cleanup,
        pppoat_fini, pppoat_init, err_pkts_fini, err_conf_fini, err_free, log_init,
        call_bind, assert_bind, pure_bind_prog, ite_bind_prog, cons_bind, abort_bind,
        ↓reduceIte, ne_eq, not_true_eq_false, not_false_eq_true, call_eq,
        perr_errno_eq, perr_enomem_eq, ite_self, Bool.false_eq_true, and_self,
        h1, h2, hi, hs, hc, h3, h4, h5, h6, ha, hf, hz, hr]
      exact main_ok_intro env _ rfl (fun h => absurd h (by decide))
    by_cases h7 : env.log_init_conf_rc = 0
    swap
    · simp only [main, main_configured, main_pipeline, main_exit, pppoat_cleanup,
        pppoat_fini, pppoat_init, err_pkts_fini, err_conf_fini, err_free, log_init,
        call_bind, assert_bind, pure_bind_prog, ite_bind_prog, cons_bind, abort_bind,
        ↓reduceIte, ne_eq, not_true_eq_false, not_false_eq_true, call_eq,
        perr_errno_eq, perr_enomem_eq, ite_self, Bool.false_eq_true, and_self,
        h1, h2, hi, hs, hc, h3, h4, h5, h6, ha, hf, hz, hr, h7]
      exact main_ok_intro env _ rfl (fun h => absurd h (by decide))
    by_cases hh : env.help = true
    · simp only [main, main_configured, main_pipeline, main_exit, pppoat_cleanup,
        pppoat_fini, pppoat_init, err_pkts_fini, err_conf_fini, err_free, log_init,
        call_bind, assert_bind, pure_bind_prog, ite_bind_prog, cons_bind, abort_bind,
        ↓reduceIte, ne_eq, not_true_eq_false, not_false_eq_true, call_eq,
        perr_errno_eq, perr_enomem_eq, ite_self, Bool.false_eq_true, and_self,
        h1, h2, hi, hs, hc, h3, h4, h5, h6, ha, hf, hz, hr, h7, hh]
      exact main_ok_intro env _ rfl (fun h => absurd h (by decide))
    by_cases h8 : env.server = true
    · by_cases hst : env.conf_store_rc = 0
      swap
      · simp only [main, main_configured, main_pipeline, main_exit, pppoat_cleanup,
          pppoat_fini, pppoat_init, err_pkts_fini, err_conf_fini, err_free, log_init,
          call_bind, assert_bind, pure_bind_prog, ite_bind_prog, cons_bind, abort_bind,
          ↓reduceIte, ne_eq, not_true_eq_false, not_false_eq_true, call_eq,
          perr_errno_eq, perr_enomem_eq, ite_self, Bool.false_eq_true, and_self,
          h1, h2, hi, hs, hc, h3, h4, h5, h6, ha, hf, hz, hr, h7, hh, h8, hst]
        exact main_ok_intro env _ rfl (fun h => absurd h (by decide))
      by_cases m1 : env.mod_alloc = true
      swap
      · simp only [main, main_configured, main_pipeline, main_exit, pppoat_cleanup,
          pppoat_fini, pppoat_init, err_pkts_fini, err_conf_fini, err_free, log_init,
          call_bind, assert_bind, pure_bind_prog, ite_bind_prog, cons_bind, abort_bind,
          ↓reduceIte, ne_eq, not_true_eq_false, not_false_eq_true, call_eq,
          perr_errno_eq, perr_enomem_eq, ite_self, Bool.false_eq_true, and_self,
          h1, h2, hi, hs, hc, h3, h4, h5, h6, ha, hf, hz, hr, h7, hh, h8, hst,
          m1]
        exact main_ok_intro env _ rfl (fun h => absurd h (by decide))
      by_cases m2 : env.mod2_alloc = true
      swap
      · simp only [main, main_configured, main_pipeline, main_exit, pppoat_cleanup,
          pppoat_fini, pppoat_init, err_pkts_fini, err_conf_fini, err_free, log_init,
          call_bind, assert_bind, pure_bind_prog, ite_bind_prog, cons_bind, abort_bind,
          ↓reduceIte, ne_eq, not_true_eq_false, not_false_eq_true, call_eq,
          perr_errno_eq, perr_enomem_eq, ite_self, Bool.false_eq_true, and_self,
          h1, h2, hi, hs, hc, h3, h4, h5, h6, ha, hf, hz, hr, h7, hh, h8, hst,
          m1, m2]
        exact main_ok_intro env _ rfl (fun h => absurd h (by decide))
      by_cases m3 : env.mod_init_rc = 0
      swap
      · simp only [main, main_configured, main_pipeline, main_exit, pppoat_cleanup,
          pppoat_fini, pppoat_init, err_pkts_fini, err_conf_fini, err_free, log_init,
          call_bind, assert_bind, pure_bind_prog, ite_bind_prog, cons_bind, abort_bind,
          ↓reduceIte, ne_eq, not_true_eq_false, not_false_eq_true, call_eq,
          perr_errno_eq, perr_enomem_eq, ite_self, Bool.false_eq_true, and_self,
          h1, h2, hi, hs, hc, h3, h4, h5, h6, ha, hf, hz, hr, h7, hh, h8, hst,
          m1, m2, m3]
        exact main_ok_intro env _ rfl (fun h => absurd h (by decide))
      by_cases m4 : env.mod2_init_rc = 0
      swap
      · simp only [main, main_configured, main_pipeline, main_exit, pppoat_cleanup,
          pppoat_fini, pppoat_init, err_pkts_fini, err_conf_fini, err_free, log_init,
          call_bind, assert_bind, pure_bind_prog, ite_bind_prog, cons_bind, abort_bind,
          ↓reduceIte, ne_eq, not_true_eq_false, not_false_eq_true, call_eq,
          perr_errno_eq, perr_enomem_eq, ite_self, Bool.false_eq_true, and_self,
          h1, h2, hi, hs, hc, h3, h4, h5, h6, ha, hf, hz, hr, h7, hh, h8, hst,
          m1, m2, m3, m4]
        exact main_ok_intro env _ rfl (fun h => absurd h (by decide))
      by_cases m5 : env.mod_run_rc = 0
      swap
      · simp only [main, main_configured, main_pipeline, main_exit, pppoat_cleanup,
          pppoat_fini, pppoat_init, err_pkts_fini, err_conf_fini, err_free, log_init,
          call_bind, assert_bind, pure_bind_prog, ite_bind_prog, cons_bind, abort_bind,
          ↓reduceIte, ne_eq, not_true_eq_false, not_false_eq_true, call_eq,
          perr_errno_eq, perr_enomem_eq, ite_self, Bool.false_eq_true, and_self,
          h1, h2, hi, hs, hc, h3, h4, h5, h6, ha, hf, hz, hr, h7, hh, h8, hst,
          m1, m2, m3, m4, m5]
        exact main_ok_intro env _ rfl (fun h => absurd h (by decide))
      by_cases m6 : env.mod2_run_rc = 0
      swap
      · simp only [main, main_configured, main_pipeline, main_exit, pppoat_cleanup,
          pppoat_fini, pppoat_init, err_pkts_fini, err_conf_fini, err_free, log_init,
          call_bind, assert_bind, pure_bind_prog, ite_bind_prog, cons_bind, abort_bind,
          ↓reduceIte, ne_eq, not_true_eq_false, not_false_eq_true, call_eq,
          perr_errno_eq, perr_enomem_eq, ite_self, Bool.false_eq_true, and_self,
          h1, h2, hi, hs, hc, h3, h4, h5, h6, ha, hf, hz, hr, h7, hh, h8, hst,
          m1, m2, m3, m4, m5, m6]
        exact main_ok_intro env _ rfl (fun h => absurd h (by decide))
      simp only [main, main_configured, main_pipeline, main_exit, pppoat_cleanup,
        pppoat_fini, pppoat_init, err_pkts_fini, err_conf_fini, err_free, log_init,
        call_bind, assert_bind, pure_bind_prog, ite_bind_prog, cons_bind, abort_bind,
        ↓reduceIte, ne_eq, not_true_eq_false, not_false_eq_true, call_eq,
        perr_errno_eq, perr_enomem_eq, ite_self, Bool.false_eq_true, and_self,
        h1, h2, hi, hs, hc, h3, h4, h5, h6, ha, hf, hz, hr, h7, hh, h8, hst,
        m1, m2, m3, m4, m5, m6]
      exact main_ok_intro env _ rfl (fun _ => ⟨m5, m6⟩)
    · by_cases m1 : env.mod_alloc = true
      swap
      · simp only [main, main_configured, main_pipeline, main_exit, pppoat_cleanup,
          pppoat_fini, pppoat_init, err_pkts_fini, err_conf_fini, err_free, log_init,
          call_bind, assert_bind, pure_bind_prog, ite_bind_prog, cons_bind, abort_bind,
          ↓reduceIte, ne_eq, not_true_eq_false, not_false_eq_true, call_eq,
          perr_errno_eq, perr_enomem_eq, ite_self, Bool.false_eq_true, and_self,
          h1, h2, hi, hs, hc, h3, h4, h5, h6, ha, hf, hz, hr, h7, hh, h8, m1]
        exact main_ok_intro env _ rfl (fun h => absurd h (by decide))
      by_cases m2 : env.mod2_alloc = true
      swap
      · simp only [main, main_configured, main_pipeline, main_exit, pppoat_cleanup,
          pppoat_fini, pppoat_init, err_pkts_fini, err_conf_fini, err_free, log_init,
          call_bind, assert_bind, pure_bind_prog, ite_bind_prog, cons_bind, abort_bind,
          ↓reduceIte, ne_eq, not_true_eq_false, not_false_eq_true, call_eq,
          perr_errno_eq, perr_enomem_eq, ite_self, Bool.false_eq_true, and_self,
          h1, h2, hi, hs, hc, h3, h4, h5, h6, ha, hf, hz, hr, h7, hh, h8, m1, m2]
        exact main_ok_intro env _ rfl (fun h => absurd h (by decide))
      by_cases m3 : env.mod_init_rc = 0
      swap
      · simp only [main, main_configured, main_pipeline, main_exit, pppoat_cleanup,
          pppoat_fini, pppoat_init, err_pkts_fini, err_conf_fini, err_free, log_init,
          call_bind, assert_bind, pure_bind_prog, ite_bind_prog, cons_bind, abort_bind,
          ↓reduceIte, ne_eq, not_true_eq_false, not_false_eq_true, call_eq,
          perr_errno_eq, perr_enomem_eq, ite_self, Bool.false_eq_true, and_self,
          h1, h2, hi, hs, hc, h3, h4, h5, h6, ha, hf, hz, hr, h7, hh, h8, m1,
          m2, m3]
        exact main_ok_intro env _ rfl (fun h => absurd h (by decide))
      by_cases m4 : env.mod2_init_rc = 0
      swap
      · simp only [main, main_configured, main_pipeline, main_exit, pppoat_cleanup,
          pppoat_fini, pppoat_init, err_pkts_fini, err_conf_fini, err_free, log_init,
          call_bind, assert_bind, pure_bind_prog, ite_bind_prog, cons_bind, abort_bind,
          ↓reduceIte, ne_eq, not_true_eq_false, not_false_eq_true, call_eq,
          perr_errno_eq, perr_enomem_eq, ite_self, Bool.false_eq_true, and_self,
          h1, h2, hi, hs, hc, h3, h4, h5, h6, ha, hf, hz, hr, h7, hh, h8, m1,
          m2, m3, m4]
        exact main_ok_intro env _ rfl (fun h => absurd h (by decide))
      by_cases m5 : env.mod_run_rc = 0
      swap
      · simp only [main, main_configured, main_pipeline, main_exit, pppoat_cleanup,
          pppoat_fini, pppoat_init, err_pkts_fini, err_conf_fini, err_free, log_init,
          call_bind, assert_bind, pure_bind_prog, ite_bind_prog, cons_bind, abort_bind,
          ↓reduceIte, ne_eq, not_true_eq_false, not_false_eq_true, call_eq,
          perr_errno_eq, perr_enomem_eq, ite_self, Bool.false_eq_true, and_self,
          h1, h2, hi, hs, hc, h3, h4, h5, h6, ha, hf, hz, hr, h7, hh, h8, m1,
          m2, m3, m4, m5]
        exact main_ok_intro env _ rfl (fun h => absurd h (by decide))
      by_cases m6 : env.mod2_run_rc = 0
      swap
      · simp only [main, main_configured, main_pipeline, main_exit, pppoat_cleanup,
          pppoat_fini, pppoat_init, err_pkts_fini, err_conf_fini, err_free, log_init,
          call_bind, assert_bind, pure_bind_prog, ite_bind_prog, cons_bind, abort_bind,
          ↓reduceIte, ne_eq, not_true_eq_false, not_false_eq_true, call_eq,
          perr_errno_eq, perr_enomem_eq, ite_self, Bool.false_eq_true, and_self,
          h1, h2, hi, hs, hc, h3, h4, h5, h6, ha, hf, hz, hr, h7, hh, h8, m1,
          m2, m3, m4, m5, m6]
        exact main_ok_intro env _ rfl (fun h => absurd h (by decide))
      simp only [main, main_configured, main_pipeline, main_exit, pppoat_cleanup,
        pppoat_fini, pppoat_init, err_pkts_fini, err_conf_fini, err_free, log_init,
        call_bind, assert_bind, pure_bind_prog, ite_bind_prog, cons_bind, abort_bind,
        ↓reduceIte, ne_eq, not_true_eq_false, not_false_eq_true, call_eq,
        perr_errno_eq, perr_enomem_eq, ite_self, Bool.false_eq_true, and_self,
        h1, h2, hi, hs, hc, h3, h4, h5, h6, ha, hf, hz, hr, h7, hh, h8, m1,
        m2, m3, m4, m5, m6]
      exact main_ok_intro env _ rfl (fun _ => ⟨m5, m6⟩)
  · by_cases h7 : env.log_init_conf_rc = 0
    swap
    · simp only [main, main_configured, main_pipeline, main_exit, pppoat_cleanup,
        pppoat_fini, pppoat_init, err_pkts_fini, err_conf_fini, err_free, log_init,
        call_bind, assert_bind, pure_bind_prog, ite_bind_prog, cons_bind, abort_bind,
        ↓reduceIte, ne_eq, not_true_eq_false, not_false_eq_true, call_eq,
        perr_errno_eq, perr_enomem_eq, ite_self, Bool.false_eq_true, and_self,
        h1, h2, hi, hs, hc, h3, h4, h5, h6, ha, hf, hz, h7]
      exact main_ok_intro env _ rfl (fun h => absurd h (by decide))
    by_cases hh : env.help = true
    · simp only [main, main_configured, main_pipeline, main_exit, pppoat_cleanup,
        pppoat_fini, pppoat_init, err_pkts_fini, err_conf_fini, err_free, log_init,
        call_bind, assert_bind, pure_bind_prog, ite_bind_prog, cons_bind, abort_bind,
        ↓reduceIte, ne_eq, not_true_eq_false, not_false_eq_true, call_eq,
        perr_errno_eq, perr_enomem_eq, ite_self, Bool.false_eq_true, and_self,
        h1, h2, hi, hs, hc, h3, h4, h5, h6, ha, hf, hz, h7, hh]
      exact main_ok_intro env _ rfl (fun h => absurd h (by decide))
    by_cases h8 : env.server = true
    · by_cases hst : env.conf_store_rc = 0
      swap
      · simp only [main, main_configured, main_pipeline, main_exit, pppoat_cleanup,
          pppoat_fini, pppoat_init, err_pkts_fini, err_conf_fini, err_free, log_init,
          call_bind, assert_bind, pure_bind_prog, ite_bind_prog, cons_bind, abort_bind,
          ↓reduceIte, ne_eq, not_true_eq_false, not_false_eq_true, call_eq,
          perr_errno_eq, perr_enomem_eq, ite_self, Bool.false_eq_true, and_self,
          h1, h2, hi, hs, hc, h3, h4, h5, h6, ha, hf, hz, h7, hh, h8, hst]
        exact main_ok_intro env _ rfl (fun h => absurd h (by decide))
      by_cases m1 : env.mod_alloc = true
      swap
      · simp only [main, main_configured, main_pipeline, main_exit, pppoat_cleanup,
          pppoat_fini, pppoat_init, err_pkts_fini, err_conf_fini, err_free, log_init,
          call_bind, assert_bind, pure_bind_prog, ite_bind_prog, cons_bind, abort_bind,
          ↓reduceIte, ne_eq, not_true_eq_false, not_false_eq_true, call_eq,
          perr_errno_eq, perr_enomem_eq, ite_self, Bool.false_eq_true, and_self,
          h1, h2, hi, hs, hc, h3, h4, h5, h6, ha, hf, hz, h7, hh, h8, hst, m1]
        exact main_ok_intro env _ rfl (fun h => absurd h (by decide))
      by_cases m2 : env.mod2_alloc = true
      swap
      · simp only [main, main_configured, main_pipeline, main_exit, pppoat_cleanup,
          pppoat_fini, pppoat_init, err_pkts_fini, err_conf_fini, err_free, log_init,
          call_bind, assert_bind, pure_bind_prog, ite_bind_prog, cons_bind, abort_bind,
          ↓reduceIte, ne_eq, not_true_eq_false, not_false_eq_true, call_eq,
          perr_errno_eq, perr_enomem_eq, ite_self, Bool.false_eq_true, and_self,
          h1, h2, hi, hs, hc, h3, h4, h5, h6, ha, hf, hz, h7, hh, h8, hst, m1,
          m2]
        exact main_ok_intro env _ rfl (fun h => absurd h (by decide))
      by_cases m3 : env.mod_init_rc = 0
      swap
      · simp only [main, main_configured, main_pipeline, main_exit, pppoat_cleanup,
          pppoat_fini, pppoat_init, err_pkts_fini, err_conf_fini, err_free, log_init,
          call_bind, assert_bind, pure_bind_prog, ite_bind_prog, cons_bind, abort_bind,
          ↓reduceIte, ne_eq, not_true_eq_false, not_false_eq_true, call_eq,
          perr_errno_eq, perr_enomem_eq, ite_self, Bool.false_eq_true, and_self,
          h1, h2, hi, hs, hc, h3, h4, h5, h6, ha, hf, hz, h7, hh, h8, hst, m1,
          m2, m3]
        exact main_ok_intro env _ rfl (fun h => absurd h (by decide))
      by_cases m4 : env.mod2_init_rc = 0
      swap
      · simp only [main, main_configured, main_pipeline, main_exit, pppoat_cleanup,
          pppoat_fini, pppoat_init, err_pkts_fini, err_conf_fini, err_free, log_init,
          call_bind, assert_bind, pure_bind_prog, ite_bind_prog, cons_bind, abort_bind,
          ↓reduceIte, ne_eq, not_true_eq_false, not_false_eq_true, call_eq,
          perr_errno_eq, perr_enomem_eq, ite_self, Bool.false_eq_true, and_self,
          h1, h2, hi, hs, hc, h3, h4, h5, h6, ha, hf, hz, h7, hh, h8, hst, m1,
          m2, m3, m4]
        exact main_ok_intro env _ rfl (fun h => absurd h (by decide))
      by_cases m5 : env.mod_run_rc = 0
      swap
      · simp only [main, main_configured, main_pipeline, main_exit, pppoat_cleanup,
          pppoat_fini, pppoat_init, err_pkts_fini, err_conf_fini, err_free, log_init,
          call_bind, assert_bind, pure_bind_prog, ite_bind_prog, cons_bind, abort_bind,
          ↓reduceIte, ne_eq, not_true_eq_false, not_false_eq_true, call_eq,
          perr_errno_eq, perr_enomem_eq, ite_self, Bool.false_eq_true, and_self,
          h1, h2, hi, hs, hc, h3, h4, h5, h6, ha, hf, hz, h7, hh, h8, hst, m1,
          m2, m3, m4, m5]
        exact main_ok_intro env _ rfl (fun h => absurd h (by decide))
      by_cases m6 : env.mod2_run_rc = 0
      swap
      · simp only [main, main_configured, main_pipeline, main_exit, pppoat_cleanup,
          pppoat_fini, pppoat_init, err_pkts_fini, err_conf_fini, err_free, log_init,
          call_bind, assert_bind, pure_bind_prog, ite_bind_prog, cons_bind, abort_bind,
          ↓reduceIte, ne_eq, not_true_eq_false, not_false_eq_true, call_eq,
          perr_errno_eq, perr_enomem_eq, ite_self, Bool.false_eq_true, and_self,
          h1, h2, hi, hs, hc, h3, h4, h5, h6, ha, hf, hz, h7, hh, h8, hst, m1,
          m2, m3, m4, m5, m6]
        exact main_ok_intro env _ rfl (fun h => absurd h (by decide))
      simp only [main, main_configured, main_pipeline, main_exit, pppoat_cleanup,
        pppoat_fini, pppoat_init, err_pkts_fini, err_conf_fini, err_free, log_init,
        call_bind, assert_bind, pure_bind_prog, ite_bind_prog, cons_bind, abort_bind,
        ↓reduceIte, ne_eq, not_true_eq_false, not_false_eq_true, call_eq,
        perr_errno_eq, perr_enomem_eq, ite_self, Bool.false_eq_true, and_self,
        h1, h2, hi, hs, hc, h3, h4, h5, h6, ha, hf, hz, h7, hh, h8, hst, m1,
        m2, m3, m4, m5, m6]
      exact main_ok_intro env _ rfl (fun _ => ⟨m5, m6⟩)
    · by_cases m1 : env.mod_alloc = true
      swap
      · simp only [main, main_configured, main_pipeline, main_exit, pppoat_cleanup,
          pppoat_fini, pppoat_init, err_pkts_fini, err_conf_fini, err_free, log_init,
          call_bind, assert_bind, pure_bind_prog, ite_bind_prog, cons_bind, abort_bind,
          ↓reduceIte, ne_eq, not_true_eq_false, not_false_eq_true, call_eq,
          perr_errno_eq, perr_enomem_eq, ite_self, Bool.false_eq_true, and_self,
          h1, h2, hi, hs, hc, h3, h4, h5, h6, ha, hf, hz, h7, hh, h8, m1]
        exact main_ok_intro env _ rfl (fun h => absurd h (by decide))
      by_cases m2 : env.mod2_alloc = true
      swap
      · simp only [main, main_configured, main_pipeline, main_exit, pppoat_cleanup,
          pppoat_fini, pppoat_init, err_pkts_fini, err_conf_fini, err_free, log_init,
          call_bind, assert_bind, pure_bind_prog, ite_bind_prog, cons_bind, abort_bind,
          ↓reduceIte, ne_eq, not_true_eq_false, not_false_eq_true, call_eq,
          perr_errno_eq, perr_enomem_eq, ite_self, Bool.false_eq_true, and_self,
          h1, h2, hi, hs, hc, h3, h4, h5, h6, ha, hf, hz, h7, hh, h8, m1, m2]
        exact main_ok_intro env _ rfl (fun h => absurd h (by decide))
      by_cases m3 : env.mod_init_rc = 0
      swap
      · simp only [main, main_configured, main_pipeline, main_exit, pppoat_cleanup,
          pppoat_fini, pppoat_init, err_pkts_fini, err_conf_fini, err_free, log_init,
          call_bind, assert_bind, pure_bind_prog, ite_bind_prog, cons_bind, abort_bind,
          ↓reduceIte, ne_eq, not_true_eq_false, not_false_eq_true, call_eq,
          perr_errno_eq, perr_enomem_eq, ite_self, Bool.false_eq_true, and_self,
          h1, h2, hi, hs, hc, h3, h4, h5, h6, ha, hf, hz, h7, hh, h8, m1, m2, m3]
        exact main_ok_intro env _ rfl (fun h => absurd h (by decide))
      by_cases m4 : env.mod2_init_rc = 0
      swap
      · simp only [main, main_configured, main_pipeline, main_exit, pppoat_cleanup,
          pppoat_fini, pppoat_init, err_pkts_fini, err_conf_fini, err_free, log_init,
          call_bind, assert_bind, pure_bind_prog, ite_bind_prog, cons_bind, abort_bind,
          ↓reduceIte, ne_eq, not_true_eq_false, not_false_eq_true, call_eq,
          perr_errno_eq, perr_enomem_eq, ite_self, Bool.false_eq_true, and_self,
          h1, h2, hi, hs, hc, h3, h4, h5, h6, ha, hf, hz, h7, hh, h8, m1, m2,
          m3, m4]
        exact main_ok_intro env _ rfl (fun h => absurd h (by decide))
      by_cases m5 : env.mod_run_rc = 0
      swap
      · simp only [main, main_configured, main_pipeline, main_exit, pppoat_cleanup,
          pppoat_fini, pppoat_init, err_pkts_fini, err_conf_fini, err_free, log_init,
          call_bind, assert_bind, pure_bind_prog, ite_bind_prog, cons_bind, abort_bind,
          ↓reduceIte, ne_eq, not_true_eq_false, not_false_eq_true, call_eq,
          perr_errno_eq, perr_enomem_eq, ite_self, Bool.false_eq_true, and_self,
          h1, h2, hi, hs, hc, h3, h4, h5, h6, ha, hf, hz, h7, hh, h8, m1, m2,
          m3, m4, m5]
        exact main_ok_intro env _ rfl (fun h => absurd h (by decide))
      by_cases m6 : env.mod2_run_rc = 0
      swap
      · simp only [main, main_configured, main_pipeline, main_exit, pppoat_cleanup,
          pppoat_fini, pppoat_init, err_pkts_fini, err_conf_fini, err_free, log_init,
          call_bind, assert_bind, pure_bind_prog, ite_bind_prog, cons_bind, abort_bind,
          ↓reduceIte, ne_eq, not_true_eq_false, not_false_eq_true, call_eq,
          perr_errno_eq, perr_enomem_eq, ite_self, Bool.false_eq_true, and_self,
          h1, h2, hi, hs, hc, h3, h4, h5, h6, ha, hf, hz, h7, hh, h8, m1, m2,
          m3, m4, m5, m6]
        exact main_ok_intro env _ rfl (fun h => absurd h (by decide))
      simp only [main, main_configured, main_pipeline, main_exit, pppoat_cleanup,
        pppoat_fini, pppoat_init, err_pkts_fini, err_conf_fini, err_free, log_init,
        call_bind, assert_bind, pure_bind_prog, ite_bind_prog, cons_bind, abort_bind,
        ↓reduceIte, ne_eq, not_true_eq_false, not_false_eq_true, call_eq,
        perr_errno_eq, perr_enomem_eq, ite_self, Bool.false_eq_true, and_self,
        h1, h2, hi, hs, hc, h3, h4, h5, h6, ha, hf, hz, h7, hh, h8, m1, m2,
        m3, m4, m5, m6]
      exact main_ok_intro env _ rfl (fun _ => ⟨m5, m6⟩)

/-! ## The encoder beyond `INT_MAX` groups -/

/-- Iterations of the loop body over whole 3-byte groups write the reference
encoding of these groups and leave the rest of the input unread. -/
theorem enc_iter_append (k : Nat) :
    ∀ xs : List Nat, xs.length = 3 * k → ∀ ys p : List Nat,
      enc_iter k (xs ++ ys) p = (ys, p ++ rfc4648_encode xs) := by
  induction k with
  | zero =>
    intro xs hxs ys p
    have h : xs = [] := List.length_eq_zero.mp (by omega)
    subst h
    simp [enc_iter, rfc4648_encode]
  | succ k ih =>
    intro xs hxs ys p
    match xs, hxs with
    | b0 :: b1 :: b2 :: rest, hxs =>
      have hr : rest.length = 3 * k := by
        simp only [List.length_cons] at hxs; omega
      simp only [List.cons_append, enc_iter, enc_group, List.getD_cons_zero,
        List.getD_cons_succ, List.drop_succ_cons, List.drop_zero]
      rw [ih rest hr]
      simp [rfc4648_encode, alphabetAt, cb64_eq_alphabet, and_shift4, and_shift2_mod,
        Nat.lor_comm]

/-- The reference encoding of whole 3-byte groups followed by more bytes. -/
theorem rfc4648_encode_append (k : Nat) :
    ∀ xs : List Nat, xs.length = 3 * k → ∀ ys : List Nat,
      rfc4648_encode (xs ++ ys) = rfc4648_encode xs ++ rfc4648_encode ys := by
  induction k with
  | zero =>
    intro xs hxs ys
    have h : xs = [] := List.length_eq_zero.mp (by omega)
    subst h
    simp [rfc4648_encode]
  | succ k ih =>
    intro xs hxs ys
    match xs, hxs with
    | b0 :: b1 :: b2 :: rest, hxs =>
      have hr : rest.length = 3 * k := by
        simp only [List.length_cons] at hxs; omega
      simp only [List.cons_append, rfc4648_encode, List.append_eq, ih rest hr]

theorem overflow_input_length : overflow_input.length = 6442450948 := by
  unfold overflow_input
  rw [List.length_append, List.length_replicate]
  rfl

theorem overflow_text_length : overflow_text.length = 8589934596 := by
  unfold overflow_text
  rw [List.length_append, rfc4648_encode_length, List.length_replicate]
  rfl

theorem overflow_enc_len (buf : List Nat) :
    pppoat_base64_enc_len buf 6442450948 = 8589934600 := by
  unfold pppoat_base64_enc_len SIZE_MOD
  norm_num

theorem enc_tail_overflow (p : List Nat) :
    enc_tail 6442450948 [0x4D, 0x61, 0x6E, 0xFF] p = p ++ [84, 81, 61, 61] := by
  have h1 : (6442450948 : Nat) % 3 = 1 := by norm_num
  unfold enc_tail
  rw [h1]
  simp only [ne_eq, one_ne_zero, not_false_eq_true, if_true, OfNat.one_ne_ofNat, if_false,
    List.append_assoc]
  congr 1

/-- On `overflow_input` the loop of the encoder ends after `2 ^ 31`
iterations, one short of `len / 3`: the last full group `4D 61 6E` is not
encoded, the tail encodes the byte `4D` that follows the groups encoded, and
`8589934596` characters are written, 4 fewer than `result_len`. -/
theorem enc_overflow_input :
    pppoat_base64_enc overflow_input 6442450948 8589934600 = .ret overflow_text := by
  unfold pppoat_base64_enc PPPOAT_ASSERT
  rw [if_pos (overflow_enc_len _).symm]
  have hn : 6442450948 / 3 = 2147483649 := by norm_num
  rw [hn, enc_loop_overflow 2147483649 (by norm_num) (by norm_num)]
  have h := enc_iter_append (2 ^ 31) (List.replicate 6442450944 0)
    (by rw [List.length_replicate]; norm_num) [0x4D, 0x61, 0x6E, 0xFF] []
  unfold overflow_input overflow_text
  rw [h]
  simp only [Outcome.bind, List.nil_append]
  rw [enc_tail_overflow]

/-- The result buffer after the call on `overflow_input`: its last four
characters were not written. -/
theorem overflow_result :
    enc_result overflow_buffer overflow_text = overflow_text ++ [33, 33, 33, 33] := by
  unfold enc_result overflow_buffer
  rw [overflow_text_length, List.drop_replicate]
  rfl

theorem overflow_result_getD (k : Nat) (hk : k < 4) :
    (enc_result overflow_buffer overflow_text).getD (8589934596 + k) 0 = 33 := by
  rw [overflow_result, ← overflow_text_length, getD_append_add]
  interval_cases k <;> rfl

theorem overflow_text_getD (k : Nat) :
    overflow_text.getD (8589934592 + k) 0 = [84, 81, 61, 61].getD k 0 := by
  have h : (rfc4648_encode (List.replicate 6442450944 0)).length = 8589934592 := by
    rw [rfc4648_encode_length, List.length_replicate]
  unfold overflow_text
  rw [← h, getD_append_add]

/-- The decoded length of the buffer after the call on `overflow_input`. -/
theorem overflow_result_dec_len :
    pppoat_base64_dec_len (enc_result overflow_buffer overflow_text) 8589934600 =
      .ret 6442450950 := by
  have h1 := overflow_result_getD 3 (by norm_num)
  have h2 := overflow_result_getD 2 (by norm_num)
  rw [dec_len_cases _ _ (by norm_num) (by norm_num)]
  have e1 : 8589934600 - 1 = 8589934596 + 3 := by norm_num
  have e2 : 8589934600 - 2 = 8589934596 + 2 := by norm_num
  rw [e1, e2, h1, h2]
  rfl

/-- The decoded length of the characters written for `overflow_input`. -/
theorem overflow_text_dec_len :
    pppoat_base64_dec_len overflow_text 8589934596 = .ret 6442450945 := by
  have h1 := overflow_text_getD 3
  have h2 := overflow_text_getD 2
  rw [dec_len_cases _ _ (by norm_num) (by norm_num)]
  have e1 : 8589934596 - 1 = 8589934592 + 3 := by norm_num
  have e2 : 8589934596 - 2 = 8589934592 + 2 := by norm_num
  rw [e1, e2, h1, h2]
  rfl

/-- The decoder fails its assertion on `result_len` when that is not the
decoded length of the text. -/
theorem dec_abort_of_len_ne (base64 : List Nat) (len : Nat) (result : List Nat)
    (result_len n : Nat) (h4 : len % 4 = 0)
    (hn : pppoat_base64_dec_len base64 len = .ret n) (hne : result_len ≠ n) :
    pppoat_base64_dec base64 len result result_len = .abort := by
  unfold pppoat_base64_dec PPPOAT_ASSERT
  rw [if_pos h4, hn]
  simp only [Outcome.bind]
  rw [if_neg hne]

/-- The validator rejects the buffer after the call on `overflow_input`. -/
theorem overflow_result_not_valid :
    pppoat_base64_is_valid (enc_result overflow_buffer overflow_text) 8589934600 = false := by
  rw [Bool.eq_false_iff]
  intro h
  rw [is_valid_iff] at h
  have h1 := overflow_result_getD 3 (by norm_num)
  have e1 : (8589934600 : Nat) - 1 = 8589934596 + 3 := by norm_num
  have hc : checked_len (enc_result overflow_buffer overflow_text) 8589934600 =
      8589934600 := by
    rw [checked_len_cases _ _ (by norm_num), e1, h1]
    rfl
  have h2 := h.2 (8589934596 + 3) (by rw [hc]; norm_num)
  rw [h1] at h2
  exact absurd h2 (by decide)

/-! ### The encoder below `3 * 2 ^ 31` input bytes -/

/-- Below `3 * 2 ^ 31` input bytes the round trip holds: the encoder fills the
`pppoat_base64_enc_len` characters of its result with a text that decodes,
with return code 0, to the input, whatever the result buffer of the decoder
held before. -/
theorem roundtrip_of_lt (b : List Nat) (hb : ∀ x ∈ b, x < 256) (h : b.length < 3 * 2 ^ 31)
    (result : List Nat) (hr : result.length = b.length) :
    ∃ s, pppoat_base64_enc b b.length (pppoat_base64_enc_len b b.length) = .ret s ∧
      s.length = pppoat_base64_enc_len b b.length ∧
      pppoat_base64_dec s (pppoat_base64_enc_len b b.length) result b.length = .ret (0, b) := by
  have hl : (rfc4648_encode b).length = pppoat_base64_enc_len b b.length := by
    rw [rfc4648_encode_length, enc_len_eq b _ (by unfold SIZE_MOD; omega)]
  refine ⟨rfc4648_encode b, enc_eq_rfc b h, hl, ?_⟩
  rw [← hl]
  exact dec_rfc b hb result hr

/-- Below `3 * 2 ^ 31` input bytes the decoded length of the encoder's output
is the length of the input. -/
theorem dec_len_enc_of_lt (b : List Nat) (hb : ∀ x ∈ b, x < 256) (h : b.length < 3 * 2 ^ 31) :
    ∃ s, pppoat_base64_enc b b.length (pppoat_base64_enc_len b b.length) = .ret s ∧
      s.length = pppoat_base64_enc_len b b.length ∧
      pppoat_base64_dec_len s (pppoat_base64_enc_len b b.length) = .ret b.length := by
  have hl : (rfc4648_encode b).length = pppoat_base64_enc_len b b.length := by
    rw [rfc4648_encode_length, enc_len_eq b _ (by unfold SIZE_MOD; omega)]
  refine ⟨rfc4648_encode b, enc_eq_rfc b h, hl, ?_⟩
  rw [← hl]
  exact dec_len_rfc b hb

/-- Below `3 * 2 ^ 31` input bytes the encoder fills the
`pppoat_base64_enc_len` characters of its result with a text the validator
accepts. -/
theorem enc_is_valid_of_lt (b : List Nat) (hb : ∀ x ∈ b, x < 256)
    (h : b.length < 3 * 2 ^ 31) :
    ∃ s, pppoat_base64_enc b b.length (pppoat_base64_enc_len b b.length) = .ret s ∧
      s.length = pppoat_base64_enc_len b b.length ∧
      pppoat_base64_is_valid s (pppoat_base64_enc_len b b.length) = true := by
  have hl : (rfc4648_encode b).length = pppoat_base64_enc_len b b.length := by
    rw [rfc4648_encode_length, enc_len_eq b _ (by unfold SIZE_MOD; omega)]
  refine ⟨rfc4648_encode b, enc_eq_rfc b h, hl, ?_⟩
  rw [← hl]
  exact is_valid_rfc b hb
/-! ## The claims -/

/-- Claim C1 holds of the claim, not of the code: evaluation of the round
trip on `overflow_input`, a sequence of `3 * 2 ^ 31 + 4` bytes. Called with
`result_len = pppoat_base64_enc_len = 8589934600`, `pppoat_base64_enc` returns
after writing only the `8589934596` characters `overflow_text`, too few to
hold the input: the `int` counter of its loop overflows after `2 ^ 31`
iterations and the loop ends one group early. Decoding does not return 0: on
the result buffer (here one that held `!` characters before the call, so that
its last four still do) and on the characters written alone, called with
`result_len = 6442450948`, `pppoat_base64_dec` fails its assertion on
`result_len`. -/
theorem C1_roundtrip_int_overflow :
    overflow_input.length = 6442450948 ∧
    (∀ x ∈ overflow_input, x < 256) ∧
    pppoat_base64_enc_len overflow_input 6442450948 = 8589934600 ∧
    pppoat_base64_enc overflow_input 6442450948 8589934600 = .ret overflow_text ∧
    overflow_text.length = 8589934596 ∧
    overflow_text.length / 4 * 3 < overflow_input.length ∧
    (∀ result : List Nat,
      pppoat_base64_dec (enc_result overflow_buffer overflow_text) 8589934600 result
        6442450948 = .abort) ∧
    (∀ result : List Nat,
      pppoat_base64_dec overflow_text 8589934596 result 6442450948 = .abort) := by
  refine ⟨overflow_input_length, ?_, overflow_enc_len _, enc_overflow_input,
    overflow_text_length, ?_, fun result => ?_, fun result => ?_⟩
  · intro x hx
    unfold overflow_input at hx
    rw [List.mem_append, List.mem_replicate] at hx
    rcases hx with h | h
    · rw [h.2]; norm_num
    · revert x; decide
  · rw [overflow_text_length, overflow_input_length]; norm_num
  · exact dec_abort_of_len_ne _ _ _ _ _ (by norm_num) overflow_result_dec_len (by norm_num)
  · exact dec_abort_of_len_ne _ _ _ _ _ (by norm_num) overflow_text_dec_len (by norm_num)

/-- Claim C2 holds of the claim, not of the code: evaluation of the encoder
on `overflow_input` (`3 * 2 ^ 31` zero bytes, then `4D 61 6E FF`). The
reference encoding ends in `TWFu/w==`; `pppoat_base64_enc` writes the same
characters for the zero bytes and then `TQ==`, because the `int` counter of
its loop overflows after `2 ^ 31` iterations: the group `4D 61 6E` is skipped
and the tail encodes `4D`. The three examples of the claim are encoded as the
claim says. -/
theorem C2_enc_int_overflow :
    pppoat_base64_enc overflow_input overflow_input.length
        (pppoat_base64_enc_len overflow_input overflow_input.length) =
      .ret (rfc4648_encode (List.replicate 6442450944 0) ++ ("TQ==".toList).map Char.toNat) ∧
    rfc4648_encode overflow_input =
      rfc4648_encode (List.replicate 6442450944 0) ++ ("TWFu/w==".toList).map Char.toNat ∧
    pppoat_base64_enc overflow_input overflow_input.length
        (pppoat_base64_enc_len overflow_input overflow_input.length) ≠
      .ret (rfc4648_encode overflow_input) ∧
    pppoat_base64_enc [0x4D, 0x61, 0x6E] 3 (pppoat_base64_enc_len [0x4D, 0x61, 0x6E] 3) =
      .ret (("TWFu".toList).map Char.toNat) ∧
    pppoat_base64_enc [0x4D, 0x61] 2 (pppoat_base64_enc_len [0x4D, 0x61] 2) =
      .ret (("TWE=".toList).map Char.toNat) ∧
    pppoat_base64_enc [0x4D] 1 (pppoat_base64_enc_len [0x4D] 1) =
      .ret (("TQ==".toList).map Char.toNat) := by
  have he : pppoat_base64_enc overflow_input overflow_input.length
      (pppoat_base64_enc_len overflow_input overflow_input.length) = .ret overflow_text := by
    rw [overflow_input_length, overflow_enc_len]
    exact enc_overflow_input
  have hr : rfc4648_encode overflow_input =
      rfc4648_encode (List.replicate 6442450944 0) ++
        ("TWFu/w==".toList).map Char.toNat := by
    unfold overflow_input
    rw [rfc4648_encode_append (2 ^ 31) _ (by rw [List.length_replicate]; norm_num)]
    congr 1
  refine ⟨he, hr, ?_, by decide, by decide, by decide⟩
  rw [he, hr]
  intro h
  have h1 : overflow_text = rfc4648_encode (List.replicate 6442450944 0) ++
      ("TWFu/w==".toList).map Char.toNat := Outcome.ret.inj h
  unfold overflow_text at h1
  exact absurd (List.append_cancel_left h1) (by decide)

/-- Claim C3 as stated fails. At `len = SIZE_MAX = 2 ^ 64 - 1` the sum
`len + 2` wraps around and `pppoat_base64_enc_len` returns 0, not
`ceil(len/3) * 4`. At `len = 3 * 2 ^ 31 + 4`, where `ceil(len/3) * 4 =
8589934600` is returned, `pppoat_base64_enc` writes `8589934596` characters
for the input `overflow_input`. -/
theorem C3_enc_len_counterexample :
    pppoat_base64_enc_len [] (2 ^ 64 - 1) = 0 ∧
    spec_encoded_length (2 ^ 64 - 1) = 24595658764946068820 ∧
    pppoat_base64_enc_len [] (2 ^ 64 - 1) ≠ spec_encoded_length (2 ^ 64 - 1) ∧
    overflow_input.length = 6442450948 ∧
    spec_encoded_length 6442450948 = 8589934600 ∧
    pppoat_base64_enc_len overflow_input 6442450948 = 8589934600 ∧
    pppoat_base64_enc overflow_input 6442450948 8589934600 = .ret overflow_text ∧
    overflow_text.length = 8589934596 := by
  rw [spec_encoded_length_eq, spec_encoded_length_eq]
  exact ⟨by decide, by decide, by decide, overflow_input_length, by norm_num,
    overflow_enc_len _, enc_overflow_input, overflow_text_length⟩

/-- Claim C3, amended. For every length `n` whose encoded length
`ceil(n/3) * 4` is representable in `size_t`, `pppoat_base64_enc_len` returns
exactly `ceil(n/3) * 4`; and for every `n < 3 * 2 ^ 31`, the lengths for which
the `int` counter of the encoding loop does not overflow,
`pppoat_base64_enc` writes exactly that many characters for every `n`-byte
input. -/
theorem C3_enc_len (n : Nat) (h : spec_encoded_length n < SIZE_MOD) :
    (∀ buf, pppoat_base64_enc_len buf n = spec_encoded_length n) ∧
    (n < 3 * 2 ^ 31 → ∀ b : List Nat, b.length = n →
      ∃ s, pppoat_base64_enc b n (pppoat_base64_enc_len b n) = .ret s ∧
        s.length = spec_encoded_length n ∧ s.length = pppoat_base64_enc_len b n) := by
  rw [spec_encoded_length_eq] at h ⊢
  refine ⟨fun buf => enc_len_eq buf n h, ?_⟩
  rintro hn b rfl
  exact ⟨rfc4648_encode b, enc_eq_rfc b hn, rfc4648_encode_length b,
    by rw [rfc4648_encode_length, enc_len_eq b _ h]⟩

/-- Witness of claim C3 (amended) at `n = 5`. -/
theorem C3_enc_len_witness :
    spec_encoded_length 5 < SIZE_MOD ∧
    (∀ buf, pppoat_base64_enc_len buf 5 = spec_encoded_length 5) ∧
    5 < 3 * 2 ^ 31 ∧
    ∀ b : List Nat, b.length = 5 →
      ∃ s, pppoat_base64_enc b 5 (pppoat_base64_enc_len b 5) = .ret s ∧
        s.length = spec_encoded_length 5 ∧ s.length = pppoat_base64_enc_len b 5 :=
  have h : spec_encoded_length 5 < SIZE_MOD := by
    rw [spec_encoded_length_eq]; decide
  ⟨h, (C3_enc_len 5 h).1, by norm_num, (C3_enc_len 5 h).2 (by norm_num)⟩

/-- Claim C4 fails on the code at the text `00 41 41 41` (NUL, then `AAA`):
`strchr` finds the NUL character at the terminator of `cb64`, so
`pppoat_base64_is_valid` accepts a text of length 4 whose first character is
not one of the 64 alphabet characters, while validity as claimed rejects
it. -/
theorem C4_is_valid_accepts_nul :
    pppoat_base64_is_valid [0, 65, 65, 65] 4 = true ∧
    (0 : Nat) ∉ alphabet ∧
    strchr cb64 0 = some 64 ∧
    ¬ spec_is_valid [0, 65, 65, 65] := by
  decide

/-- Claim C5 fails on the code at the text `00 41 41 41` (NUL, then `AAA`),
which has length 4 and ends in no `=`: `pppoat_base64_is_valid` is true, but
`pppoat_base64_dec`, called with `result_len = pppoat_base64_dec_len = 3`,
does not return 0: its assertion `(t & 0xc0) == 0` fails, for every content of
the result buffer. -/
theorem C5_valid_but_dec_aborts :
    [0, 65, 65, 65].length % 4 = 0 ∧
    trailing_pads [0, 65, 65, 65] = 0 ∧
    pppoat_base64_is_valid [0, 65, 65, 65] 4 = true ∧
    pppoat_base64_dec_len [0, 65, 65, 65] 4 = .ret 3 ∧
    ∀ result : List Nat, pppoat_base64_dec [0, 65, 65, 65] 4 result 3 = .abort :=
  ⟨by decide, by decide, by decide, by decide, fun _ => rfl⟩

/-- Claim C6 fails on the code at the text `00 41 41 41` (NUL, then `AAA`):
its length is a multiple of 4 and its first character is neither in the
alphabet nor a trailing pad, yet `pppoat_base64_dec` does not return
`-EINVAL`: the assertion `(t & 0xc0) == 0` fails and the call is aborted. -/
theorem C6_dec_nul_aborts :
    [0, 65, 65, 65].length % 4 = 0 ∧
    bad_char [0, 65, 65, 65] 0 ∧
    ∀ result r : List Nat,
      pppoat_base64_dec [0, 65, 65, 65] 4 result 3 = .abort ∧
      pppoat_base64_dec [0, 65, 65, 65] 4 result 3 ≠ .ret (P_ERR (-EINVAL), r) :=
  ⟨by decide, by decide, fun _ _ => ⟨rfl, fun h => by
    have h1 : (Outcome.abort : Outcome (Int × List Nat)) = .ret (P_ERR (-EINVAL), _) := h
    cases h1⟩⟩

/-- Claim C7 as stated fails: on the text `AA!A` the decoder returns `-EINVAL` after
it has already overwritten the first two bytes of the caller's buffer
`FF FF FF`, which is left as `00 00 FF`. -/
theorem C7_buffer_written_counterexample :
    pppoat_base64_dec [65, 65, 33, 65] 4 [255, 255, 255] 3 =
        .ret (P_ERR (-EINVAL), [0, 0, 255]) ∧
    ([0, 0, 255] : List Nat) ≠ [255, 255, 255] := by
  decide

/-- Claim C7, amended. When `pppoat_base64_dec` returns `-EINVAL`, it has stopped at
the first character `e` that `strchr` does not find in `cb64`; the result
buffer keeps its length and every byte at an index `k >= ceil(3e/4)` holds the
value it had before the call. Only the bytes below that index, whose decoding
had begun, may have been overwritten; nothing is written when `e = 0`. -/
theorem C7_dec_einval_untouched (base64 : List Nat) (len : Nat) (result : List Nat)
    (result_len : Nat) (r : List Nat)
    (h : pppoat_base64_dec base64 len result result_len = .ret (P_ERR (-EINVAL), r)) :
    ∃ e, e < len ∧ strchr cb64 (base64.getD e 0) = none ∧
      (∀ k < e, strchr cb64 (base64.getD k 0) ≠ none) ∧
      r.length = result.length ∧
      (∀ k, (3 * e + 3) / 4 ≤ k → r.getD k 0 = result.getD k 0) ∧
      (e = 0 → r = result) := by
  unfold pppoat_base64_dec PPPOAT_ASSERT at h
  by_cases h4 : len % 4 = 0
  · rw [if_pos h4] at h
    cases hd : pppoat_base64_dec_len base64 len with
    | ret n =>
      rw [hd] at h
      simp only [Outcome.bind] at h
      by_cases hn : result_len = n
      · rw [if_pos hn] at h
        obtain ⟨e, -, he2, he3, he4, he5, he6⟩ :=
          dec_loop_einval base64 len n (len + 1) 0 0 result r h (by simp)
        refine ⟨e, he2, he3, fun k hk => he4 k (Nat.zero_le k) hk, he5, he6, ?_⟩
        intro he0
        subst he0
        apply List.ext_getElem he5
        intro k hk1 hk2
        have hk := he6 k (by omega)
        rw [List.getD_eq_getElem _ _ hk1, List.getD_eq_getElem _ _ hk2] at hk
        exact hk
      · rw [if_neg hn] at h; cases h
    | abort => rw [hd] at h; cases h
    | fuel => rw [hd] at h; cases h
  · rw [if_neg h4] at h; cases h

/-- Witness of claim C7 (amended) at the text `TW!u` and the buffer `09 09 09`,
which is left as `4D 60 09`. -/
theorem C7_dec_einval_untouched_witness :
    pppoat_base64_dec [84, 87, 33, 117] 4 [9, 9, 9] 3 =
        .ret (P_ERR (-EINVAL), [77, 96, 9]) ∧
    ∃ e, e < 4 ∧ strchr cb64 ([84, 87, 33, 117].getD e 0) = none ∧
      (∀ k < e, strchr cb64 ([84, 87, 33, 117].getD k 0) ≠ none) ∧
      [77, 96, 9].length = [9, 9, 9].length ∧
      (∀ k, (3 * e + 3) / 4 ≤ k → [77, 96, 9].getD k 0 = [9, 9, 9].getD k 0) ∧
      (e = 0 → [77, 96, 9] = [9, 9, 9]) :=
  ⟨by decide,
    C7_dec_einval_untouched [84, 87, 33, 117] 4 [9, 9, 9] 3 [77, 96, 9] (by decide)⟩

/-- Claim C8 as stated fails: the text `AA=A` has length 4 and its last
character is not `=`, so the claimed value is `4 / 4 * 3 - 0 = 3`, but
`pppoat_base64_dec_len` counts the `=` in the last position but one and
returns 2. -/
theorem C8_dec_len_counterexample :
    [65, 65, 61, 65].length % 4 = 0 ∧
    trailing_pads [65, 65, 61, 65] = 0 ∧
    pppoat_base64_dec_len [65, 65, 61, 65] 4 = .ret 2 ∧
    pppoat_base64_dec_len [65, 65, 61, 65] 4 ≠
      .ret (4 / 4 * 3 - trailing_pads [65, 65, 61, 65]) := by
  decide

/-- Claim C8, amended. For every text whose length `len` is a multiple of 4,
`pppoat_base64_dec_len` returns `len / 4 * 3` minus the number of `=` among
the last two characters, each counted on its own; whenever the last character
but one is `=` only if the last one is, this is `len / 4 * 3` minus the
length (0, 1 or 2) of the trailing run of `=`. -/
theorem C8_dec_len (text : List Nat) (h : text.length % 4 = 0) :
    pppoat_base64_dec_len text text.length =
      .ret (text.length / 4 * 3 - pads_in_last_two text) ∧
    ((text.getD (text.length - 2) 0 = PAD → text.getD (text.length - 1) 0 = PAD) →
      pppoat_base64_dec_len text text.length =
        .ret (text.length / 4 * 3 - trailing_pads text)) := by
  have hs := dec_len_spec text h
  exact ⟨hs.1, fun hc => by rw [hs.1, hs.2 hc]⟩

/-- Witness of claim C8 (amended) at the text `TWE=`. -/
theorem C8_dec_len_witness :
    [84, 87, 69, 61].length % 4 = 0 ∧
    pppoat_base64_dec_len [84, 87, 69, 61] [84, 87, 69, 61].length =
      .ret ([84, 87, 69, 61].length / 4 * 3 - pads_in_last_two [84, 87, 69, 61]) ∧
    (([84, 87, 69, 61].getD ([84, 87, 69, 61].length - 2) 0 = PAD →
        [84, 87, 69, 61].getD ([84, 87, 69, 61].length - 1) 0 = PAD) →
      pppoat_base64_dec_len [84, 87, 69, 61] [84, 87, 69, 61].length =
        .ret ([84, 87, 69, 61].length / 4 * 3 - trailing_pads [84, 87, 69, 61])) :=
  ⟨by decide, C8_dec_len [84, 87, 69, 61] (by decide)⟩

/-- Claim C9 holds of the claim, not of the code: evaluation on
`overflow_input`, a sequence of `6442450948` bytes. `pppoat_base64_enc`
writes the characters `overflow_text`, 4 fewer than `result_len`, and
`pppoat_base64_dec_len` does not return `6442450948`: it returns `6442450950`
on the result buffer (one that held `!` characters before the call) with its
length `8589934600`, and `6442450945` on the characters written. On `TWFu`,
`TWE=`, `TQ==` and the empty text it returns 3, 2, 1 and 0. -/
theorem C9_dec_len_int_overflow :
    overflow_input.length = 6442450948 ∧
    pppoat_base64_enc overflow_input 6442450948
        (pppoat_base64_enc_len overflow_input 6442450948) = .ret overflow_text ∧
    pppoat_base64_dec_len (enc_result overflow_buffer overflow_text)
        (pppoat_base64_enc_len overflow_input 6442450948) = .ret 6442450950 ∧
    pppoat_base64_dec_len overflow_text overflow_text.length = .ret 6442450945 ∧
    pppoat_base64_dec_len (("TWFu".toList).map Char.toNat) 4 = .ret 3 ∧
    pppoat_base64_dec_len (("TWE=".toList).map Char.toNat) 4 = .ret 2 ∧
    pppoat_base64_dec_len (("TQ==".toList).map Char.toNat) 4 = .ret 1 ∧
    pppoat_base64_dec_len [] 0 = .ret 0 := by
  rw [overflow_enc_len, overflow_text_length]
  exact ⟨overflow_input_length, enc_overflow_input, overflow_result_dec_len,
    overflow_text_dec_len, by decide, by decide, by decide, by decide⟩

/-- Claim C10 fails on the code. On the text `A` of length 1, which
`pppoat_base64_is_valid` rejects, `pppoat_base64_dec_new` does not return
`-EINVAL`: it first calls `pppoat_base64_dec_len`, whose assertion
`len % 4 == 0` fails. On the text `00 41 41 41` (NUL, then `AAA`), which
passes validation, it does not return 0 either, even when the allocation
succeeds: the assertion `(t & 0xc0) == 0` of the decoder fails. -/
theorem C10_dec_new_aborts :
    (pppoat_base64_is_valid [65] 1 = false ∧
      ∀ (pppoat_alloc : Nat → Option (List Nat)) (out : DecNewOut),
        pppoat_base64_dec_new pppoat_alloc [65] 1 out = .abort) ∧
    (pppoat_base64_is_valid [0, 65, 65, 65] 4 = true ∧
      ∀ out : DecNewOut,
        pppoat_base64_dec_new (fun n => some (List.replicate n 0)) [0, 65, 65, 65] 4 out =
          .abort) :=
  ⟨⟨by decide, fun _ _ => rfl⟩, ⟨by decide, fun _ => rfl⟩⟩

/-- Claim C16. Decode equals the reference bit reassembly: whenever
`pppoat_base64_dec` returns 0 on a text, `result_len` is the decoded length of
the text and byte `k` of the result, for every `k` below it, is `ref_byte`:
`(v0 << 2) | (v1 >> 4)`, `((v1 & 15) << 4) | (v2 >> 2)` or
`((v2 & 3) << 6) | v3` for the alphabet positions `v0 .. v3` of the characters
of group `k / 3`. -/
theorem C16_dec_eq_reassembly (text : List Nat) (len : Nat) (result : List Nat)
    (result_len : Nat) (r : List Nat) (hbuf : result.length = result_len)
    (h : pppoat_base64_dec text len result result_len = .ret (0, r)) :
    pppoat_base64_dec_len text len = .ret result_len ∧
      ∀ k < result_len, r.getD k 0 = ref_byte text k :=
  dec_ref text len result result_len r hbuf h

/-- Witness of claim C16 at the text `TWE=`, which decodes to `4D 61`. -/
theorem C16_dec_eq_reassembly_witness :
    [7, 7].length = 2 ∧
    pppoat_base64_dec [84, 87, 69, 61] 4 [7, 7] 2 = .ret (0, [0x4D, 0x61]) ∧
    pppoat_base64_dec_len [84, 87, 69, 61] 4 = .ret 2 ∧
    ∀ k < 2, [0x4D, 0x61].getD k 0 = ref_byte [84, 87, 69, 61] k :=
  ⟨by decide, by decide,
    C16_dec_eq_reassembly [84, 87, 69, 61] 4 [7, 7] 2 [0x4D, 0x61] (by decide) (by decide)⟩

/-- Claim C18 holds of the claim, not of the code: evaluation on
`overflow_input`, a sequence of `6442450948` bytes. `pppoat_base64_enc`,
called with `result_len = pppoat_base64_enc_len = 8589934600`, writes the
`8589934596` characters `overflow_text` only; a result buffer that held `!`
characters before the call still ends in four of them, and
`pppoat_base64_is_valid` on this buffer, with the length
`pppoat_base64_enc_len`, returns false. -/
theorem C18_is_valid_int_overflow :
    overflow_input.length = 6442450948 ∧
    pppoat_base64_enc overflow_input 6442450948
        (pppoat_base64_enc_len overflow_input 6442450948) = .ret overflow_text ∧
    overflow_text.length = 8589934596 ∧
    pppoat_base64_enc_len overflow_input 6442450948 = 8589934600 ∧
    overflow_buffer.length = pppoat_base64_enc_len overflow_input 6442450948 ∧
    enc_result overflow_buffer overflow_text = overflow_text ++ [33, 33, 33, 33] ∧
    pppoat_base64_is_valid (enc_result overflow_buffer overflow_text)
        (pppoat_base64_enc_len overflow_input 6442450948) = false := by
  rw [overflow_enc_len]
  exact ⟨overflow_input_length, enc_overflow_input, overflow_text_length, rfl,
    by unfold overflow_buffer; rw [List.length_replicate], overflow_result,
    overflow_result_not_valid⟩

/-- Claim C19. Decoding is not canonical: the distinct texts `TQ==` and `TR==`
both pass `pppoat_base64_is_valid` and both decode to the single byte `4D`, as
does `T` followed by any character that differs from `Q` in its four low bits
only; encoding `4D` gives `TQ==`, so encoding the decoded `TR==` does not give
`TR==` back. -/
theorem C19_dec_not_canonical :
    (("TQ==".toList).map Char.toNat) ≠ (("TR==".toList).map Char.toNat) ∧
    pppoat_base64_is_valid (("TQ==".toList).map Char.toNat) 4 = true ∧
    pppoat_base64_is_valid (("TR==".toList).map Char.toNat) 4 = true ∧
    pppoat_base64_dec (("TQ==".toList).map Char.toNat) 4 [0] 1 = .ret (0, [0x4D]) ∧
    pppoat_base64_dec (("TR==".toList).map Char.toNat) 4 [0] 1 = .ret (0, [0x4D]) ∧
    (∀ low < 16,
      pppoat_base64_is_valid
        ['T'.toNat, alphabetAt (alphabet_pos 'Q'.toNat + low), PAD, PAD] 4 = true ∧
      pppoat_base64_dec
        ['T'.toNat, alphabetAt (alphabet_pos 'Q'.toNat + low), PAD, PAD] 4 [0] 1 =
          .ret (0, [0x4D])) ∧
    pppoat_base64_enc [0x4D] 1 (pppoat_base64_enc_len [0x4D] 1) =
      .ret (("TQ==".toList).map Char.toNat) ∧
    pppoat_base64_enc [0x4D] 1 (pppoat_base64_enc_len [0x4D] 1) ≠
      .ret (("TR==".toList).map Char.toNat) := by
  decide

/-- Claim C20 fails on the code at the text `00 41 41 41` (NUL, then `AAA`),
of length 4, with `result_len = pppoat_base64_dec_len = 3`: `strchr` finds the
NUL character at offset 64 of `cb64`, the looked-up position is `t = 64`, not
below 64, and the assertion `(t & 0xc0) == 0` fails; the call returns neither
0 nor `-EINVAL`. -/
theorem C20_dec_assertion_fails :
    [0, 65, 65, 65].length % 4 = 0 ∧
    pppoat_base64_dec_len [0, 65, 65, 65] 4 = .ret 3 ∧
    strchr cb64 ([0, 65, 65, 65].getD 0 0) = some 64 ∧
    (64 % 256) &&& 0xc0 ≠ 0 ∧
    ∀ result r : List Nat,
      pppoat_base64_dec [0, 65, 65, 65] 4 result 3 = .abort ∧
      pppoat_base64_dec [0, 65, 65, 65] 4 result 3 ≠ .ret (0, r) ∧
      pppoat_base64_dec [0, 65, 65, 65] 4 result 3 ≠ .ret (P_ERR (-EINVAL), r) :=
  ⟨by decide, by decide, by decide, by decide, fun _ _ =>
    ⟨rfl, fun h => Outcome.noConfusion h, fun h => Outcome.noConfusion h⟩⟩

/-! ## Claims on the entry point (`src/pppoat.c`) -/

/-- Claim C11, as stated, fails on the code. In the run of `main` in which
every call succeeds, `mod` is started before `mod2`, both modules are stopped
and finalised, and `mod2` is not stopped before `mod`, nor finalised before
`mod`: at the first `pppoat_module_stop (mod)` no `pppoat_module_stop (mod2)`
has been made, and likewise for `pppoat_module_fini`. -/
theorem C11_shutdown_not_reverse :
    (main env_ok).out = .ret 0 ∧
    before (.pppoat_module_run .mod) (.pppoat_module_run .mod2) (main env_ok).trace ∧
    Event.pppoat_module_run .mod2 ∈ (main env_ok).trace ∧
    Event.pppoat_module_stop .mod ∈ (main env_ok).trace ∧
    Event.pppoat_module_stop .mod2 ∈ (main env_ok).trace ∧
    Event.pppoat_module_fini .mod ∈ (main env_ok).trace ∧
    Event.pppoat_module_fini .mod2 ∈ (main env_ok).trace ∧
    ¬ before (.pppoat_module_stop .mod2) (.pppoat_module_stop .mod) (main env_ok).trace ∧
    ¬ before (.pppoat_module_fini .mod2) (.pppoat_module_fini .mod) (main env_ok).trace := by
  decide

/-- Claim C11, amended. In every run of `main` the modules are shut down in
the order in which they were registered and started, not in the reverse
order: `mod` is added to the pipeline before `mod2` and run before `mod2`;
after the wait on the exit semaphore `mod` is stopped before `mod2`, both are
stopped before either is finalised, and `mod` is finalised before `mod2`. -/
theorem C11_shutdown_in_start_order (env : MainEnv) :
    before (.pppoat_pipeline_add_module .mod) (.pppoat_pipeline_add_module .mod2)
      (main env).trace ∧
    before (.pppoat_module_run .mod) (.pppoat_module_run .mod2) (main env).trace ∧
    before .pppoat_semaphore_wait (.pppoat_module_stop .mod) (main env).trace ∧
    before (.pppoat_module_stop .mod) (.pppoat_module_stop .mod2) (main env).trace ∧
    before (.pppoat_module_stop .mod2) (.pppoat_module_fini .mod) (main env).trace ∧
    before (.pppoat_module_fini .mod) (.pppoat_module_fini .mod2) (main env).trace := by
  have h := (main_run_ok env).1.1
  exact ⟨h (_, _) (by decide), h (_, _) (by decide), h (_, _) (by decide),
    h (_, _) (by decide), h (_, _) (by decide), h (_, _) (by decide)⟩

/-- Claim C12, as stated, fails on the code: an invocation of
`pppoat_sighandler` makes a logging call (`pppoat_debug`), so the post of the
semaphore is not its only call. -/
theorem C12_sighandler_logs :
    Event.pppoat_log .debug ∈ (pppoat_sighandler 15).trace ∧
    (pppoat_sighandler 15).trace ≠ [.pppoat_semaphore_post] := by
  decide

/-- Claim C12, amended. On every invocation, for every signal number,
`pppoat_sighandler` makes exactly two calls and returns: one logging call at
debug level, then the post of the exit semaphore. It makes no allocation and
no wait on the semaphore. -/
theorem C12_sighandler_calls (signo : Int) :
    (pppoat_sighandler signo).trace = [.pppoat_log .debug, .pppoat_semaphore_post] ∧
    (pppoat_sighandler signo).out = .ret () ∧
    (∀ o : Mem, Event.pppoat_alloc o ∉ (pppoat_sighandler signo).trace) ∧
    Event.pppoat_semaphore_wait ∉ (pppoat_sighandler signo).trace := by
  refine ⟨rfl, rfl, fun o h => ?_, fun h => ?_⟩
  · have h2 : Event.pppoat_alloc o ∈ [Event.pppoat_log .debug, Event.pppoat_semaphore_post] := h
    simp at h2
  · have h2 : Event.pppoat_semaphore_wait ∈
        [Event.pppoat_log .debug, Event.pppoat_semaphore_post] := h
    simp at h2

/-- Claim C13 holds of the claim, not of the code: evaluation of `main` on
startup failures. When the lookup of the configuration file fails (`rc = -5`,
neither 0 nor `-ENOENT`), and when the file is found but cannot be read
(`pppoat_conf_read_file` returns -5, after which `pppoat_error` is called),
`main` returns 0 although no module was run, the exit semaphore was never
waited on and no help was printed. The two logging failures return 1. -/
theorem C13_config_failure_exits_zero :
    (main { env_ok with conf_find_rc := -5 }).out = .ret 0 ∧
    (main { env_ok with conf_find_rc := 0, conf_read_file_rc := -5 }).out = .ret 0 ∧
    Event.pppoat_log .error ∈
      (main { env_ok with conf_find_rc := 0, conf_read_file_rc := -5 }).trace ∧
    Event.pppoat_semaphore_wait ∉ (main { env_ok with conf_find_rc := -5 }).trace ∧
    Event.pppoat_conf_print_usage ∉ (main { env_ok with conf_find_rc := -5 }).trace ∧
    Event.pppoat_semaphore_wait ∉
      (main { env_ok with conf_find_rc := 0, conf_read_file_rc := -5 }).trace ∧
    Event.pppoat_conf_print_usage ∉
      (main { env_ok with conf_find_rc := 0, conf_read_file_rc := -5 }).trace ∧
    (main { env_ok with log_init_rc := -5 }).out = .ret 1 ∧
    (main { env_ok with log_init_conf_rc := -5 }).out = .ret 1 := by
  decide

/-- Claim C14. In every run of `main`, a call `pppoat_pipeline_ready (true)`
is preceded by `pppoat_pipeline_add_module` and by `pppoat_module_run` for
both modules, and is made only when both `pppoat_module_run` calls returned
0; every call `pppoat_module_stop`, on either module, is preceded by
`pppoat_pipeline_ready (false)`. In the run in which every call succeeds the
readiness is set, then cleared, and both modules are stopped. -/
theorem C14_readiness_gate (env : MainEnv) :
    before (.pppoat_pipeline_add_module .mod) (.pppoat_pipeline_ready true) (main env).trace ∧
    before (.pppoat_pipeline_add_module .mod2) (.pppoat_pipeline_ready true) (main env).trace ∧
    before (.pppoat_module_run .mod) (.pppoat_pipeline_ready true) (main env).trace ∧
    before (.pppoat_module_run .mod2) (.pppoat_pipeline_ready true) (main env).trace ∧
    (Event.pppoat_pipeline_ready true ∈ (main env).trace →
      env.mod_run_rc = 0 ∧ env.mod2_run_rc = 0) ∧
    before (.pppoat_pipeline_ready false) (.pppoat_module_stop .mod) (main env).trace ∧
    before (.pppoat_pipeline_ready false) (.pppoat_module_stop .mod2) (main env).trace ∧
    Event.pppoat_pipeline_ready true ∈ (main env_ok).trace ∧
    Event.pppoat_pipeline_ready false ∈ (main env_ok).trace ∧
    Event.pppoat_module_stop .mod ∈ (main env_ok).trace ∧
    Event.pppoat_module_stop .mod2 ∈ (main env_ok).trace := by
  have h := (main_run_ok env).1.1
  exact ⟨h (_, _) (by decide), h (_, _) (by decide), h (_, _) (by decide),
    h (_, _) (by decide), (main_run_ok env).2, h (_, _) (by decide), h (_, _) (by decide),
    by decide, by decide, by decide, by decide⟩

/-- Claim C15, as stated, fails on the code. In the run of `main` in which
every call succeeds, the modules are stopped and the context is finalised
while `pppoat_sighandler` is the disposition of `SIGTERM` and `SIGINT`, not
the default; inside `pppoat_cleanup` the first finaliser of the context is
called before any `sigaction` that restores the default. -/
theorem C15_teardown_not_under_default :
    Event.pppoat_module_stop .mod ∈ (main env_ok).trace ∧
    Event.comp_fini .pipeline ∈ (main env_ok).trace ∧
    ¬ runs_under (.pppoat_module_stop .mod) .SIGTERM .SIG_DFL (main env_ok).trace ∧
    ¬ runs_under (.pppoat_module_stop .mod) .SIGINT .SIG_DFL (main env_ok).trace ∧
    ¬ runs_under (.comp_fini .pipeline) .SIGTERM .SIG_DFL (main env_ok).trace ∧
    ¬ runs_under (.comp_fini .pipeline) .SIGINT .SIG_DFL (main env_ok).trace ∧
    ¬ before (.sigaction .SIGTERM .SIG_DFL) (.comp_fini .pipeline) (pppoat_cleanup true).trace ∧
    ¬ before (.sigaction .SIGINT .SIG_DFL) (.comp_fini .pipeline) (pppoat_cleanup true).trace := by
  decide

/-- Claim C15, amended. On both paths of `pppoat_cleanup` (with or without a
context) the default disposition of `SIGTERM` and of `SIGINT` is requested
before `pppoat_semaphore_fini`, which is called, and is the disposition in
force when `pppoat_cleanup` returns; the same order holds in every run of
`main`. The restoration comes after the teardown, not before it: in every run
of `main`, every stop and finalisation of a module and every finalisation of
a sub-component of the context is made while `pppoat_sighandler` is still the
disposition of both signals. -/
theorem C15_restore_before_semaphore_fini (env : MainEnv) (ctx : Bool) :
    before (.sigaction .SIGTERM .SIG_DFL) .pppoat_semaphore_fini (pppoat_cleanup ctx).trace ∧
    before (.sigaction .SIGINT .SIG_DFL) .pppoat_semaphore_fini (pppoat_cleanup ctx).trace ∧
    Event.pppoat_semaphore_fini ∈ (pppoat_cleanup ctx).trace ∧
    disposition .SIGTERM (pppoat_cleanup ctx).trace = .SIG_DFL ∧
    disposition .SIGINT (pppoat_cleanup ctx).trace = .SIG_DFL ∧
    before (.sigaction .SIGTERM .SIG_DFL) .pppoat_semaphore_fini (main env).trace ∧
    before (.sigaction .SIGINT .SIG_DFL) .pppoat_semaphore_fini (main env).trace ∧
    (∀ e ∈ teardown_calls,
      runs_under e .SIGTERM .handler (main env).trace ∧
        runs_under e .SIGINT .handler (main env).trace) := by
  have h := (main_run_ok env).1
  refine ⟨?_, ?_, ?_, ?_, ?_, h.1 (_, _) (by decide), h.1 (_, _) (by decide), h.2⟩ <;>
    cases ctx <;> decide

/-- Claim C17. `pppoat_init` is all-or-nothing, for every behaviour of its
callees. It returns the reference result `spec_init_result`: 0 exactly when
the three allocations and the three sub-initialisations succeed, otherwise
the error of the first failing step (`-ENOMEM` for an allocation). It always
returns (the assertion `rc != 0` of the error path never fails). The three
allocations are each requested once. The initialisers called are those of
conf, packets and pipeline, once each and in that order, up to and including
the first that fails, and none after a failed allocation. On success nothing
is finalised or freed. On failure the finalisers called are exactly those of
the sub-components initialised in this run (initialiser called and returned
0), once each and in the reverse order of initialisation, and the three
allocations are freed, once each. The calls are made in this order:
allocations, initialisers, finalisers, frees; so the trace is fixed by these
four lists. -/
theorem C17_init_all_or_nothing (env : InitEnv) :
    (pppoat_init env).out = .ret (spec_init_result env) ∧
    (spec_init_result env = 0 ↔ init_ok env) ∧
    allocs (pppoat_init env).trace = [.comp .conf, .comp .pkts, .comp .pipeline] ∧
    inits (pppoat_init env).trace = spec_attempted env ∧
    inits (pppoat_init env).trace <+: [.conf, .pkts, .pipeline] ∧
    initialised env (pppoat_init env).trace = spec_initialised env ∧
    (if init_ok env then
      finis (pppoat_init env).trace = [] ∧ frees (pppoat_init env).trace = []
    else
      finis (pppoat_init env).trace = (initialised env (pppoat_init env).trace).reverse ∧
      frees (pppoat_init env).trace = [.comp .pipeline, .comp .pkts, .comp .conf]) ∧
    (pppoat_init env).trace =
      (allocs (pppoat_init env).trace).map .pppoat_alloc ++
      (inits (pppoat_init env).trace).map .comp_init ++
      (finis (pppoat_init env).trace).map .comp_fini ++
      (frees (pppoat_init env).trace).map .pppoat_free := by
  by_cases ha : ¬env.conf_alloc = true ∨ ¬env.pkts_alloc = true ∨ ¬env.pipeline_alloc = true
  · have hb : ¬(env.conf_alloc = true ∧ env.pkts_alloc = true ∧ env.pipeline_alloc = true) := by
      tauto
    have hc : ¬ init_ok env := by unfold init_ok; tauto
    simp only [pppoat_init, err_pkts_fini, err_conf_fini, err_free,
      call_bind, assert_bind, pure_bind_prog, ite_bind_prog, cons_bind, abort_bind,
      ↓reduceIte, ne_eq, not_true_eq_false, not_false_eq_true, call_eq,
      perr_enomem_eq, spec_init_result, spec_initialised, spec_attempted,
      cons_trace, cons_out, pure_trace, pure_out, and_self, or_self,
      ha, hb, hc]
    refine ⟨?_, ?_, ?_, ?_, ?_, ?_, ?_, ?_⟩ <;>
      first
      | rfl
      | decide
      | simp [initialised, inits, finis, frees, InitEnv.init_rc, *]
  · have hb : env.conf_alloc = true ∧ env.pkts_alloc = true ∧ env.pipeline_alloc = true := by
      tauto
    obtain ⟨a1, a2, a3⟩ := hb
    by_cases h1 : env.conf_init_rc = 0
    swap
    · have hc : ¬ init_ok env := fun h => h1 h.2.2.2.1
      simp only [pppoat_init, err_pkts_fini, err_conf_fini, err_free,
        call_bind, assert_bind, pure_bind_prog, ite_bind_prog, cons_bind, abort_bind,
        ↓reduceIte, ne_eq, not_true_eq_false, not_false_eq_true, call_eq,
        perr_enomem_eq, spec_init_result, spec_initialised, spec_attempted,
        cons_trace, cons_out, pure_trace, pure_out, and_self, or_self,
        a1, a2, a3, hc, h1]
      refine ⟨?_, ?_, ?_, ?_, ?_, ?_, ?_, ?_⟩ <;>
        first
        | rfl
        | decide
        | simp [initialised, inits, finis, frees, InitEnv.init_rc, *]
    by_cases h2 : env.packets_init_rc = 0
    swap
    · have hc : ¬ init_ok env := fun h => h2 h.2.2.2.2.1
      simp only [pppoat_init, err_pkts_fini, err_conf_fini, err_free,
        call_bind, assert_bind, pure_bind_prog, ite_bind_prog, cons_bind, abort_bind,
        ↓reduceIte, ne_eq, not_true_eq_false, not_false_eq_true, call_eq,
        perr_enomem_eq, spec_init_result, spec_initialised, spec_attempted,
        cons_trace, cons_out, pure_trace, pure_out, and_self, or_self,
        a1, a2, a3, hc, h1, h2]
      refine ⟨?_, ?_, ?_, ?_, ?_, ?_, ?_, ?_⟩ <;>
        first
        | rfl
        | decide
        | simp [initialised, inits, finis, frees, InitEnv.init_rc, *]
    by_cases h3 : env.pipeline_init_rc = 0
    swap
    · have hc : ¬ init_ok env := fun h => h3 h.2.2.2.2.2
      simp only [pppoat_init, err_pkts_fini, err_conf_fini, err_free,
        call_bind, assert_bind, pure_bind_prog, ite_bind_prog, cons_bind, abort_bind,
        ↓reduceIte, ne_eq, not_true_eq_false, not_false_eq_true, call_eq,
        perr_enomem_eq, spec_init_result, spec_initialised, spec_attempted,
        cons_trace, cons_out, pure_trace, pure_out, and_self, or_self,
        a1, a2, a3, hc, h1, h2, h3]
      refine ⟨?_, ?_, ?_, ?_, ?_, ?_, ?_, ?_⟩ <;>
        first
        | rfl
        | decide
        | simp [initialised, inits, finis, frees, InitEnv.init_rc, *]
    have hc : init_ok env := ⟨a1, a2, a3, h1, h2, h3⟩
    simp only [pppoat_init, err_pkts_fini, err_conf_fini, err_free,
      call_bind, assert_bind, pure_bind_prog, ite_bind_prog, cons_bind, abort_bind,
      ↓reduceIte, ne_eq, not_true_eq_false, not_false_eq_true, call_eq,
      perr_enomem_eq, spec_init_result, spec_initialised, spec_attempted,
      cons_trace, cons_out, pure_trace, pure_out, and_self, or_self,
      a1, a2, a3, hc, h1, h2, h3]
    refine ⟨?_, ?_, ?_, ?_, ?_, ?_, ?_, ?_⟩ <;>
      first
      | rfl
      | decide
      | simp [initialised, inits, finis, frees, InitEnv.init_rc, *]

end Pppoat
